import Mathlib

/-!
# SampleRenderer::Renderer — render queue and frame compositor

A shallow embedding of the queue management and of `Renderer::render` from
`Samples/SampleFramework/renderer/src/Renderer.cpp`.

* C++ objects reached through pointers (materials, meshes, lights, targets) are
  addresses (`Nat`) into explicit stores; a null pointer is `none`.
* `std::vector` is `List`, `push_back` appends at the end.
* Calls into the graphics backend (virtual functions of the renderer, of lights
  and of targets) are recorded, in program order, as a list of `Call`s.
* `RENDERER_ASSERT` and `RENDERER_PERFZONE` have no effect on the state and are
  left out: the behaviour embedded is that of a build in which asserts log and
  return.
* Floating point coordinates are exact integers.
-/

namespace SampleRenderer

/-! ## Data model -/

/-- Address of a `RendererMaterial`. -/
abbrev MaterialId := Nat
/-- Address of a `RendererMaterialInstance`. -/
abbrev MaterialInstanceId := Nat
/-- Address of a `RendererMesh`. -/
abbrev MeshId := Nat
/-- Address of a `RendererLight`. -/
abbrev LightId := Nat
/-- Address of a `RendererTarget`. -/
abbrev TargetId := Nat
/-- Address of a `Renderer` (the value of `this`). -/
abbrev RendererId := Nat

/-- The enumeration `RendererMaterial::Type`. `Renderer.cpp` names `TYPE_LIT` and
`TYPE_UNLIT`; any further enumerator is `other`. -/
inductive MaterialType where
  | TYPE_UNLIT
  | TYPE_LIT
  | other (tag : Nat)
  deriving DecidableEq, Repr

/-- The enumeration `RendererMaterial::Pass`. `Renderer::render` names `PASS_UNLIT`
and `PASS_DEPTH`; the lit passes returned by `RendererLight::getPass()` are
`lit tag`. -/
inductive Pass where
  | PASS_UNLIT
  | PASS_DEPTH
  | lit (tag : Nat)
  deriving DecidableEq, Repr

/-- The part of a `RendererMaterial` read by the queueing code: what `getType()` and
`getBlending()` return. -/
structure RendererMaterial where
  m_type : MaterialType
  m_blending : Bool
  deriving DecidableEq, Repr

/-- The value `RendererColor(r, g, b, a)`. -/
structure RendererColor where
  r : Nat
  g : Nat
  b : Nat
  a : Nat
  deriving DecidableEq, Repr

/-- The vector type `physx::PxVec3`, with exact coordinates. -/
structure PxVec3 where
  x : Int
  y : Int
  z : Int
  deriving DecidableEq, Repr

/-- Modelled from the spec: `physx::PxMat44` (declared in the SDK headers, not among
the sources) as the "camera transform" and the "optional spatial transform" of a
mesh: three basis columns and the position column that `getPosition()` returns. -/
structure PxMat44 where
  column0 : PxVec3
  column1 : PxVec3
  column2 : PxVec3
  column3 : PxVec3
  deriving DecidableEq, Repr

/-- The accessor `PxMat44::getPosition()`. -/
def PxMat44.getPosition (m : PxMat44) : PxVec3 := m.column3

/-- The matrix `physx::PxMat44(PxIdentity)`. -/
def PxMat44.identity : PxMat44 :=
  { column0 := ⟨1, 0, 0⟩, column1 := ⟨0, 1, 0⟩, column2 := ⟨0, 0, 1⟩, column3 := ⟨0, 0, 0⟩ }

/-- A `RendererProjection`: either built from the six planes
`(left, right, bottom, top, near, far)`, as `render` does for screen space meshes,
or any other projection handed in by the caller. -/
inductive RendererProjection where
  | ortho (left right bottom top near far : Int)
  | other (tag : Nat)
  deriving DecidableEq, Repr

/-- The fields of a `RendererMeshContext` that `Renderer.cpp` reads when queueing,
removing, sorting and dispatching. -/
structure RendererMeshContext where
  material : Option MaterialId
  materialInstance : Option MaterialInstanceId
  mesh : Option MeshId
  transform : Option PxMat44
  screenSpace : Bool
  deriving DecidableEq, Repr

/-- Modelled from the spec: `RendererMeshContext::isValid()` (defined outside the
sources) accepts an entry unless it has an "invalid mesh/material reference": both
the mesh and the material pointer are set. -/
def RendererMeshContext.isValid (c : RendererMeshContext) : Bool :=
  c.mesh.isSome && c.material.isSome

/-- The part of a `RendererLight` used by the renderer: the owner `m_renderer` and
the pass that the virtual `getPass()` returns. -/
structure RendererLight where
  m_renderer : Option RendererId
  pass : Pass
  deriving DecidableEq, Repr

/-- Modelled from the spec: `RendererLight::isLocked()` (declared outside the
sources), the "lock flag": a light is locked when an owner is set. -/
def RendererLight.isLocked (l : RendererLight) : Bool := l.m_renderer.isSome

/-- The `RendererLight::getPass()` accessor. -/
def RendererLight.getPass (l : RendererLight) : Pass := l.pass

/-- The members of `Renderer` that the queueing code and `render` use. `self` is the
address of the renderer, the value stored into `RendererLight::m_renderer`. -/
structure Renderer where
  self : RendererId
  m_visibleLitMeshes : List RendererMeshContext
  m_visibleUnlitMeshes : List RendererMeshContext
  m_screenSpaceMeshes : List RendererMeshContext
  m_visibleLitTransparentMeshes : List RendererMeshContext
  m_visibleLights : List LightId
  m_ambientColor : RendererColor
  m_fogColor : RendererColor
  m_fogDistance : Int
  deriving DecidableEq, Repr

/-! ## Queueing meshes -/

/-- The function `Renderer::queueMeshForRender`. `materials` is the store the
`mesh.material` pointer is dereferenced in. -/
def queueMeshForRender (materials : MaterialId → RendererMaterial) (r : Renderer)
    (mesh : RendererMeshContext) : Renderer :=
  if mesh.isValid then
    if mesh.screenSpace then
      { r with m_screenSpaceMeshes := r.m_screenSpaceMeshes ++ [mesh] }
    else
      match mesh.material with
      | none => r
      | some m =>
        match (materials m).m_type with
        | MaterialType.TYPE_LIT =>
          if (materials m).m_blending then
            { r with m_visibleLitTransparentMeshes := r.m_visibleLitTransparentMeshes ++ [mesh] }
          else
            { r with m_visibleLitMeshes := r.m_visibleLitMeshes ++ [mesh] }
        | _ =>
          { r with m_visibleUnlitMeshes := r.m_visibleUnlitMeshes ++ [mesh] }
  else
    r

/-- The algorithm `std::remove_if(first, last, pred)` followed by
`erase(result, last)`: the elements for which `pred` holds are dropped, the others
are shifted down in the order they are met. -/
def remove_if (pred : RendererMeshContext → Bool) :
    List RendererMeshContext → List RendererMeshContext
  | [] => []
  | c :: rest => if pred c then remove_if pred rest else c :: remove_if pred rest

/-- The predicate object `RenderMeshContextHasMesh(mesh)`: `meshContext.mesh == mMesh`. -/
def RenderMeshContextHasMesh (mMesh : MeshId) (meshContext : RendererMeshContext) : Bool :=
  decide (meshContext.mesh = some mMesh)

/-- The function `Renderer::removeMeshFromRenderQueue`: every one of the four queues
is searched. -/
def removeMeshFromRenderQueue (r : Renderer) (mesh : MeshId) : Renderer :=
  { r with
    m_visibleLitMeshes := remove_if (RenderMeshContextHasMesh mesh) r.m_visibleLitMeshes
    m_visibleUnlitMeshes := remove_if (RenderMeshContextHasMesh mesh) r.m_visibleUnlitMeshes
    m_screenSpaceMeshes := remove_if (RenderMeshContextHasMesh mesh) r.m_screenSpaceMeshes
    m_visibleLitTransparentMeshes :=
      remove_if (RenderMeshContextHasMesh mesh) r.m_visibleLitTransparentMeshes }

/-! ## Queueing lights -/

/-- The assignment `light.m_renderer = owner` in the store of lights. -/
def setOwner (lights : LightId → RendererLight) (light : LightId)
    (owner : Option RendererId) : LightId → RendererLight :=
  Function.update lights light { lights light with m_renderer := owner }

/-- The function `Renderer::queueLightForRender`: returns the store of lights and the
renderer after the call. -/
def queueLightForRender (lights : LightId → RendererLight) (r : Renderer) (light : LightId) :
    (LightId → RendererLight) × Renderer :=
  if !(lights light).isLocked then
    (setOwner lights light (some r.self),
      { r with m_visibleLights := r.m_visibleLights ++ [light] })
  else
    (lights, r)

/-! ## Backend calls -/

/-- The four mesh queues of the renderer. -/
inductive Queue where
  | screenSpace
  | visibleLit
  | visibleUnlit
  | visibleLitTransparent
  deriving DecidableEq, Repr

/-- The calls that `Renderer::render` makes, in program order. `renderMeshes q meshes pass`
is the call `renderMeshes(q, pass)` on the member vector `q`, whose content at the
time of the call is `meshes`. `scopedRenderEnter` and `scopedRenderLeave` are the
construction and the destruction of the local `ScopedRender renderSection`. -/
inductive Call where
  | targetBind (target : TargetId)
  | targetUnbind (target : TargetId)
  | scopedRenderEnter
  | scopedRenderLeave
  | bindViewProj (eye : PxMat44) (proj : RendererProjection)
  | bindAmbientState (color : RendererColor)
  | bindFogState (color : RendererColor) (distance : Int)
  | bindDeferredState
  | beginMultiPass
  | endMultiPass
  | beginTransparentMultiPass
  | endTransparentMultiPass
  | lightBind (light : LightId)
  | renderDeferredLight (light : LightId)
  | renderMeshes (q : Queue) (meshes : List RendererMeshContext) (pass : Pass)
  deriving DecidableEq, Repr

/-! ## Sorting the transparent queue -/

/-- The squared length `PxVec3::magnitudeSquared()` of the difference `a - b`. -/
def distSquared (a b : PxVec3) : Int :=
  (a.x - b.x) * (a.x - b.x) + (a.y - b.y) * (a.y - b.y) + (a.z - b.z) * (a.z - b.z)

/-- The comparator `CompareMeshCameraDist(t)`. -/
def CompareMeshCameraDist (t : PxVec3) (c1 c2 : RendererMeshContext) : Bool :=
  match c1.transform, c2.transform with
  | none, none => false
  | none, some _ => true
  | some _, none => false
  | some t1, some t2 => decide (distSquared t1.getPosition t > distSquared t2.getPosition t)

/-- A comparator that `std::sort` accepts: a strict weak ordering. -/
structure StrictWeakOrdering (comp : RendererMeshContext → RendererMeshContext → Bool) :
    Prop where
  irrefl : ∀ a, comp a a = false
  trans : ∀ a b c, comp a b = true → comp b c = true → comp a c = true
  incomp_trans : ∀ a b c, comp a b = false → comp b a = false → comp b c = false →
    comp c b = false → comp a c = false ∧ comp c a = false

/-- The library algorithm `std::sort(first, last, comp)`. Its implementation belongs
to the C++ standard library, not to the repository; what the standard guarantees of
any implementation is that the range is permuted and that, for a strict weak
ordering, no element is ordered before one that precedes it in the result. -/
structure StdSort where
  sort : (RendererMeshContext → RendererMeshContext → Bool) →
    List RendererMeshContext → List RendererMeshContext
  perm : ∀ comp l, List.Perm (sort comp l) l
  sorted : ∀ comp l, StrictWeakOrdering comp →
    List.Pairwise (fun a b => comp b a = false) (sort comp l)

/-- The function `Renderer::sortMeshes`. -/
def sortMeshes (S : StdSort) (r : Renderer) (eye : PxMat44) : Renderer :=
  { r with
    m_visibleLitTransparentMeshes :=
      S.sort (CompareMeshCameraDist eye.getPosition) r.m_visibleLitTransparentMeshes }

/-! ## The frame compositor -/

/-- The cast `(PxU32)m_visibleLights.size()`. -/
def numLightsOf (r : Renderer) : Nat := r.m_visibleLights.length % 4294967296

/-- The loop `for (PxU32 i = lo; i < hi; i++) body(*m_visibleLights[i])`, for
`hi` at most the size of the vector: the calls of the bodies, in index order. -/
def forEachLight (visibleLights : List LightId) (lo hi : Nat) (body : LightId → List Call) :
    List Call :=
  ((visibleLights.take hi).drop lo).flatMap body

/-- The function `Renderer::renderDeferredLights`. -/
def renderDeferredLights (r : Renderer) : List Call :=
  forEachLight r.m_visibleLights 0 (numLightsOf r) (fun light => [Call.renderDeferredLight light])

/-- The loop `for (i = 0; i < numLights; ++i) m_visibleLights[i]->m_renderer = 0`. -/
def unlockLights (lights : LightId → RendererLight) (visibleLights : List LightId)
    (numLights : Nat) : LightId → RendererLight :=
  (visibleLights.take numLights).foldl (fun store light => setOwner store light none) lights

/-- The constant `RendererColor(0,0,0,255)`. -/
def black : RendererColor := ⟨0, 0, 0, 255⟩

/-- The projection `RendererProjection(-1.0f, 1.0f, -1.0f, 1.0f, 1.0f, -1.0f)`. -/
def screenSpaceProjection : RendererProjection := RendererProjection.ortho (-1) 1 (-1) 1 1 (-1)

/-- The statements of `Renderer::render` guarded by `if(!depthOnly)`: the dispatch of
the screen space queue. -/
def renderScreenSpace (r : Renderer) (depthOnly : Bool) : List Call :=
  if !depthOnly then
    if r.m_screenSpaceMeshes.length != 0 then
      [Call.bindViewProj PxMat44.identity screenSpaceProjection,
       Call.renderMeshes Queue.screenSpace r.m_screenSpaceMeshes Pass.PASS_UNLIT]
    else []
  else []

/-- The branch `else if(numLights > 0)` of `Renderer::render`, in the build without
`RENDERER_ENABLE_SINGLE_PASS_LIGHTING`: the calls made and the store of lights after
the unlocking loop (the statements after the `#endif` use `light0`, which only the
`#else` part declares, so this is the variant that compiles). `r` is the renderer
after `sortMeshes`. The branch is entered with `numLights > 0` only, so
`m_visibleLights[0]` exists. -/
def renderLit (lights : LightId → RendererLight) (r : Renderer) (numLights : Nat)
    (eye : PxMat44) (proj : RendererProjection) : (LightId → RendererLight) × List Call :=
  match r.m_visibleLights with
  | [] => (lights, [])
  | light0 :: _ =>
    (unlockLights lights r.m_visibleLights numLights,
      [Call.bindAmbientState r.m_ambientColor,
       Call.bindFogState r.m_fogColor r.m_fogDistance,
       Call.bindViewProj eye proj,
       Call.lightBind light0,
       Call.renderMeshes Queue.visibleLit r.m_visibleLitMeshes (lights light0).getPass,
       Call.bindAmbientState black,
       Call.beginMultiPass]
      ++ forEachLight r.m_visibleLights 1 numLights (fun light =>
          [Call.lightBind light,
           Call.renderMeshes Queue.visibleLit r.m_visibleLitMeshes (lights light).getPass])
      ++ [Call.endMultiPass,
          Call.renderMeshes Queue.visibleUnlit r.m_visibleUnlitMeshes Pass.PASS_UNLIT]
      ++ (if r.m_visibleLitTransparentMeshes.length > 0 then
            [Call.lightBind light0,
             Call.renderMeshes Queue.visibleLitTransparent r.m_visibleLitTransparentMeshes
               (lights light0).getPass,
             Call.bindAmbientState black,
             Call.beginTransparentMultiPass]
            ++ forEachLight r.m_visibleLights 1 numLights (fun light =>
                [Call.lightBind light,
                 Call.renderMeshes Queue.visibleLitTransparent r.m_visibleLitTransparentMeshes
                   (lights light).getPass])
            ++ [Call.endTransparentMultiPass]
          else []))

/-- The block `if(renderSection) { ... }` of `Renderer::render`: the store of lights
after it and the calls it makes. `numLights` is the count taken on entry to `render`. -/
def renderSectionBody (S : StdSort) (RENDERER_DEFERRED_THRESHOLD : Nat)
    (lights : LightId → RendererLight) (r : Renderer) (numLights : Nat)
    (eye : PxMat44) (proj : RendererProjection) (depthOnly : Bool) :
    (LightId → RendererLight) × List Call :=
  let screen := renderScreenSpace r depthOnly
  let r := sortMeshes S r eye
  if depthOnly then
    (lights, screen ++
      [Call.bindAmbientState black,
       Call.bindViewProj eye proj,
       Call.renderMeshes Queue.visibleLit r.m_visibleLitMeshes Pass.PASS_DEPTH,
       Call.renderMeshes Queue.visibleUnlit r.m_visibleUnlitMeshes Pass.PASS_DEPTH])
  else if numLights > RENDERER_DEFERRED_THRESHOLD then
    (lights, screen ++
      [Call.bindDeferredState,
       Call.bindViewProj eye proj,
       Call.renderMeshes Queue.visibleLit r.m_visibleLitMeshes Pass.PASS_UNLIT,
       Call.renderMeshes Queue.visibleUnlit r.m_visibleUnlitMeshes Pass.PASS_UNLIT,
       Call.renderMeshes Queue.visibleLitTransparent r.m_visibleLitTransparentMeshes
         Pass.PASS_UNLIT]
      ++ renderDeferredLights r)
  else if numLights > 0 then
    ((renderLit lights r numLights eye proj).1, screen ++ (renderLit lights r numLights eye proj).2)
  else
    (lights, screen ++
      [Call.bindAmbientState black,
       Call.bindViewProj eye proj,
       Call.renderMeshes Queue.visibleLit r.m_visibleLitMeshes Pass.PASS_UNLIT,
       Call.renderMeshes Queue.visibleUnlit r.m_visibleUnlitMeshes Pass.PASS_UNLIT,
       Call.renderMeshes Queue.visibleLitTransparent r.m_visibleLitTransparentMeshes
         Pass.PASS_UNLIT])

/-- What a call of `Renderer::render` leaves behind: the store of lights, the
renderer, and the calls made. -/
structure RenderOutcome where
  lights : LightId → RendererLight
  renderer : Renderer
  calls : List Call

/-- The optional call `if(target) target->bind()`. -/
def bindTarget (target : Option TargetId) : List Call :=
  match target with
  | some t => [Call.targetBind t]
  | none => []

/-- The optional call `if(target) target->unbind()`. -/
def unbindTarget (target : Option TargetId) : List Call :=
  match target with
  | some t => [Call.targetUnbind t]
  | none => []

/-- The function `Renderer::render`. `RENDERER_DEFERRED_THRESHOLD` is the constant of
that name (defined in a configuration header outside the sources); `renderSection`
is the value the local `ScopedRender renderSection(*this)` converts to, true when the
render section was entered successfully. The queues are cleared after the guarded
block, whatever its outcome; the local is destroyed on return. -/
def render (S : StdSort) (RENDERER_DEFERRED_THRESHOLD : Nat) (renderSection : Bool)
    (lights : LightId → RendererLight) (r : Renderer)
    (eye : PxMat44) (proj : RendererProjection) (target : Option TargetId) (depthOnly : Bool) :
    RenderOutcome :=
  let numLights := numLightsOf r
  let body : (LightId → RendererLight) × List Call :=
    if renderSection then
      renderSectionBody S RENDERER_DEFERRED_THRESHOLD lights r numLights eye proj depthOnly
    else (lights, [])
  { lights := body.1
    renderer :=
      { r with
        m_visibleLitMeshes := []
        m_visibleUnlitMeshes := []
        m_visibleLitTransparentMeshes := []
        m_screenSpaceMeshes := []
        m_visibleLights := [] }
    calls := bindTarget target ++ [Call.scopedRenderEnter] ++ body.2 ++ unbindTarget target
      ++ [Call.scopedRenderLeave] }

/-! ## Observations used in the statements -/

/-- The member vector of the renderer that a `Queue` names. -/
def Renderer.queue (r : Renderer) : Queue → List RendererMeshContext
  | Queue.screenSpace => r.m_screenSpaceMeshes
  | Queue.visibleLit => r.m_visibleLitMeshes
  | Queue.visibleUnlit => r.m_visibleUnlitMeshes
  | Queue.visibleLitTransparent => r.m_visibleLitTransparentMeshes

/-- The queue that the specification assigns to a valid entry, from its screen space
flag and the type and blending flag of its material. -/
def bucketFor (screenSpace : Bool) (material : RendererMaterial) : Queue :=
  if screenSpace then Queue.screenSpace
  else if material.m_type = MaterialType.TYPE_LIT then
    if material.m_blending then Queue.visibleLitTransparent else Queue.visibleLit
  else Queue.visibleUnlit

/-- The lights of the active list are distinct and each is owned by this renderer. -/
def LightsConsistent (lights : LightId → RendererLight) (r : Renderer) : Prop :=
  r.m_visibleLights.Nodup ∧ ∀ l ∈ r.m_visibleLights, (lights l).m_renderer = some r.self

/-- The dispatches of the queue `q` in a list of calls, reading on from a call
`prev` made just before the list: for each call `renderMeshes(q, pass)`, in order,
the call made immediately before it and the pass. -/
def dispatchesAfter (q : Queue) : Option Call → List Call → List (Option Call × Pass)
  | _, [] => []
  | prev, Call.renderMeshes q' meshes pass :: rest =>
    if q' = q then
      (prev, pass) :: dispatchesAfter q (some (Call.renderMeshes q' meshes pass)) rest
    else dispatchesAfter q (some (Call.renderMeshes q' meshes pass)) rest
  | _, c :: rest => dispatchesAfter q (some c) rest

/-- The dispatches of the queue `q` in the calls of a frame. -/
def dispatches (q : Queue) (calls : List Call) : List (Option Call × Pass) :=
  dispatchesAfter q none calls

/-- The queue and the pass of every `renderMeshes` call of a list of calls, in order. -/
def dispatchOrder (calls : List Call) : List (Queue × Pass) :=
  calls.filterMap (fun c =>
    match c with
    | Call.renderMeshes q _ pass => some (q, pass)
    | _ => none)

/-- The colours of the `bindAmbientState` calls of a list of calls, in order. -/
def ambientBinds (calls : List Call) : List RendererColor :=
  calls.filterMap (fun c =>
    match c with
    | Call.bindAmbientState color => some color
    | _ => none)

/-- The lights of the `renderDeferredLight` calls of a list of calls, in order. -/
def deferredLights (calls : List Call) : List LightId :=
  calls.filterMap (fun c =>
    match c with
    | Call.renderDeferredLight light => some light
    | _ => none)

/-- The calls of forward lighting: the bind of a light and the brackets of the two
multi-pass blocks. -/
def Call.isForwardLighting : Call → Bool
  | Call.lightBind _ => true
  | Call.beginMultiPass => true
  | Call.endMultiPass => true
  | Call.beginTransparentMultiPass => true
  | Call.endTransparentMultiPass => true
  | _ => false

/-- The calls of deferred lighting: `bindDeferredState` and `renderDeferredLight`. -/
def Call.isDeferredLighting : Call → Bool
  | Call.bindDeferredState => true
  | Call.renderDeferredLight _ => true
  | _ => false

/-- The call made last once `calls` have been made after `prev`. -/
def lastCall : Option Call → List Call → Option Call
  | prev, [] => prev
  | _, c :: rest => lastCall (some c) rest

/-! ## Concrete data for the worked instances -/

/-- An implementation of `std::sort` by insertion. -/
def insertionStdSort : StdSort where
  sort comp l := List.insertionSort (fun a b => comp b a = false) l
  perm comp l := List.perm_insertionSort _ l
  sorted comp l h := by
    haveI : IsTotal RendererMeshContext (fun a b => comp b a = false) := by
      refine ⟨fun a b => ?_⟩
      cases hab : comp a b
      · exact Or.inr rfl
      · left
        cases hba : comp b a
        · rfl
        · have := h.trans a b a hab hba
          rw [h.irrefl] at this
          exact absurd this (by decide)
    haveI : IsTrans RendererMeshContext (fun a b => comp b a = false) := by
      refine ⟨fun a b c hab hbc => ?_⟩
      show comp c a = false
      cases hca : comp c a
      · rfl
      · exfalso
        have hbc' : comp b c = false := by
          cases h1 : comp b c
          · rfl
          · have := h.trans b c a h1 hca
            rw [hab] at this
            exact absurd this (by decide)
        have hab' : comp a b = false := by
          cases h1 : comp a b
          · rfl
          · have := h.trans c a b hca h1
            rw [hbc] at this
            exact absurd this (by decide)
        have := (h.incomp_trans a b c hab' hab hbc' hbc).2
        rw [hca] at this
        exact absurd this (by decide)
    exact List.sorted_insertionSort _ l

/-- A store of materials: address 0 is lit and opaque, address 1 lit and blended,
every other address unlit. -/
def sampleMaterials : MaterialId → RendererMaterial
  | 0 => ⟨MaterialType.TYPE_LIT, false⟩
  | 1 => ⟨MaterialType.TYPE_LIT, true⟩
  | _ => ⟨MaterialType.TYPE_UNLIT, false⟩

/-- A store of lights, none of them locked; the light at address `n` renders with the
pass `lit n`. -/
def sampleLights : LightId → RendererLight :=
  fun n => ⟨none, Pass.lit n⟩

/-- A renderer at address 7 with empty queues. -/
def emptyRenderer : Renderer :=
  { self := 7
    m_visibleLitMeshes := []
    m_visibleUnlitMeshes := []
    m_screenSpaceMeshes := []
    m_visibleLitTransparentMeshes := []
    m_visibleLights := []
    m_ambientColor := ⟨64, 64, 64, 255⟩
    m_fogColor := ⟨0, 0, 10, 255⟩
    m_fogDistance := 20000 }

/-- A mesh context for the mesh at address `mesh` with the material at address
`material`, no material instance and no transform, not in screen space. -/
def sampleContext (mesh : MeshId) (material : MaterialId) : RendererMeshContext :=
  { material := some material
    materialInstance := none
    mesh := some mesh
    transform := none
    screenSpace := false }

/-- A camera at the origin. -/
def sampleEye : PxMat44 := PxMat44.identity

/-- A transparent mesh context with a transform that places the mesh at `(x, 0, 0)`. -/
def sampleTransparent (mesh : MeshId) (x : Int) : RendererMeshContext :=
  { sampleContext mesh 1 with
    transform := some { PxMat44.identity with column3 := ⟨x, 0, 0⟩ } }

/-- A renderer with two queued lights, one opaque lit, one unlit and two transparent
contexts. -/
def litRenderer : Renderer :=
  { emptyRenderer with
    m_visibleLights := [4, 5]
    m_visibleLitMeshes := [sampleContext 1 0]
    m_visibleUnlitMeshes := [sampleContext 2 2]
    m_visibleLitTransparentMeshes := [sampleTransparent 3 1, sampleTransparent 6 9] }

/-! ## The mesh dispatcher -/

/-- The part of a `RendererMesh` read by `renderMeshes`: what `willRender()` returns
and whether `getInstanceBuffer()` returns a buffer. -/
structure RendererMesh where
  m_willRender : Bool
  m_instanceBuffer : Bool
  deriving DecidableEq, Repr

/-- The calls that `Renderer::renderMeshes` makes, in program order. -/
inductive MeshCall where
  | bindMeshContext (context : RendererMeshContext)
  | materialUnbind (material : MaterialId)
  | materialBind (material : MaterialId) (pass : Pass)
      (materialInstance : Option MaterialInstanceId) (instanced : Bool)
  | bindMeshState (material : MaterialId) (instanced : Bool)
  | meshUnbind (mesh : MeshId)
  | meshBind (mesh : MeshId)
  | meshRender (mesh : MeshId) (material : Option MaterialId)
  deriving DecidableEq, Repr

/-- The locals `lastMaterial`, `lastMaterialInstance` and `lastMesh` of
`Renderer::renderMeshes`. -/
structure DispatchState where
  lastMaterial : Option MaterialId
  lastMaterialInstance : Option MaterialInstanceId
  lastMesh : Option MeshId
  deriving DecidableEq, Repr

/-- The statement `if(lastMaterial) lastMaterial->unbind()`. -/
def unbindLastMaterial (lastMaterial : Option MaterialId) : List MeshCall :=
  match lastMaterial with
  | some m => [MeshCall.materialUnbind m]
  | none => []

/-- The statement `if(lastMesh) lastMesh->unbind()`. -/
def unbindLastMesh (lastMesh : Option MeshId) : List MeshCall :=
  match lastMesh with
  | some m => [MeshCall.meshUnbind m]
  | none => []

/-- The statement `if(lastMaterial) lastMaterial->bindMeshState(instanced)`. -/
def bindMeshStateOf (lastMaterial : Option MaterialId) (instanced : Bool) : List MeshCall :=
  match lastMaterial with
  | some m => [MeshCall.bindMeshState m instanced]
  | none => []

/-- The material transition of one loop iteration of `renderMeshes`: the two
branches `if(context.materialInstance && ...)` and `else if(context.material !=
lastMaterial)`. Returns the new `lastMaterial` and `lastMaterialInstance` with the
calls made, or `none` where the code calls `bind` through a null `context.material`. -/
def renderMeshesMaterial (instanceMaterial : MaterialInstanceId → MaterialId) (pass : Pass)
    (instanced : Bool) (st : DispatchState) (context : RendererMeshContext) :
    Option (Option MaterialId × Option MaterialInstanceId × List MeshCall) :=
  match context.materialInstance with
  | some inst =>
    if context.materialInstance ≠ st.lastMaterialInstance then
      some (some (instanceMaterial inst), some inst,
        unbindLastMaterial st.lastMaterial ++
          [MeshCall.materialBind (instanceMaterial inst) pass (some inst) instanced])
    else if context.material ≠ st.lastMaterial then
      match context.material with
      | none => none
      | some m =>
        some (some m, none,
          unbindLastMaterial st.lastMaterial ++ [MeshCall.materialBind m pass none instanced])
    else some (st.lastMaterial, st.lastMaterialInstance, [])
  | none =>
    if context.material ≠ st.lastMaterial then
      match context.material with
      | none => none
      | some m =>
        some (some m, none,
          unbindLastMaterial st.lastMaterial ++ [MeshCall.materialBind m pass none instanced])
    else some (st.lastMaterial, st.lastMaterialInstance, [])

/-- One iteration of the loop of `renderMeshes` (build without `RENDERER_ENABLE_GLES2`
and without `RENDERER_PSP2`) on the entry `context`: the locals after it and the
calls made; `none` where the code dereferences a null pointer (`context.mesh`, or
`context.material` in the second branch). `meshStore` is the store the mesh
pointers are dereferenced in, `instanceMaterial` is `getMaterial()` on a material
instance. -/
def renderMeshesEntry (meshStore : MeshId → RendererMesh)
    (instanceMaterial : MaterialInstanceId → MaterialId) (pass : Pass)
    (st : DispatchState) (context : RendererMeshContext) :
    Option (DispatchState × List MeshCall) :=
  match context.mesh with
  | none => none
  | some mesh =>
    if !(meshStore mesh).m_willRender then some (st, [])
    else
      match renderMeshesMaterial instanceMaterial pass (meshStore mesh).m_instanceBuffer
          st context with
      | none => none
      | some (lastMaterial, lastMaterialInstance, materialCalls) =>
        some
          ({ lastMaterial := lastMaterial
             lastMaterialInstance := lastMaterialInstance
             lastMesh := some mesh },
            [MeshCall.bindMeshContext context] ++ materialCalls ++
            bindMeshStateOf lastMaterial (meshStore mesh).m_instanceBuffer ++
            (if context.mesh ≠ st.lastMesh then
              unbindLastMesh st.lastMesh ++ [MeshCall.meshBind mesh]
             else []) ++
            [MeshCall.meshRender mesh context.material])

/-- The loop `for(PxU32 i=0; i<numMeshes; i++)` of `renderMeshes` over the entries
`meshes`, entered with the locals `st`. -/
def renderMeshesLoop (meshStore : MeshId → RendererMesh)
    (instanceMaterial : MaterialInstanceId → MaterialId) (pass : Pass) :
    List RendererMeshContext → DispatchState → Option (DispatchState × List MeshCall)
  | [], st => some (st, [])
  | context :: rest, st =>
    match renderMeshesEntry meshStore instanceMaterial pass st context with
    | none => none
    | some (st1, calls) =>
      match renderMeshesLoop meshStore instanceMaterial pass rest st1 with
      | none => none
      | some (st2, calls2) => some (st2, calls ++ calls2)

/-- The function `Renderer::renderMeshes`: the calls made, or `none` when a null
pointer is dereferenced. `numMeshes` is the cast `(PxU32)meshes.size()`; after the
loop whatever mesh and material is still bound is unbound. -/
def renderMeshes (meshStore : MeshId → RendererMesh)
    (instanceMaterial : MaterialInstanceId → MaterialId)
    (meshes : List RendererMeshContext) (pass : Pass) : Option (List MeshCall) :=
  match renderMeshesLoop meshStore instanceMaterial pass
      (meshes.take (meshes.length % 4294967296)) ⟨none, none, none⟩ with
  | none => none
  | some (st, calls) =>
    some (calls ++ unbindLastMesh st.lastMesh ++ unbindLastMaterial st.lastMaterial)

/-- The material binds among the calls of `renderMeshes`, in order. -/
def materialBinds (calls : List MeshCall) :
    List (MaterialId × Pass × Option MaterialInstanceId) :=
  calls.filterMap (fun c =>
    match c with
    | MeshCall.materialBind m pass inst _ => some (m, pass, inst)
    | _ => none)

/-- The material unbinds among the calls of `renderMeshes`, in order. -/
def materialUnbinds (calls : List MeshCall) : List MaterialId :=
  calls.filterMap (fun c =>
    match c with
    | MeshCall.materialUnbind m => some m
    | _ => none)

/-- The meshes bound by the calls of `renderMeshes`, in order. -/
def meshBinds (calls : List MeshCall) : List MeshId :=
  calls.filterMap (fun c =>
    match c with
    | MeshCall.meshBind m => some m
    | _ => none)

/-- The meshes drawn by the calls of `renderMeshes`, in order. -/
def meshRenders (calls : List MeshCall) : List MeshId :=
  calls.filterMap (fun c =>
    match c with
    | MeshCall.meshRender m _ => some m
    | _ => none)

/-- The number of maximal runs of consecutive equal elements of a list. -/
def countRuns {κ : Type} [DecidableEq κ] (keys : List κ) : Nat :=
  (keys.destutter (fun a b => a ≠ b)).length

/-- A store of meshes: every mesh is renderable, none has an instance buffer. -/
def sampleMeshes : MeshId → RendererMesh :=
  fun _ => ⟨true, false⟩

/-- A store of material instances: the instance at address `n` belongs to the
material at address `n / 10`. -/
def sampleInstances : MaterialInstanceId → MaterialId :=
  fun n => n / 10

/-- A context with the material at address 0 and its instance at address 1. -/
def instanceContext (mesh : MeshId) : RendererMeshContext :=
  { sampleContext mesh 0 with materialInstance := some 1 }

/-- The entries of a list that `renderMeshes` dispatches: those whose mesh reports
`willRender()`. -/
def dispatched (meshStore : MeshId → RendererMesh) (meshes : List RendererMeshContext) :
    List RendererMeshContext :=
  meshes.filter (fun c =>
    match c.mesh with
    | some m => (meshStore m).m_willRender
    | none => false)

/-- The (material, material-instance) pair of an entry; an absent instance is the
value `none`. -/
def materialKey (c : RendererMeshContext) : Option MaterialId × Option MaterialInstanceId :=
  (c.material, c.materialInstance)

/-- The pair `b` does not drop the material instance of the pair `a` while keeping its
material: it is not the case that `a` has an instance, `b` has none and both have the
same material. -/
def KeepsInstance (a b : Option MaterialId × Option MaterialInstanceId) : Prop :=
  ¬ (a.2.isSome = true ∧ b.2 = none ∧ a.1 = b.1)

/-- A context with the material at address 0 and an instance at address 31, which
belongs to the material at address 3. -/
def foreignInstanceContext (mesh : MeshId) : RendererMeshContext :=
  { sampleContext mesh 0 with materialInstance := some 31 }

/-- The (material, material-instance) pair that a material bind establishes. -/
def bindKey (b : MaterialId × Pass × Option MaterialInstanceId) :
    Option MaterialId × Option MaterialInstanceId :=
  (some b.1, b.2.2)

/-- Four entries: two with the material at address 0 and its instance 1, then two
with the material at address 3 and no instance. -/
def sampleEntries : List RendererMeshContext :=
  [instanceContext 1, instanceContext 2, sampleContext 1 3, sampleContext 1 3]

/-! ## Stability of the transparent sort -/

/-- Two entries are equivalent for a comparator when neither is ordered before the
other. -/
def comparatorEquivalent (comp : RendererMeshContext → RendererMeshContext → Bool)
    (a b : RendererMeshContext) : Bool :=
  !comp a b && !comp b a

/-- The output of a sort keeps the input order of equivalent entries: for every entry,
the entries equivalent to it appear in the output in the order they have in the
input. -/
def KeepsOrderOfEquivalent (comp : RendererMeshContext → RendererMeshContext → Bool)
    (input output : List RendererMeshContext) : Prop :=
  ∀ a, output.filter (comparatorEquivalent comp a) = input.filter (comparatorEquivalent comp a)

/-! ### The implementation of `std::sort` in the GNU C++ library

The functions below follow `std::__sort` and its helpers in `bits/stl_algo.h` of
libstdc++, which is not part of the repository. The range is a list, an iterator is an
index into it, and a function gives no result where the library reads outside the
range (its loops are unguarded, which is sound for a strict weak ordering only) or
where it switches to heap sort, which is not followed. -/

/-- The call `std::iter_swap(i, j)`. -/
def iter_swap {α : Type} (arr : List α) (i j : Nat) : Option (List α) :=
  match arr[i]?, arr[j]? with
  | some x, some y => some ((arr.set i y).set j x)
  | _, _ => none

/-- The function `std::__move_median_to_first(result, a, b, c, comp)`. -/
def move_median_to_first {α : Type} (comp : α → α → Bool) (arr : List α)
    (result a b c : Nat) : Option (List α) :=
  match arr[a]?, arr[b]?, arr[c]? with
  | some va, some vb, some vc =>
    if comp va vb then
      if comp vb vc then iter_swap arr result b
      else if comp va vc then iter_swap arr result c
      else iter_swap arr result a
    else if comp va vc then iter_swap arr result a
    else if comp vb vc then iter_swap arr result c
    else iter_swap arr result b
  | _, _, _ => none

/-- The loop `while (comp(first, pivot)) ++first` of `std::__unguarded_partition`:
the index it stops at. -/
def partition_up {α : Type} (comp : α → α → Bool) (arr : List α) (pivot : α) :
    Nat → Nat → Option Nat
  | 0, _ => none
  | fuel + 1, first =>
    match arr[first]? with
    | none => none
    | some v =>
      if comp v pivot then partition_up comp arr pivot fuel (first + 1) else some first

/-- The loop `while (comp(pivot, last)) --last` of `std::__unguarded_partition`: the
index it stops at. -/
def partition_down {α : Type} (comp : α → α → Bool) (arr : List α) (pivot : α) :
    Nat → Nat → Option Nat
  | 0, _ => none
  | fuel + 1, last =>
    match arr[last]? with
    | none => none
    | some v =>
      if comp pivot v then
        (match last with
         | 0 => none
         | prev + 1 => partition_down comp arr pivot fuel prev)
      else some last

/-- The function `std::__unguarded_partition(first, last, pivot, comp)`: the range
after it and the iterator returned. -/
def unguarded_partition {α : Type} (comp : α → α → Bool) (pivot : Nat) :
    Nat → List α → Nat → Nat → Option (List α × Nat)
  | 0, _, _, _ => none
  | fuel + 1, arr, first, last =>
    match arr[pivot]? with
    | none => none
    | some p =>
      match partition_up comp arr p (arr.length + 1) first with
      | none => none
      | some first1 =>
        match last with
        | 0 => none
        | last0 + 1 =>
          match partition_down comp arr p (arr.length + 1) last0 with
          | none => none
          | some last1 =>
            if first1 < last1 then
              match iter_swap arr first1 last1 with
              | none => none
              | some arr1 => unguarded_partition comp pivot fuel arr1 (first1 + 1) last1
            else some (arr, first1)

/-- The function `std::__unguarded_partition_pivot(first, last, comp)`. -/
def unguarded_partition_pivot {α : Type} (comp : α → α → Bool) (arr : List α)
    (first last : Nat) : Option (List α × Nat) :=
  let mid := first + (last - first) / 2
  match move_median_to_first comp arr first (first + 1) mid (last - 1) with
  | none => none
  | some arr1 => unguarded_partition comp first (arr1.length + 1) arr1 (first + 1) last

/-- The function `std::__introsort_loop(first, last, depth_limit, comp)`, with the
threshold `_S_threshold = 16`. There is no result once the depth limit is used up,
where the library calls `std::__partial_sort`. -/
def introsort_loop {α : Type} (comp : α → α → Bool) :
    Nat → Nat → List α → Nat → Nat → Option (List α)
  | 0, _, _, _, _ => none
  | fuel + 1, depth_limit, arr, first, last =>
    if last - first > 16 then
      match depth_limit with
      | 0 => none
      | depth + 1 =>
        match unguarded_partition_pivot comp arr first last with
        | none => none
        | some (arr1, cut) =>
          match introsort_loop comp fuel depth arr1 cut last with
          | none => none
          | some arr2 => introsort_loop comp fuel depth arr2 first cut
    else some arr

/-- The function `std::__unguarded_linear_insert(last, comp)`, with the value `val`
read from `*last`. -/
def unguarded_linear_insert {α : Type} (comp : α → α → Bool) (val : α) :
    Nat → List α → Nat → Option (List α)
  | 0, _, _ => none
  | fuel + 1, arr, last =>
    match last with
    | 0 => none
    | next + 1 =>
      match arr[next]? with
      | none => none
      | some v =>
        if comp val v then unguarded_linear_insert comp val fuel (arr.set (next + 1) v) next
        else some (arr.set (next + 1) val)

/-- The loop of `std::__insertion_sort(first, last, comp)`, at the index `i` with `n`
iterations left. -/
def insertion_sort_loop {α : Type} (comp : α → α → Bool) (first : Nat) :
    Nat → List α → Nat → Option (List α)
  | 0, arr, _ => some arr
  | n + 1, arr, i =>
    match arr[i]?, arr[first]? with
    | some val, some f =>
      let step :=
        if comp val f then
          some (arr.take first ++ val :: (arr.drop first).take (i - first) ++ arr.drop (i + 1))
        else unguarded_linear_insert comp val (arr.length + 1) arr i
      match step with
      | none => none
      | some arr1 => insertion_sort_loop comp first n arr1 (i + 1)
    | _, _ => none

/-- The function `std::__insertion_sort(first, last, comp)`. -/
def insertion_sort {α : Type} (comp : α → α → Bool) (arr : List α) (first last : Nat) :
    Option (List α) :=
  if first = last then some arr
  else insertion_sort_loop comp first (last - (first + 1)) arr (first + 1)

/-- The function `std::__unguarded_insertion_sort(first, last, comp)`, at the index `i`
with `n` iterations left. -/
def unguarded_insertion_sort {α : Type} (comp : α → α → Bool) :
    Nat → List α → Nat → Option (List α)
  | 0, arr, _ => some arr
  | n + 1, arr, i =>
    match arr[i]? with
    | none => none
    | some val =>
      match unguarded_linear_insert comp val (arr.length + 1) arr i with
      | none => none
      | some arr1 => unguarded_insertion_sort comp n arr1 (i + 1)

/-- The function `std::__final_insertion_sort(first, last, comp)`. -/
def final_insertion_sort {α : Type} (comp : α → α → Bool) (arr : List α)
    (first last : Nat) : Option (List α) :=
  if last - first > 16 then
    match insertion_sort comp arr first (first + 16) with
    | none => none
    | some arr1 => unguarded_insertion_sort comp (last - (first + 16)) arr1 (first + 16)
  else insertion_sort comp arr first last

/-- The function `std::__lg(n)`: the binary logarithm of `n`, rounded down, computed
in at most `fuel` halvings. -/
def lg : Nat → Nat → Nat
  | 0, _ => 0
  | fuel + 1, n => if n ≤ 1 then 0 else lg fuel (n / 2) + 1

/-- The function `std::__sort(first, last, comp)` of libstdc++, which `std::sort`
calls, on the whole of a vector. -/
def gnuSort {α : Type} (comp : α → α → Bool) (arr : List α) : Option (List α) :=
  if arr.length = 0 then some arr
  else
    match introsort_loop comp (arr.length + 1) (lg arr.length arr.length * 2) arr 0
        arr.length with
    | none => none
    | some arr1 => final_insertion_sort comp arr1 0 arr.length

/-- Whether a list is sorted for a comparator: no element is ordered before one
that precedes it. -/
def sortedBy {α : Type} (comp : α → α → Bool) : List α → Bool
  | [] => true
  | a :: rest => rest.all (fun b => !comp b a) && sortedBy comp rest

/-- The `std::sort` of libstdc++ as a `StdSort`: the result of `gnuSort` where it is a
permutation of the range that the comparator finds sorted, as it is for a strict weak
ordering short of the switch to heap sort; elsewhere (no result, or a comparator for
which `std::sort` is undefined) the result of sorting by insertion. -/
def gnuStdSort : StdSort where
  sort comp l :=
    match gnuSort comp l with
    | some out =>
      if List.isPerm out l && sortedBy comp out then out else insertionStdSort.sort comp l
    | none => insertionStdSort.sort comp l
  perm comp l := by
    dsimp only
    split
    · split
      · rename_i h
        exact List.isPerm_iff.mp (Bool.and_eq_true_iff.mp h).1
      · exact insertionStdSort.perm comp l
    · exact insertionStdSort.perm comp l
  sorted comp l hcomp := by
    have hsorted : ∀ out : List RendererMeshContext, sortedBy comp out = true →
        List.Pairwise (fun a b => comp b a = false) out := by
      intro out
      induction out with
      | nil => intro _; exact List.Pairwise.nil
      | cons a rest ih =>
        intro h
        simp only [sortedBy, Bool.and_eq_true, List.all_eq_true, Bool.not_eq_true'] at h
        exact List.Pairwise.cons h.1 (ih h.2)
    dsimp only
    split
    · split
      · rename_i h
        exact hsorted _ (Bool.and_eq_true_iff.mp h).2
      · exact insertionStdSort.sorted comp l hcomp
    · exact insertionStdSort.sorted comp l hcomp

/-- Seventeen contexts without a transform, with the meshes at the addresses 1 to
17. -/
def seventeenContexts : List RendererMeshContext :=
  (List.range 17).map (fun i => sampleContext (i + 1) 1)

/-- Seventeen contexts with the meshes at the addresses 1 to 17, each with a transform
that places it at `(5, 0, 0)`. -/
def seventeenAtOnePlace : List RendererMeshContext :=
  (List.range 17).map (fun i => sampleTransparent (i + 1) 5)

/-! ## The material cache -/

/-- The integer value of an enumerator of `RendererMaterial::Type`, which `<` compares.
The enumeration is declared outside the sources; distinct enumerators have distinct
values. -/
def MaterialType.toNat : MaterialType → Nat
  | MaterialType.TYPE_UNLIT => 0
  | MaterialType.TYPE_LIT => 1
  | MaterialType.other tag => tag + 2

/-- A `PxF32` as the operators `!=` and `<` see it: a NaN, or a number. Every `PxF32`
other than a NaN is zero, a finite value below `2 ^ 128` in magnitude or an infinity;
under `!=` and `<` these are ordered as numbers are (the two zeros alike, an infinity
as `2 ^ 128` or `-2 ^ 128` would be), so a number stands for each of them. -/
inductive PxF32 where
  | nan
  | num (value : ℚ)
  deriving DecidableEq

/-- The operator `!=` on `PxF32`: true when an operand is a NaN or the numbers
differ. -/
def PxF32.ne : PxF32 → PxF32 → Bool
  | PxF32.num a, PxF32.num b => decide (a ≠ b)
  | _, _ => true

/-- The operator `<` on `PxF32`: false when an operand is a NaN. -/
def PxF32.lt : PxF32 → PxF32 → Bool
  | PxF32.num a, PxF32.num b => decide (a < b)
  | _, _ => false

/-- The fields of a `RendererMaterialDesc` that `CompareRenderMaterialDesc` reads, for a
type `F` of the field `alphaTestRef` (a `PxF32` in the code). The enumerations
`alphaTestFunc`, `srcBlendFunc` and `dstBlendFunc` are their integer values. The
vertex and the fragment shader path are handed to `stricmp` unconditionally, so they
are present; the geometry, hull and domain shader paths are optional, `none` being
the null pointer. -/
structure RendererMaterialDescOf (F : Type) where
  type : MaterialType
  alphaTestFunc : Nat
  alphaTestRef : F
  blending : Bool
  srcBlendFunc : Nat
  dstBlendFunc : Nat
  vertexShaderPath : String
  fragmentShaderPath : String
  geometryShaderPath : Option String
  hullShaderPath : Option String
  domainShaderPath : Option String
  deriving DecidableEq

/-- A `RendererMaterialDesc` whose `alphaTestRef` is a number, not a NaN, held as an
exact rational. -/
abbrev RendererMaterialDesc := RendererMaterialDescOf ℚ

/-- A `RendererMaterialDesc` as the code has it: `alphaTestRef` is a `PxF32`. -/
abbrev RendererMaterialDescF32 := RendererMaterialDescOf PxF32

/-- The description with the field `alphaTestRef` replaced. -/
def RendererMaterialDescOf.withAlphaTestRef {F G : Type} (d : RendererMaterialDescOf F)
    (alphaTestRef : G) : RendererMaterialDescOf G :=
  { type := d.type
    alphaTestFunc := d.alphaTestFunc
    alphaTestRef := alphaTestRef
    blending := d.blending
    srcBlendFunc := d.srcBlendFunc
    dstBlendFunc := d.dstBlendFunc
    vertexShaderPath := d.vertexShaderPath
    fragmentShaderPath := d.fragmentShaderPath
    geometryShaderPath := d.geometryShaderPath
    hullShaderPath := d.hullShaderPath
    domainShaderPath := d.domainShaderPath }

/-- The description of the code for a description whose `alphaTestRef` is a number. -/
def RendererMaterialDescOf.toF32 (d : RendererMaterialDesc) : RendererMaterialDescF32 :=
  d.withAlphaTestRef (PxF32.num d.alphaTestRef)

/-- The code of a character after `tolower`. -/
def lowerCode (c : Char) : Nat := c.toLower.toNat

/-- Modelled from the spec: `physx::string::stricmp` (declared in `PsString.h`, outside
the sources) compares two strings "case-insensitively": character by character after
`tolower`, a proper beginning of a string coming before the string; the result is
negative, zero or positive. -/
def stricmpChars : List Char → List Char → Int
  | [], [] => 0
  | [], _ :: _ => -1
  | _ :: _, [] => 1
  | a :: as, b :: bs =>
    if lowerCode a = lowerCode b then stricmpChars as bs
    else if lowerCode a < lowerCode b then -1 else 1

/-- The function `physx::string::stricmp` on strings. -/
def stricmp (a b : String) : Int := stricmpChars a.toList b.toList

/-- The block `if (p1 || p2) { if (p1 && p2) result = stricmp(p1, p2); else result =
p1 ? -1 : 1; }` of `CompareRenderMaterialDesc` for an optional shader path. -/
def compareOptionalPath (result : Int) (p1 p2 : Option String) : Int :=
  match p1, p2 with
  | none, none => result
  | some a, some b => stricmp a b
  | some _, none => -1
  | none, some _ => 1

/-- The function `Renderer::CompareRenderMaterialDesc::operator()`, with the operators
`!=` and `<` of the type of `alphaTestRef` as the parameters `ne` and `lt`. -/
def CompareRenderMaterialDescOf {F : Type} (ne lt : F → F → Bool)
    (desc1 desc2 : RendererMaterialDescOf F) : Bool :=
  if desc1.type.toNat ≠ desc2.type.toNat then
    decide (desc1.type.toNat < desc2.type.toNat)
  else if desc1.alphaTestFunc ≠ desc2.alphaTestFunc then
    decide (desc1.alphaTestFunc < desc2.alphaTestFunc)
  else if ne desc1.alphaTestRef desc2.alphaTestRef then
    lt desc1.alphaTestRef desc2.alphaTestRef
  else if desc1.blending ≠ desc2.blending then
    decide (desc1.blending < desc2.blending)
  else if desc1.srcBlendFunc ≠ desc2.srcBlendFunc then
    decide (desc1.srcBlendFunc < desc2.srcBlendFunc)
  else if desc1.dstBlendFunc ≠ desc2.dstBlendFunc then
    decide (desc1.dstBlendFunc < desc2.dstBlendFunc)
  else if stricmp desc1.vertexShaderPath desc2.vertexShaderPath ≠ 0 then
    decide (stricmp desc1.vertexShaderPath desc2.vertexShaderPath < 0)
  else if stricmp desc1.fragmentShaderPath desc2.fragmentShaderPath ≠ 0 then
    decide (stricmp desc1.fragmentShaderPath desc2.fragmentShaderPath < 0)
  else
    let result := compareOptionalPath 0 desc1.geometryShaderPath desc2.geometryShaderPath
    let result :=
      if 0 = result then compareOptionalPath result desc1.hullShaderPath desc2.hullShaderPath
      else result
    let result :=
      if 0 = result then
        compareOptionalPath result desc1.domainShaderPath desc2.domainShaderPath
      else result
    decide (result < 0)

/-- The function `Renderer::CompareRenderMaterialDesc::operator()` as the code has it,
on descriptions whose `alphaTestRef` is a `PxF32`. -/
def CompareRenderMaterialDescF32 (desc1 desc2 : RendererMaterialDescF32) : Bool :=
  CompareRenderMaterialDescOf PxF32.ne PxF32.lt desc1 desc2

/-- The function `Renderer::CompareRenderMaterialDesc::operator()` on descriptions whose
`alphaTestRef` is a number, not a NaN. -/
def CompareRenderMaterialDesc (desc1 desc2 : RendererMaterialDesc) : Bool :=
  CompareRenderMaterialDescOf (fun a b => decide (a ≠ b)) (fun a b => decide (a < b))
    desc1 desc2

/-- Comparison by a key, ties being settled by the next comparison: `a` is before `b`
when the key of `a` is smaller, and when the keys are equal and `next` puts `a` before
`b`. -/
def lexBy {α κ : Type} [LinearOrder κ] (key : α → κ) (next : α → α → Bool) (a b : α) : Bool :=
  if key a ≠ key b then decide (key a < key b) else next a b

/-- The key of a shader path under case-insensitive comparison: the codes of its
characters after `tolower`, ordered as in a dictionary. -/
def lowerKey (s : String) : List Nat := s.toList.map lowerCode

/-- The key of an optional shader path: an absent path is greater than every present
one, present paths compare case-insensitively. -/
def optionalKey (p : Option String) : WithTop (List Nat) := p.map lowerKey

/-- The ordering of the specification: lexicographic over type, alpha test function,
alpha test reference, blending flag, source and destination blend function, vertex
path, fragment path, geometry path, hull path and domain path, the paths compared
case-insensitively and a present optional path coming before an absent one. -/
def lexicographicMaterialDesc : RendererMaterialDesc → RendererMaterialDesc → Bool :=
  lexBy (fun d => d.type.toNat) <|
  lexBy (fun d => d.alphaTestFunc) <|
  lexBy (fun d => d.alphaTestRef) <|
  lexBy (fun d => d.blending) <|
  lexBy (fun d => d.srcBlendFunc) <|
  lexBy (fun d => d.dstBlendFunc) <|
  lexBy (fun d => lowerKey d.vertexShaderPath) <|
  lexBy (fun d => lowerKey d.fragmentShaderPath) <|
  lexBy (fun d => optionalKey d.geometryShaderPath) <|
  lexBy (fun d => optionalKey d.hullShaderPath) <|
  lexBy (fun d => optionalKey d.domainShaderPath) <|
  fun _ _ => false

/-- A material description with the given alpha test function, vertex path and
geometry path. -/
def sampleDesc (alphaTestFunc : Nat) (vertexShaderPath : String)
    (geometryShaderPath : Option String) : RendererMaterialDesc :=
  { type := MaterialType.TYPE_LIT
    alphaTestFunc := alphaTestFunc
    alphaTestRef := 0
    blending := false
    srcBlendFunc := 0
    dstBlendFunc := 0
    vertexShaderPath := vertexShaderPath
    fragmentShaderPath := "fragment.cg"
    geometryShaderPath := geometryShaderPath
    hullShaderPath := none
    domainShaderPath := none }

/-- A strict weak ordering on any type, given as a boolean comparison: irreflexive,
transitive, and with a transitive relation "neither is before the other". -/
structure IsStrictWeak {α : Type} (comp : α → α → Bool) : Prop where
  irrefl : ∀ a, comp a a = false
  trans : ∀ a b c, comp a b = true → comp b c = true → comp a c = true
  incomp_trans : ∀ a b c, comp a b = false → comp b a = false → comp b c = false →
    comp c b = false → comp a c = false ∧ comp c a = false

/-- Two descriptions agree in every field compared before the optional paths: type,
alpha test function and reference, blending flag, blend functions, and, up to letter
case, vertex and fragment path. -/
def AgreeUpToFragment (d1 d2 : RendererMaterialDesc) : Prop :=
  d1.type = d2.type ∧ d1.alphaTestFunc = d2.alphaTestFunc ∧
  d1.alphaTestRef = d2.alphaTestRef ∧ d1.blending = d2.blending ∧
  d1.srcBlendFunc = d2.srcBlendFunc ∧ d1.dstBlendFunc = d2.dstBlendFunc ∧
  lowerKey d1.vertexShaderPath = lowerKey d2.vertexShaderPath ∧
  lowerKey d1.fragmentShaderPath = lowerKey d2.fragmentShaderPath

/-- Two descriptions are equivalent keys of the cache when `CompareRenderMaterialDesc`
puts neither before the other. -/
def descEquivalent (a b : RendererMaterialDesc) : Bool :=
  !CompareRenderMaterialDesc a b && !CompareRenderMaterialDesc b a

/-- The members of `Renderer` that hold the material cache: the flag
`mEnableMaterialCaching` and the map `m_materialCache` from descriptions to materials
(a null material is `none`), as the list of its entries. -/
structure MaterialCache where
  mEnableMaterialCaching : Bool
  m_materialCache : List (RendererMaterialDesc × Option MaterialId)

/-- The call `m_materialCache.find(desc)`: the entry whose key is equivalent to `desc`,
or `none` for `end()`. -/
def mapFind (entries : List (RendererMaterialDesc × Option MaterialId))
    (desc : RendererMaterialDesc) : Option (RendererMaterialDesc × Option MaterialId) :=
  entries.find? (fun e => descEquivalent e.1 desc)

/-- The insertion made by `m_materialCache[descCopy] = mat` for a key that `find` did
not find: the entry is put before the first entry whose key the comparator orders
after it. -/
def mapInsert (entries : List (RendererMaterialDesc × Option MaterialId))
    (key : RendererMaterialDesc) (value : Option MaterialId) :
    List (RendererMaterialDesc × Option MaterialId) :=
  match entries with
  | [] => [(key, value)]
  | e :: rest =>
    if CompareRenderMaterialDesc key e.1 then (key, value) :: e :: rest
    else e :: mapInsert rest key value

/-- The assignment `it->second = mat` through the iterator that `find(desc)` returned. -/
def mapAssign (entries : List (RendererMaterialDesc × Option MaterialId))
    (desc : RendererMaterialDesc) (value : Option MaterialId) :
    List (RendererMaterialDesc × Option MaterialId) :=
  match entries with
  | [] => []
  | e :: rest =>
    if descEquivalent e.1 desc then (e.1, value) :: rest
    else e :: mapAssign rest desc value

/-- What a call of `Renderer::hasMaterialAlready` leaves behind: the pointer returned,
the cache, and the reference counts of the materials. -/
structure LookupOutcome where
  result : Option MaterialId
  cache : MaterialCache
  refCount : MaterialId → Nat

/-- The function `Renderer::hasMaterialAlready`. `refCount` holds `m_refCount` of every
material, which `incRefCount()` increments. The result is `none` where the code calls
`incRefCount()` through a null `it->second`. -/
def hasMaterialAlready (cache : MaterialCache) (refCount : MaterialId → Nat)
    (desc : RendererMaterialDesc) : Option LookupOutcome :=
  if cache.mEnableMaterialCaching then
    match mapFind cache.m_materialCache desc with
    | some (_, some m) =>
      some { result := some m, cache := cache
             refCount := Function.update refCount m (refCount m + 1) }
    | some (_, none) => none
    | none => some { result := none, cache := cache, refCount := refCount }
  else
    some { result := none, cache := cache, refCount := refCount }

/-- The function `Renderer::registerMaterial`. The copy `descCopy` of the description
has the same field values and the same strings as `desc`. -/
def registerMaterial (cache : MaterialCache) (desc : RendererMaterialDesc)
    (mat : Option MaterialId) : MaterialCache :=
  if cache.mEnableMaterialCaching then
    match mapFind cache.m_materialCache desc with
    | none => { cache with m_materialCache := mapInsert cache.m_materialCache desc mat }
    | some _ => { cache with m_materialCache := mapAssign cache.m_materialCache desc mat }
  else
    cache

/-- The map holds at most one entry per class of equivalent descriptions: no two of
its entries have equivalent keys. -/
def UniqueKeys (entries : List (RendererMaterialDesc × Option MaterialId)) : Prop :=
  entries.Pairwise (fun e1 e2 => descEquivalent e1.1 e2.1 = false)

/-- A call made on the material cache. -/
inductive CacheCall where
  | hasMaterialAlready (desc : RendererMaterialDesc)
  | registerMaterial (desc : RendererMaterialDesc) (mat : Option MaterialId)

/-- The cache and the reference counts after a sequence of calls; a call of
`hasMaterialAlready` that fails leaves both as they are. -/
def runCacheCalls :
    List CacheCall → MaterialCache × (MaterialId → Nat) → MaterialCache × (MaterialId → Nat)
  | [], st => st
  | CacheCall.hasMaterialAlready desc :: rest, st =>
    match hasMaterialAlready st.1 st.2 desc with
    | some out => runCacheCalls rest (out.cache, out.refCount)
    | none => runCacheCalls rest st
  | CacheCall.registerMaterial desc mat :: rest, st =>
    runCacheCalls rest (registerMaterial st.1 desc mat, st.2)

/-- The cache of a renderer just constructed: caching on or off, no entry. -/
def newCache (enable : Bool) : MaterialCache :=
  { mEnableMaterialCaching := enable, m_materialCache := [] }

/-- A cache with caching enabled and one entry: the description with vertex path
`"v"` maps to the material at address 5. -/
def sampleCache : MaterialCache :=
  { mEnableMaterialCaching := true
    m_materialCache := [(sampleDesc 2 "v" none, some 5)] }

/-- The calls that the `renderMeshes` calls of a frame make, in order: every
`renderMeshes(q, pass)` of the frame is run on the content the queue had at the time.
The result is `none` when one of them dereferences a null pointer. -/
def frameMeshCalls (meshStore : MeshId → RendererMesh)
    (instanceMaterial : MaterialInstanceId → MaterialId) : List Call → Option (List MeshCall)
  | [] => some []
  | Call.renderMeshes _ meshes pass :: rest =>
    match renderMeshes meshStore instanceMaterial meshes pass,
        frameMeshCalls meshStore instanceMaterial rest with
    | some calls, some calls2 => some (calls ++ calls2)
    | _, _ => none
  | _ :: rest => frameMeshCalls meshStore instanceMaterial rest

/-- The frame of the scenario: the three contexts are queued on the renderer, then
`render` is called with no target and `depthOnly` clear, in an entered render
section. -/
def renderThree (S : StdSort) (threshold : Nat) (materials : MaterialId → RendererMaterial)
    (lights : LightId → RendererLight) (r : Renderer) (c1 c2 c3 : RendererMeshContext)
    (eye : PxMat44) (proj : RendererProjection) : RenderOutcome :=
  render S threshold true lights
    (queueMeshForRender materials
      (queueMeshForRender materials (queueMeshForRender materials r c1) c2) c3)
    eye proj none false

/-- A renderer with one queued light, one opaque lit and one transparent context. -/
def oneLightRenderer : Renderer :=
  { emptyRenderer with
    m_visibleLights := [4]
    m_visibleLitMeshes := [sampleContext 1 0]
    m_visibleLitTransparentMeshes := [sampleTransparent 3 1] }

/-! ## Observations on the screen space step -/

/-- Whether a call is a dispatch of the screen space queue. -/
def Call.isScreenSpaceDispatch : Call → Bool
  | Call.renderMeshes Queue.screenSpace _ _ => true
  | _ => false

/-- A list of draw entries with the entries removed whose mesh reports
`willRender() == false`. An entry without a mesh reports nothing and stays. -/
def withoutSkipped (meshStore : MeshId → RendererMesh) (meshes : List RendererMeshContext) :
    List RendererMeshContext :=
  meshes.filter (fun c =>
    match c.mesh with
    | some m => (meshStore m).m_willRender
    | none => true)

/-- Follows the material that is bound through a list of calls, starting with
`bound`: a material bind is in order only while no material is bound, a material
unbind only for the material that is bound. Returns the material bound after the
last call, or `none` when a bind or unbind is out of order. -/
def materialBoundAfter : Option MaterialId → List MeshCall → Option (Option MaterialId)
  | bound, [] => some bound
  | bound, MeshCall.materialBind m _ _ _ :: rest =>
    if bound = none then materialBoundAfter (some m) rest else none
  | bound, MeshCall.materialUnbind m :: rest =>
    if bound = some m then materialBoundAfter none rest else none
  | bound, _ :: rest => materialBoundAfter bound rest

/-- Follows the mesh that is bound through a list of calls, starting with `bound`:
a mesh bind is in order only while no mesh is bound, a mesh unbind only for the mesh
that is bound. Returns the mesh bound after the last call, or `none` when a bind or
unbind is out of order. -/
def meshBoundAfter : Option MeshId → List MeshCall → Option (Option MeshId)
  | bound, [] => some bound
  | bound, MeshCall.meshBind m :: rest =>
    if bound = none then meshBoundAfter (some m) rest else none
  | bound, MeshCall.meshUnbind m :: rest =>
    if bound = some m then meshBoundAfter none rest else none
  | bound, _ :: rest => meshBoundAfter bound rest

/-- The calls of `renderMeshes` that the order within an iteration is read from: the
bind of the draw context, the bind of a material, and the draw. -/
inductive EntryStep where
  | context (context : RendererMeshContext)
  | materialBind (material : MaterialId)
  | draw (mesh : MeshId) (material : Option MaterialId)
  deriving DecidableEq, Repr

/-- The context binds, material binds and draws among the calls of `renderMeshes`,
in order. -/
def entrySteps (calls : List MeshCall) : List EntryStep :=
  calls.filterMap (fun c =>
    match c with
    | MeshCall.bindMeshContext context => some (EntryStep.context context)
    | MeshCall.materialBind m _ _ _ => some (EntryStep.materialBind m)
    | MeshCall.meshRender mesh material => some (EntryStep.draw mesh material)
    | _ => none)

/-- The steps of one dispatched entry that binds the materials `bound`: the bind
of its draw context, then the material binds, then the draw of its mesh. -/
def stepsOfEntry (context : RendererMeshContext) (bound : List MaterialId) : List EntryStep :=
  [EntryStep.context context] ++ bound.map EntryStep.materialBind ++
    (match context.mesh with
     | some mesh => [EntryStep.draw mesh context.material]
     | none => [])

/-! ## Retraction of a light -/

/-- The function `Renderer::removeLightFromRenderQueue`:
`m_visibleLights.erase(std::remove(begin, end, &light))`. `std::remove` moves the
pointers other than `&light` to the front, in order, and returns the end of that
range; the elements behind it keep the values they had. The `erase` with one
iterator takes out the single element at that position. The result is `none` when
the light is not in the vector: the iterator is then `end()`, which `erase` may not be
given. The light itself is not written: `m_renderer` stays as it is. -/
def removeLightFromRenderQueue (r : Renderer) (light : LightId) : Option Renderer :=
  let kept := r.m_visibleLights.filter (fun l => l ≠ light)
  if kept.length = r.m_visibleLights.length then none
  else
    some { r with m_visibleLights := kept ++ r.m_visibleLights.drop (kept.length + 1) }

/-! ## Release of the cached materials -/

/-- The function `Renderer::releaseAllMaterials`: every entry of the map keeps its key
and has its material deleted and its pointer set to `NULL`. Returns the cache and the
materials deleted, in the order of the map. -/
def releaseAllMaterials (cache : MaterialCache) : MaterialCache × List MaterialId :=
  ({ cache with m_materialCache := cache.m_materialCache.map (fun e => (e.1, none)) },
   cache.m_materialCache.filterMap (fun e => e.2))

/-! ## Screenshot pixels -/

/-- The function `createPixel`: `(r << 16) | (g << 8) | b` on three `PxU8` channels,
returned as a `PxU32`. -/
def createPixel (r g b : Nat) : Nat :=
  (((r % 256) <<< 16) ||| ((g % 256) <<< 8) ||| (b % 256)) % 4294967296

/-- The channel that the bits `lo` to `lo + 7` of a pixel hold. -/
def pixelBits (pixel lo : Nat) : Nat := pixel / 2 ^ lo % 256

/-! ## The driving modes of the vehicle snippet -/

/-- The enumeration `DriveMode` of `SnippetVehicleNoDrive.cpp`. -/
inductive DriveMode where
  | eDRIVE_MODE_ACCEL_FORWARDS
  | eDRIVE_MODE_ACCEL_REVERSE
  | eDRIVE_MODE_HARD_TURN_LEFT
  | eDRIVE_MODE_HANDBRAKE_TURN_LEFT
  | eDRIVE_MODE_HARD_TURN_RIGHT
  | eDRIVE_MODE_HANDBRAKE_TURN_RIGHT
  | eDRIVE_MODE_BRAKE
  | eDRIVE_MODE_NONE
  deriving DecidableEq, Repr

/-- The array `gDriveModeOrder`. -/
def gDriveModeOrder : List DriveMode :=
  [DriveMode.eDRIVE_MODE_BRAKE,
   DriveMode.eDRIVE_MODE_ACCEL_FORWARDS,
   DriveMode.eDRIVE_MODE_BRAKE,
   DriveMode.eDRIVE_MODE_ACCEL_REVERSE,
   DriveMode.eDRIVE_MODE_BRAKE,
   DriveMode.eDRIVE_MODE_HARD_TURN_LEFT,
   DriveMode.eDRIVE_MODE_BRAKE,
   DriveMode.eDRIVE_MODE_HARD_TURN_RIGHT,
   DriveMode.eDRIVE_MODE_ACCEL_FORWARDS,
   DriveMode.eDRIVE_MODE_HANDBRAKE_TURN_LEFT,
   DriveMode.eDRIVE_MODE_ACCEL_FORWARDS,
   DriveMode.eDRIVE_MODE_HANDBRAKE_TURN_RIGHT,
   DriveMode.eDRIVE_MODE_NONE]

/-- The initial value `4.0f` of `gVehicleModeLifetime`, which no code writes. -/
def gVehicleModeLifetime : ℚ := 4

/-- The functions that set the controls of the vehicle, as calls of a trace. -/
inductive ControlCall where
  | releaseAllControls
  | startAccelerateForwardsMode
  | startAccelerateReverseMode
  | startTurnHardLeftMode
  | startHandbrakeTurnLeftMode
  | startTurnHardRightMode
  | startHandbrakeTurnRightMode
  | startBrakeMode
  deriving DecidableEq, Repr

/-- The globals that `incrementDrivingMode` reads and writes, with the control calls
made so far. The timer is a `PxF32` in the code and an exact rational here. -/
structure VehicleState where
  gVehicleModeTimer : ℚ
  gVehicleOrderComplete : Bool
  gVehicleOrderProgress : Nat
  controls : List ControlCall

/-- The `switch(eDriveMode)` of `incrementDrivingMode`. -/
def startDriveMode : DriveMode → List ControlCall
  | DriveMode.eDRIVE_MODE_ACCEL_FORWARDS => [ControlCall.startAccelerateForwardsMode]
  | DriveMode.eDRIVE_MODE_ACCEL_REVERSE => [ControlCall.startAccelerateReverseMode]
  | DriveMode.eDRIVE_MODE_HARD_TURN_LEFT => [ControlCall.startTurnHardLeftMode]
  | DriveMode.eDRIVE_MODE_HANDBRAKE_TURN_LEFT => [ControlCall.startHandbrakeTurnLeftMode]
  | DriveMode.eDRIVE_MODE_HARD_TURN_RIGHT => [ControlCall.startTurnHardRightMode]
  | DriveMode.eDRIVE_MODE_HANDBRAKE_TURN_RIGHT => [ControlCall.startHandbrakeTurnRightMode]
  | DriveMode.eDRIVE_MODE_BRAKE => [ControlCall.startBrakeMode]
  | DriveMode.eDRIVE_MODE_NONE => []

/-- The function `incrementDrivingMode`. The result is `none` when `gDriveModeOrder`
is read at an index outside the array; `gVehicleOrderProgress++` is an increment of a
`PxU32`. -/
def incrementDrivingMode (s : VehicleState) (timestep : ℚ) : Option VehicleState :=
  let timer := s.gVehicleModeTimer + timestep
  if timer > gVehicleModeLifetime then
    let progress := (s.gVehicleOrderProgress + 1) % 4294967296
    match gDriveModeOrder[progress]? with
    | none => none
    | some mode =>
      let wraps := decide (DriveMode.eDRIVE_MODE_NONE = mode)
      let progress1 := if wraps then 0 else progress
      match gDriveModeOrder[progress1]? with
      | none => none
      | some eDriveMode =>
        some
          { gVehicleModeTimer := 0
            gVehicleOrderComplete := if wraps then true else s.gVehicleOrderComplete
            gVehicleOrderProgress := progress1
            controls := s.controls ++ [ControlCall.releaseAllControls]
              ++ startDriveMode eDriveMode }
  else
    some { s with gVehicleModeTimer := timer }

/-- The globals as `initPhysics` leaves them in a fresh process: the timer and the
progress are set to zero, `gVehicleOrderComplete` has its initial value, and the
vehicle is braking. -/
def initPhysics : VehicleState :=
  { gVehicleModeTimer := 0
    gVehicleOrderComplete := false
    gVehicleOrderProgress := 0
    controls := [ControlCall.startBrakeMode] }

/-- A sequence of calls of `incrementDrivingMode`, one per time step. -/
def incrementDrivingModes : VehicleState → List ℚ → Option VehicleState
  | s, [] => some s
  | s, timestep :: rest =>
    match incrementDrivingMode s timestep with
    | none => none
    | some s1 => incrementDrivingModes s1 rest

/-! ## The screenshot buffer -/

/-- The memory behind `screenshotData`: the byte at each offset from the pointer. The
buffer is taken to be aligned for `PxU32` and large enough for every access. -/
abbrev ScreenshotData := Nat → Nat

/-- The store `pSrc[index] = value` of a `PxU32` through the `PxU32*` view of the
buffer: the four bytes at the offsets `4 * index` to `4 * index + 3` receive the bytes
of the value, least significant first unless the machine is big-endian. -/
def writeWord (bigEndian : Bool) (data : ScreenshotData) (index value : Nat) : ScreenshotData :=
  fun a =>
    if a = 4 * index then
      (if bigEndian then value / 16777216 % 256 else value % 256)
    else if a = 4 * index + 1 then
      (if bigEndian then value / 65536 % 256 else value / 256 % 256)
    else if a = 4 * index + 2 then
      (if bigEndian then value / 256 % 256 else value / 65536 % 256)
    else if a = 4 * index + 3 then
      (if bigEndian then value % 256 else value / 16777216 % 256)
    else data a

/-- The load of the `PxU32` at `pSrc[index]` through the `PxU32*` view of the
buffer. -/
def readWord (bigEndian : Bool) (data : ScreenshotData) (index : Nat) : Nat :=
  if bigEndian then
    data (4 * index) * 16777216 + data (4 * index + 1) * 65536 + data (4 * index + 2) * 256
      + data (4 * index + 3)
  else
    data (4 * index) + data (4 * index + 1) * 256 + data (4 * index + 2) * 65536
      + data (4 * index + 3) * 16777216

/-- The expression `createPixel(pSrcByte[rPosition], pSrcByte[gPosition],
pSrcByte[bPosition])` with `pSrcByte` at the byte offset of that name. The positions
are `int` in the code and are taken non-negative here. -/
def pixelAt (data : ScreenshotData) (pSrcByte rPosition gPosition bPosition : Nat) : Nat :=
  createPixel (data (pSrcByte + rPosition)) (data (pSrcByte + gPosition))
    (data (pSrcByte + bPosition))

/-- The buffer with the pointers `pSrc` (an index of the `PxU32*` view) and `pSrcByte`
(a byte offset) of `formatScreenshot`. -/
structure ScanState where
  data : ScreenshotData
  pSrc : Nat
  pSrcByte : Nat

/-- The buffer with the pointers `pSrc`, `pSrcByte`, `pSrc2` and `pSrc2Byte` of the
flipping loop of `formatScreenshot`. -/
structure SwapState where
  data : ScreenshotData
  pSrc : Nat
  pSrcByte : Nat
  pSrc2 : Nat
  pSrc2Byte : Nat

/-- The loop `for (j = 0; j < width; ++j, pSrcByte+=srcByteStride, ++pSrc)
*pSrc = createPixel(...)`, with `n` iterations left. -/
def formatScanline (bigEndian : Bool) (srcByteStride rPosition gPosition bPosition : Nat) :
    Nat → ScanState → ScanState
  | 0, st => st
  | n + 1, st =>
    formatScanline bigEndian srcByteStride rPosition gPosition bPosition n
      { data := writeWord bigEndian st.data st.pSrc
          (pixelAt st.data st.pSrcByte rPosition gPosition bPosition)
        pSrc := st.pSrc + 1
        pSrcByte := st.pSrcByte + srcByteStride }

/-- The loop `for (i = 0; i < height; ++i)` of the branch without flipping, with `m`
iterations left. -/
def formatRows (bigEndian : Bool) (srcByteStride rPosition gPosition bPosition width : Nat) :
    Nat → ScanState → ScanState
  | 0, st => st
  | m + 1, st =>
    formatRows bigEndian srcByteStride rPosition gPosition bPosition width m
      (formatScanline bigEndian srcByteStride rPosition gPosition bPosition width st)

/-- The inner loop of the flipping branch, with `n` iterations left: the pixel under
`pSrcByte` is kept in `temp`, the word at `pSrc` receives the pixel under `pSrc2Byte`,
and the word at `pSrc2` receives `temp`. -/
def swapScanlines (bigEndian : Bool) (srcByteStride rPosition gPosition bPosition : Nat) :
    Nat → SwapState → SwapState
  | 0, st => st
  | n + 1, st =>
    let temp := pixelAt st.data st.pSrcByte rPosition gPosition bPosition
    let data1 := writeWord bigEndian st.data st.pSrc
      (pixelAt st.data st.pSrc2Byte rPosition gPosition bPosition)
    let data2 := writeWord bigEndian data1 st.pSrc2 temp
    swapScanlines bigEndian srcByteStride rPosition gPosition bPosition n
      { data := data2
        pSrc := st.pSrc + 1
        pSrcByte := st.pSrcByte + srcByteStride
        pSrc2 := st.pSrc2 + 1
        pSrc2Byte := st.pSrc2Byte + srcByteStride }

/-- The loop `for (i = 0; i < height/2; ++i)` of the flipping branch, at the index `i`
with `m` iterations left. The offsets of `pSrc2` and `pSrc2Byte` are computed in
`PxU32`; `height - i - 1` does not wrap, since `i < height/2`. -/
def flipRows (bigEndian : Bool)
    (srcByteStride rPosition gPosition bPosition width height : Nat) :
    Nat → Nat → ScanState → ScanState
  | 0, _, st => st
  | m + 1, i, st =>
    let st1 := swapScanlines bigEndian srcByteStride rPosition gPosition bPosition width
      { data := st.data
        pSrc := st.pSrc
        pSrcByte := st.pSrcByte
        pSrc2 := width * (height - i - 1) % 4294967296
        pSrc2Byte := srcByteStride * width * (height - i - 1) % 4294967296 }
    flipRows bigEndian srcByteStride rPosition gPosition bPosition width height m (i + 1)
      { data := st1.data, pSrc := st1.pSrc, pSrcByte := st1.pSrcByte }

/-- The function `Renderer::formatScreenshot`: the buffer after the call. `width`,
`height` and `sizeInBytes` are `PxU32` values; the product `width * height` is taken
in `PxU32`, and the result is `none` when it is zero, where the code divides by
zero. `bigEndian` is the byte order of the machine. -/
def formatScreenshot (bigEndian : Bool) (width height sizeInBytes : Nat)
    (rPosition gPosition bPosition : Nat) (bFlipY : Bool) (screenshotData : ScreenshotData) :
    Option ScreenshotData :=
  if width = 0 ∨ height = 0 ∨ sizeInBytes = 0 then some screenshotData
  else if width * height % 4294967296 = 0 then none
  else
    let srcByteStride := sizeInBytes / (width * height % 4294967296)
    if srcByteStride = 0 ∨ srcByteStride > 4 then some screenshotData
    else
      let start : ScanState := { data := screenshotData, pSrc := 0, pSrcByte := 0 }
      if bFlipY then
        let st := flipRows bigEndian srcByteStride rPosition gPosition bPosition width height
          (height / 2) 0 start
        if height % 2 = 1 then
          some (formatScanline bigEndian srcByteStride rPosition gPosition bPosition width
            st).data
        else some st.data
      else
        some (formatRows bigEndian srcByteStride rPosition gPosition bPosition width height
          start).data

/-- A buffer of two pixels of three bytes each, `(10, 20, 30)` and `(40, 50, 60)`,
with zero bytes behind them. -/
def twoPixels : ScreenshotData :=
  fun a => [10, 20, 30, 40, 50, 60].getD a 0

/-- A buffer in which the byte at the offset `a` is `a % 256`. -/
def rampData : ScreenshotData := fun a => a % 256

/-- The buffer `out` is the buffer `data` with the four-byte pixels `p` to `q - 1`
converted in place: the bytes outside those pixels are as in `data`, and the word of
each of those pixels is the pixel made from the bytes it had in `data`. -/
def ConvertedInPlace (bigEndian : Bool) (rPosition gPosition bPosition : Nat)
    (data out : ScreenshotData) (p q : Nat) : Prop :=
  (∀ a, a < 4 * p ∨ 4 * q ≤ a → out a = data a) ∧
  ∀ k, p ≤ k → k < q → readWord bigEndian out k = pixelAt data (4 * k) rPosition gPosition bPosition

/-- The buffer `out` is the buffer `data` with the `n` four-byte pixels from `p` and
the `n` four-byte pixels from `q` converted and exchanged: the bytes outside those
pixels are as in `data`, the word at `p + k` is the pixel made from the bytes that the
pixel `q + k` had in `data`, and the word at `q + k` the pixel made from the bytes
that the pixel `p + k` had. -/
def SwappedInPlace (bigEndian : Bool) (rPosition gPosition bPosition : Nat)
    (data out : ScreenshotData) (p q n : Nat) : Prop :=
  (∀ a, (a < 4 * p ∨ (4 * (p + n) ≤ a ∧ a < 4 * q) ∨ 4 * (q + n) ≤ a) → out a = data a) ∧
  ∀ k, k < n →
    readWord bigEndian out (p + k) = pixelAt data (4 * (q + k)) rPosition gPosition bPosition ∧
    readWord bigEndian out (q + k) = pixelAt data (4 * (p + k)) rPosition gPosition bPosition

/-! ## Theorems -/

/-- C1: for every valid mesh context, `queueMeshForRender` appends the context at the
end of exactly one queue, the one chosen by the screen space flag, the material type
and the blending flag, and leaves the other three queues unchanged. -/
theorem queueMeshForRender_valid (materials : MaterialId → RendererMaterial) (r : Renderer)
    (mesh : RendererMeshContext) (hvalid : mesh.isValid = true) :
    ∃ m, mesh.material = some m ∧
      ∀ q, (queueMeshForRender materials r mesh).queue q =
        if q = bucketFor mesh.screenSpace (materials m) then r.queue q ++ [mesh]
        else r.queue q := by
  obtain ⟨hmesh, hmat⟩ : mesh.mesh.isSome = true ∧ mesh.material.isSome = true := by
    simpa [RendererMeshContext.isValid] using hvalid
  obtain ⟨m, hm⟩ := Option.isSome_iff_exists.mp hmat
  refine ⟨m, hm, fun q => ?_⟩
  unfold queueMeshForRender bucketFor
  rw [if_pos hvalid]
  by_cases hs : mesh.screenSpace = true
  · simp only [hs, if_true]
    cases q <;> simp [Renderer.queue]
  · simp only [hs, Bool.false_eq_true, if_false, hm]
    cases ht : (materials m).m_type with
    | TYPE_LIT =>
      by_cases hb : (materials m).m_blending = true
      · simp only [hb, if_true]
        cases q <;> simp [Renderer.queue]
      · simp only [hb, Bool.false_eq_true, if_false]
        cases q <;> simp [Renderer.queue]
    | TYPE_UNLIT => cases q <;> simp [Renderer.queue]
    | other tag => cases q <;> simp [Renderer.queue]

/-- Worked instance of C1: a lit, blended context queued on the empty renderer. -/
theorem queueMeshForRender_valid_witness :
    (sampleContext 3 1).isValid = true ∧
    ∃ m, (sampleContext 3 1).material = some m ∧
      ∀ q, (queueMeshForRender sampleMaterials emptyRenderer (sampleContext 3 1)).queue q =
        if q = bucketFor (sampleContext 3 1).screenSpace (sampleMaterials m)
        then emptyRenderer.queue q ++ [sampleContext 3 1]
        else emptyRenderer.queue q :=
  ⟨by decide, queueMeshForRender_valid sampleMaterials emptyRenderer (sampleContext 3 1) (by decide)⟩

/-- C2: for a mesh context that is not valid, `queueMeshForRender` changes nothing:
the four mesh queues and the light list (every member of the renderer) are as
before. -/
theorem queueMeshForRender_invalid (materials : MaterialId → RendererMaterial) (r : Renderer)
    (mesh : RendererMeshContext) (hinvalid : mesh.isValid = false) :
    (∀ q, (queueMeshForRender materials r mesh).queue q = r.queue q) ∧
    (queueMeshForRender materials r mesh).m_visibleLights = r.m_visibleLights := by
  unfold queueMeshForRender
  simp [hinvalid]

/-- Worked instance of C2: a context without a material. -/
theorem queueMeshForRender_invalid_witness :
    ({ sampleContext 3 1 with material := none } : RendererMeshContext).isValid = false ∧
    ((∀ q, (queueMeshForRender sampleMaterials emptyRenderer
        { sampleContext 3 1 with material := none }).queue q = emptyRenderer.queue q) ∧
    (queueMeshForRender sampleMaterials emptyRenderer
        { sampleContext 3 1 with material := none }).m_visibleLights
      = emptyRenderer.m_visibleLights) :=
  ⟨by decide, queueMeshForRender_invalid sampleMaterials emptyRenderer
    { sampleContext 3 1 with material := none } (by decide)⟩

/-- C3: `queueLightForRender` on a locked light leaves the active list and the store
of lights (so the owner of the light) unchanged; on an unlocked light it makes this
renderer the owner, touches no other light, and appends the light at the end of the
active list. Hence, when the queued lights are distinct and owned by this renderer
before the call, they still are after it: no light is queued twice and no owner is
overwritten. -/
theorem queueLightForRender_locks_once (lights : LightId → RendererLight) (r : Renderer)
    (light : LightId) (hcons : LightsConsistent lights r) :
    ((lights light).isLocked = true →
      (queueLightForRender lights r light).2.m_visibleLights = r.m_visibleLights ∧
      (queueLightForRender lights r light).1 = lights) ∧
    ((lights light).isLocked = false →
      ((queueLightForRender lights r light).1 light).m_renderer = some r.self ∧
      (∀ k, k ≠ light → (queueLightForRender lights r light).1 k = lights k) ∧
      (queueLightForRender lights r light).2.m_visibleLights = r.m_visibleLights ++ [light]) ∧
    LightsConsistent (queueLightForRender lights r light).1 (queueLightForRender lights r light).2 := by
  by_cases hl : (lights light).isLocked = true
  · refine ⟨fun _ => ?_, fun h => ?_, ?_⟩
    · simp [queueLightForRender, hl]
    · rw [hl] at h
      exact absurd h (by decide)
    · simpa [queueLightForRender, hl] using hcons
  · have hl' : (lights light).isLocked = false := by simpa using hl
    have hnot : light ∉ r.m_visibleLights := by
      intro hmem
      have := hcons.2 light hmem
      simp [RendererLight.isLocked, this] at hl'
    refine ⟨fun h => ?_, fun _ => ?_, ?_⟩
    · rw [hl'] at h
      exact absurd h (by decide)
    · refine ⟨?_, ?_, ?_⟩
      · simp [queueLightForRender, hl', setOwner]
      · intro k hk
        simp [queueLightForRender, hl', setOwner, Function.update_noteq hk]
      · simp [queueLightForRender, hl']
    · constructor
      · simp only [queueLightForRender, hl', Bool.not_false, if_true]
        exact List.nodup_append.mpr ⟨hcons.1, List.nodup_singleton _, by
          intro a ha hb
          rw [List.mem_singleton] at hb
          exact hnot (hb ▸ ha)⟩
      · intro l hmem
        simp only [queueLightForRender, hl', Bool.not_false, if_true, List.mem_append,
          List.mem_singleton] at hmem ⊢
        by_cases hk : l = light
        · subst hk
          simp [setOwner]
        · rcases hmem with hmem | hmem
          · simpa [setOwner, Function.update_noteq hk] using hcons.2 l hmem
          · exact absurd hmem hk

/-- Worked instance of C3: a second, unlocked light queued behind a first one. -/
theorem queueLightForRender_locks_once_witness :
    LightsConsistent (queueLightForRender sampleLights emptyRenderer 4).1
      (queueLightForRender sampleLights emptyRenderer 4).2 ∧
    (queueLightForRender (queueLightForRender sampleLights emptyRenderer 4).1
      (queueLightForRender sampleLights emptyRenderer 4).2 5).2.m_visibleLights = [4, 5] ∧
    (queueLightForRender (queueLightForRender sampleLights emptyRenderer 4).1
      (queueLightForRender sampleLights emptyRenderer 4).2 4).2.m_visibleLights = [4] :=
  have hcons : LightsConsistent (queueLightForRender sampleLights emptyRenderer 4).1
      (queueLightForRender sampleLights emptyRenderer 4).2 :=
    ⟨by decide, by decide⟩
  ⟨hcons,
    ((queueLightForRender_locks_once _ _ 5 hcons).2.1 (by decide)).2.2,
    ((queueLightForRender_locks_once _ _ 4 hcons).1 (by decide)).1⟩

/-- C4: whatever the queues, the camera, the target, `depthOnly` and the outcome of
the scoped render section, after `render` the four mesh queues and the active-lights
list are empty. -/
theorem render_clears_queues (S : StdSort) (threshold : Nat) (renderSection : Bool)
    (lights : LightId → RendererLight) (r : Renderer) (eye : PxMat44)
    (proj : RendererProjection) (target : Option TargetId) (depthOnly : Bool) :
    (∀ q, (render S threshold renderSection lights r eye proj target depthOnly).renderer.queue q
      = []) ∧
    (render S threshold renderSection lights r eye proj target depthOnly).renderer.m_visibleLights
      = [] := by
  refine ⟨fun q => ?_, rfl⟩
  cases q <;> rfl

/-- C5 (behaviour of the code): a light queued with `queueLightForRender` is still
locked after `render` when `depthOnly` is set and when the render section fails,
although it is unlocked when the forward lit branch runs. The active list is emptied
all the same, so the light is held by a renderer that no longer lists it, and the
next `queueLightForRender` refuses it. -/
theorem render_leaves_light_locked :
    ((render insertionStdSort 8 true
        (queueLightForRender sampleLights emptyRenderer 4).1
        (queueLightForRender sampleLights emptyRenderer 4).2
        sampleEye (RendererProjection.other 0) none true).lights 4).isLocked = true ∧
    ((render insertionStdSort 8 false
        (queueLightForRender sampleLights emptyRenderer 4).1
        (queueLightForRender sampleLights emptyRenderer 4).2
        sampleEye (RendererProjection.other 0) none false).lights 4).isLocked = true ∧
    ((render insertionStdSort 8 true
        (queueLightForRender sampleLights emptyRenderer 4).1
        (queueLightForRender sampleLights emptyRenderer 4).2
        sampleEye (RendererProjection.other 0) none false).lights 4).isLocked = false ∧
    (render insertionStdSort 8 true
        (queueLightForRender sampleLights emptyRenderer 4).1
        (queueLightForRender sampleLights emptyRenderer 4).2
        sampleEye (RendererProjection.other 0) none true).renderer.m_visibleLights = [] ∧
    (queueLightForRender
        (render insertionStdSort 8 true
          (queueLightForRender sampleLights emptyRenderer 4).1
          (queueLightForRender sampleLights emptyRenderer 4).2
          sampleEye (RendererProjection.other 0) none true).lights
        (render insertionStdSort 8 true
          (queueLightForRender sampleLights emptyRenderer 4).1
          (queueLightForRender sampleLights emptyRenderer 4).2
          sampleEye (RendererProjection.other 0) none true).renderer 4).2.m_visibleLights
      = [] := by
  refine ⟨by decide, by decide, by decide, rfl, by decide⟩

/-- Removing with `remove_if` keeps the elements that fail the predicate. -/
theorem remove_if_eq_filter (pred : RendererMeshContext → Bool) (l : List RendererMeshContext) :
    remove_if pred l = l.filter (fun c => !pred c) := by
  induction l with
  | nil => rfl
  | cons c rest ih =>
    by_cases h : pred c = true
    · simp [remove_if, h, ih]
    · simp [remove_if, h, ih]

/-- C6: `removeMeshFromRenderQueue` leaves in each of the four queues exactly the
entries whose mesh differs from the given one, in their original order, and no
entry that refers to the mesh remains in any queue. -/
theorem removeMeshFromRenderQueue_filters (r : Renderer) (mesh : MeshId) :
    (∀ q, (removeMeshFromRenderQueue r mesh).queue q
      = (r.queue q).filter (fun c => decide (c.mesh ≠ some mesh))) ∧
    (∀ q, ∀ c ∈ (removeMeshFromRenderQueue r mesh).queue q, c.mesh ≠ some mesh) := by
  have key : ∀ q, (removeMeshFromRenderQueue r mesh).queue q
      = (r.queue q).filter (fun c => decide (c.mesh ≠ some mesh)) := by
    intro q
    cases q <;>
      simp [removeMeshFromRenderQueue, Renderer.queue, remove_if_eq_filter,
        RenderMeshContextHasMesh]
  refine ⟨key, fun q c hc => ?_⟩
  rw [key q, List.mem_filter] at hc
  simpa using hc.2

/-- A light count that fits the `PxU32` it is cast to is not changed by the cast. -/
theorem numLightsOf_eq (r : Renderer) (hfit : r.m_visibleLights.length < 4294967296) :
    numLightsOf r = r.m_visibleLights.length :=
  Nat.mod_eq_of_lt hfit

/-- The function `sortMeshes` touches the transparent queue only. -/
theorem sortMeshes_fields (S : StdSort) (r : Renderer) (eye : PxMat44) :
    (sortMeshes S r eye).m_visibleLights = r.m_visibleLights ∧
    (sortMeshes S r eye).m_visibleLitMeshes = r.m_visibleLitMeshes ∧
    (sortMeshes S r eye).m_visibleUnlitMeshes = r.m_visibleUnlitMeshes ∧
    (sortMeshes S r eye).m_ambientColor = r.m_ambientColor ∧
    (sortMeshes S r eye).m_fogColor = r.m_fogColor ∧
    (sortMeshes S r eye).m_fogDistance = r.m_fogDistance :=
  ⟨rfl, rfl, rfl, rfl, rfl, rfl⟩

/-- A loop over all the lights of the vector runs its body on each, in order. -/
theorem forEachLight_all (visibleLights : List LightId) (body : LightId → List Call) :
    forEachLight visibleLights 0 visibleLights.length body = visibleLights.flatMap body := by
  simp [forEachLight]

/-- A loop from index 1 over all the lights runs its body on each light after the
first. -/
theorem forEachLight_tail (light0 : LightId) (rest : List LightId) (body : LightId → List Call) :
    forEachLight (light0 :: rest) 1 (light0 :: rest).length body = rest.flatMap body := by
  simp [forEachLight]

/-- The calls of `render` with `depthOnly` set, in an entered render section. -/
theorem render_depthOnly_trace (S : StdSort) (threshold : Nat)
    (lights : LightId → RendererLight) (r : Renderer) (eye : PxMat44)
    (proj : RendererProjection) (target : Option TargetId) :
    (render S threshold true lights r eye proj target true).calls =
      bindTarget target ++
      [Call.scopedRenderEnter,
       Call.bindAmbientState ⟨0, 0, 0, 255⟩,
       Call.bindViewProj eye proj,
       Call.renderMeshes Queue.visibleLit r.m_visibleLitMeshes Pass.PASS_DEPTH,
       Call.renderMeshes Queue.visibleUnlit r.m_visibleUnlitMeshes Pass.PASS_DEPTH] ++
      unbindTarget target ++ [Call.scopedRenderLeave] := by
  simp [render, renderSectionBody, renderScreenSpace, sortMeshes, black]

/-- C7, amended: with `depthOnly` set and the render section entered, whatever the number of
queued lights and the threshold, `render` makes exactly these calls between the bind
and the unbind of the target: black ambient, the view, the opaque lit queue and then
the opaque unlit queue, both with `PASS_DEPTH`. So the only ambient bound is black,
the only dispatches are those two (neither the screen space nor the transparent
queue is dispatched), no light is bound, and no deferred or multi-pass state is
bound. -/
theorem render_depthOnly_calls (S : StdSort) (threshold : Nat)
    (lights : LightId → RendererLight) (r : Renderer) (eye : PxMat44)
    (proj : RendererProjection) (target : Option TargetId) :
    (render S threshold true lights r eye proj target true).calls =
      bindTarget target ++
      [Call.scopedRenderEnter,
       Call.bindAmbientState ⟨0, 0, 0, 255⟩,
       Call.bindViewProj eye proj,
       Call.renderMeshes Queue.visibleLit r.m_visibleLitMeshes Pass.PASS_DEPTH,
       Call.renderMeshes Queue.visibleUnlit r.m_visibleUnlitMeshes Pass.PASS_DEPTH] ++
      unbindTarget target ++ [Call.scopedRenderLeave] ∧
    ambientBinds (render S threshold true lights r eye proj target true).calls
      = [⟨0, 0, 0, 255⟩] ∧
    dispatchOrder (render S threshold true lights r eye proj target true).calls
      = [(Queue.visibleLit, Pass.PASS_DEPTH), (Queue.visibleUnlit, Pass.PASS_DEPTH)] ∧
    ∀ c ∈ (render S threshold true lights r eye proj target true).calls,
      c.isForwardLighting = false ∧ c.isDeferredLighting = false := by
  rw [render_depthOnly_trace]
  refine ⟨rfl, ?_, ?_, ?_⟩
  · cases target <;> rfl
  · cases target <;> rfl
  · cases target <;>
      simp [bindTarget, unbindTarget, Call.isForwardLighting, Call.isDeferredLighting]

/-- What the screen space step contributes to the observations of a frame. -/
theorem renderScreenSpace_observed (r : Renderer) :
    dispatchOrder (renderScreenSpace r false)
      = (if r.m_screenSpaceMeshes = [] then [] else [(Queue.screenSpace, Pass.PASS_UNLIT)]) ∧
    ambientBinds (renderScreenSpace r false) = [] ∧
    deferredLights (renderScreenSpace r false) = [] ∧
    (renderScreenSpace r false).count Call.bindDeferredState = 0 ∧
    ∀ c ∈ renderScreenSpace r false,
      c.isForwardLighting = false ∧ c.isDeferredLighting = false := by
  cases h : r.m_screenSpaceMeshes <;>
    simp [renderScreenSpace, h, dispatchOrder, ambientBinds, deferredLights,
      Call.isForwardLighting, Call.isDeferredLighting]

/-- What the target bind and unbind contribute to the observations of a frame. -/
theorem target_observed (target : Option TargetId) :
    dispatchOrder (bindTarget target) = [] ∧ dispatchOrder (unbindTarget target) = [] ∧
    ambientBinds (bindTarget target) = [] ∧ ambientBinds (unbindTarget target) = [] ∧
    deferredLights (bindTarget target) = [] ∧ deferredLights (unbindTarget target) = [] ∧
    (bindTarget target).count Call.bindDeferredState = 0 ∧
    (unbindTarget target).count Call.bindDeferredState = 0 ∧
    (∀ c ∈ bindTarget target, c.isForwardLighting = false ∧ c.isDeferredLighting = false) ∧
    (∀ c ∈ unbindTarget target, c.isForwardLighting = false ∧ c.isDeferredLighting = false) := by
  cases target <;>
    simp [bindTarget, unbindTarget, dispatchOrder, ambientBinds, deferredLights,
      Call.isForwardLighting, Call.isDeferredLighting]

/-- What the loop of `renderDeferredLights` contributes to the observations. -/
theorem deferredLoop_observed (ls : List LightId) :
    dispatchOrder (ls.map Call.renderDeferredLight) = [] ∧
    deferredLights (ls.map Call.renderDeferredLight) = ls ∧
    (ls.map Call.renderDeferredLight).count Call.bindDeferredState = 0 ∧
    ∀ c ∈ ls.map Call.renderDeferredLight, c.isForwardLighting = false := by
  induction ls with
  | nil => simp [dispatchOrder, deferredLights]
  | cons l ls ih =>
    obtain ⟨h1, h2, h3, h4⟩ := ih
    refine ⟨?_, ?_, ?_, ?_⟩
    · simp [dispatchOrder]
    · simpa [deferredLights] using h2
    · simpa [List.count_cons] using h3
    · intro c hc
      rcases List.mem_cons.mp hc with hc | hc
      · subst hc; rfl
      · exact h4 c hc

/-- The calls of `render` on the deferred branch, in an entered render section. -/
theorem render_deferred_trace (S : StdSort) (threshold : Nat)
    (lights : LightId → RendererLight) (r : Renderer) (eye : PxMat44)
    (proj : RendererProjection) (target : Option TargetId)
    (hfit : r.m_visibleLights.length < 4294967296)
    (hmany : threshold < r.m_visibleLights.length) :
    (render S threshold true lights r eye proj target false).calls =
      bindTarget target ++ [Call.scopedRenderEnter] ++ renderScreenSpace r false ++
      [Call.bindDeferredState,
       Call.bindViewProj eye proj,
       Call.renderMeshes Queue.visibleLit r.m_visibleLitMeshes Pass.PASS_UNLIT,
       Call.renderMeshes Queue.visibleUnlit r.m_visibleUnlitMeshes Pass.PASS_UNLIT,
       Call.renderMeshes Queue.visibleLitTransparent
         (S.sort (CompareMeshCameraDist eye.getPosition) r.m_visibleLitTransparentMeshes)
         Pass.PASS_UNLIT] ++
      r.m_visibleLights.map Call.renderDeferredLight ++
      unbindTarget target ++ [Call.scopedRenderLeave] := by
  have hdef : renderDeferredLights (sortMeshes S r eye)
      = r.m_visibleLights.map Call.renderDeferredLight := by
    unfold renderDeferredLights
    rw [numLightsOf_eq _ (by simpa [sortMeshes] using hfit)]
    rw [(sortMeshes_fields S r eye).1, forEachLight_all]
    induction r.m_visibleLights with
    | nil => rfl
    | cons l ls ih => simpa [List.flatMap_cons] using ih
  simp only [render, renderSectionBody, numLightsOf_eq r hfit, if_true, Bool.false_eq_true,
    if_false, gt_iff_lt, hmany, hdef]
  simp [sortMeshes]

/-- C8, amended: with `depthOnly` clear, the render section entered and more queued lights than
`RENDERER_DEFERRED_THRESHOLD` (the count fitting the `PxU32` that holds it), `render`
makes exactly these calls: after the screen space step, `bindDeferredState`, the
view, the opaque lit, the opaque unlit and the (sorted) transparent queue with
`PASS_UNLIT`, then `renderDeferredLight` for each queued light in queue order. So the
deferred state is bound exactly once, each of the three queues is dispatched once
with `PASS_UNLIT`, `renderDeferredLight` is called once per queued light in order,
and there is no call of `beginMultiPass`, `beginTransparentMultiPass` or of a
light's bind. -/
theorem render_deferred_calls (S : StdSort) (threshold : Nat)
    (lights : LightId → RendererLight) (r : Renderer) (eye : PxMat44)
    (proj : RendererProjection) (target : Option TargetId)
    (hfit : r.m_visibleLights.length < 4294967296)
    (hmany : threshold < r.m_visibleLights.length) :
    (render S threshold true lights r eye proj target false).calls =
      bindTarget target ++ [Call.scopedRenderEnter] ++ renderScreenSpace r false ++
      [Call.bindDeferredState,
       Call.bindViewProj eye proj,
       Call.renderMeshes Queue.visibleLit r.m_visibleLitMeshes Pass.PASS_UNLIT,
       Call.renderMeshes Queue.visibleUnlit r.m_visibleUnlitMeshes Pass.PASS_UNLIT,
       Call.renderMeshes Queue.visibleLitTransparent
         (S.sort (CompareMeshCameraDist eye.getPosition) r.m_visibleLitTransparentMeshes)
         Pass.PASS_UNLIT] ++
      r.m_visibleLights.map Call.renderDeferredLight ++
      unbindTarget target ++ [Call.scopedRenderLeave] ∧
    (render S threshold true lights r eye proj target false).calls.count Call.bindDeferredState
      = 1 ∧
    dispatchOrder (render S threshold true lights r eye proj target false).calls
      = (if r.m_screenSpaceMeshes = [] then [] else [(Queue.screenSpace, Pass.PASS_UNLIT)]) ++
        [(Queue.visibleLit, Pass.PASS_UNLIT), (Queue.visibleUnlit, Pass.PASS_UNLIT),
         (Queue.visibleLitTransparent, Pass.PASS_UNLIT)] ∧
    deferredLights (render S threshold true lights r eye proj target false).calls
      = r.m_visibleLights ∧
    ∀ c ∈ (render S threshold true lights r eye proj target false).calls,
      c.isForwardLighting = false := by
  rw [render_deferred_trace S threshold lights r eye proj target hfit hmany]
  obtain ⟨s1, -, s3, s4, s5⟩ := renderScreenSpace_observed r
  obtain ⟨t1, t2, -, -, t5, t6, t7, t8, t9, t10⟩ := target_observed target
  obtain ⟨d1, d2, d3, d4⟩ := deferredLoop_observed r.m_visibleLights
  refine ⟨rfl, ?_, ?_, ?_, ?_⟩
  · simp [List.count_append, s4, t7, t8, d3, List.count_cons]
  · unfold dispatchOrder at *
    simp [List.filterMap_append, s1, t1, t2, d1]
  · unfold deferredLights at *
    simp [List.filterMap_append, s3, t5, t6, d2]
  · intro c hc
    simp only [List.mem_append] at hc
    rcases hc with (((((hc | hc) | hc) | hc) | hc) | hc) | hc
    · exact (t9 c hc).1
    · rw [List.mem_singleton.mp hc]; rfl
    · exact (s5 c hc).1
    · simp only [List.mem_cons, List.mem_singleton, List.not_mem_nil, or_false] at hc
      rcases hc with hc | hc | hc | hc | hc <;> rw [hc] <;> rfl
    · exact d4 c hc
    · exact (t10 c hc).1
    · rw [List.mem_singleton.mp hc]; rfl

/-- Worked instance of C8: two lights queued, threshold one. -/
theorem render_deferred_calls_witness :
    [4, 5].length < 4294967296 ∧ 1 < [4, 5].length ∧
    (render insertionStdSort 1 true sampleLights
      { emptyRenderer with
        m_visibleLights := [4, 5]
        m_visibleLitMeshes := [sampleContext 3 0] }
      sampleEye (RendererProjection.other 0) none false).calls =
      [Call.scopedRenderEnter,
       Call.bindDeferredState,
       Call.bindViewProj sampleEye (RendererProjection.other 0),
       Call.renderMeshes Queue.visibleLit [sampleContext 3 0] Pass.PASS_UNLIT,
       Call.renderMeshes Queue.visibleUnlit [] Pass.PASS_UNLIT,
       Call.renderMeshes Queue.visibleLitTransparent [] Pass.PASS_UNLIT,
       Call.renderDeferredLight 4,
       Call.renderDeferredLight 5,
       Call.scopedRenderLeave] :=
  ⟨by decide, by decide,
    (render_deferred_calls insertionStdSort 1 sampleLights
      { emptyRenderer with
        m_visibleLights := [4, 5]
        m_visibleLitMeshes := [sampleContext 3 0] }
      sampleEye (RendererProjection.other 0) none (by decide) (by decide)).1⟩

/-- The calls of `render` with no light queued, in an entered render section. -/
theorem render_unlit_trace (S : StdSort) (threshold : Nat)
    (lights : LightId → RendererLight) (r : Renderer) (eye : PxMat44)
    (proj : RendererProjection) (target : Option TargetId)
    (hnone : r.m_visibleLights = []) :
    (render S threshold true lights r eye proj target false).calls =
      bindTarget target ++ [Call.scopedRenderEnter] ++ renderScreenSpace r false ++
      [Call.bindAmbientState ⟨0, 0, 0, 255⟩,
       Call.bindViewProj eye proj,
       Call.renderMeshes Queue.visibleLit r.m_visibleLitMeshes Pass.PASS_UNLIT,
       Call.renderMeshes Queue.visibleUnlit r.m_visibleUnlitMeshes Pass.PASS_UNLIT,
       Call.renderMeshes Queue.visibleLitTransparent
         (S.sort (CompareMeshCameraDist eye.getPosition) r.m_visibleLitTransparentMeshes)
         Pass.PASS_UNLIT] ++
      unbindTarget target ++ [Call.scopedRenderLeave] := by
  simp [render, renderSectionBody, numLightsOf, hnone, sortMeshes, black]

/-- C10, amended: with `depthOnly` clear, the render section entered and no light queued,
`render` makes exactly these calls: after the screen space step, black ambient, the
view, then the opaque lit, the opaque unlit and the (sorted) transparent queue, in
that order, all with `PASS_UNLIT`. So the only ambient bound is black, each of the
three queues is dispatched exactly once, and no light is bound and no multi-pass or
deferred state is bound. -/
theorem render_unlit_calls (S : StdSort) (threshold : Nat)
    (lights : LightId → RendererLight) (r : Renderer) (eye : PxMat44)
    (proj : RendererProjection) (target : Option TargetId)
    (hnone : r.m_visibleLights = []) :
    (render S threshold true lights r eye proj target false).calls =
      bindTarget target ++ [Call.scopedRenderEnter] ++ renderScreenSpace r false ++
      [Call.bindAmbientState ⟨0, 0, 0, 255⟩,
       Call.bindViewProj eye proj,
       Call.renderMeshes Queue.visibleLit r.m_visibleLitMeshes Pass.PASS_UNLIT,
       Call.renderMeshes Queue.visibleUnlit r.m_visibleUnlitMeshes Pass.PASS_UNLIT,
       Call.renderMeshes Queue.visibleLitTransparent
         (S.sort (CompareMeshCameraDist eye.getPosition) r.m_visibleLitTransparentMeshes)
         Pass.PASS_UNLIT] ++
      unbindTarget target ++ [Call.scopedRenderLeave] ∧
    ambientBinds (render S threshold true lights r eye proj target false).calls
      = [⟨0, 0, 0, 255⟩] ∧
    dispatchOrder (render S threshold true lights r eye proj target false).calls
      = (if r.m_screenSpaceMeshes = [] then [] else [(Queue.screenSpace, Pass.PASS_UNLIT)]) ++
        [(Queue.visibleLit, Pass.PASS_UNLIT), (Queue.visibleUnlit, Pass.PASS_UNLIT),
         (Queue.visibleLitTransparent, Pass.PASS_UNLIT)] ∧
    ∀ c ∈ (render S threshold true lights r eye proj target false).calls,
      c.isForwardLighting = false ∧ c.isDeferredLighting = false := by
  rw [render_unlit_trace S threshold lights r eye proj target hnone]
  obtain ⟨s1, s2, -, -, s5⟩ := renderScreenSpace_observed r
  obtain ⟨t1, t2, t3, t4, -, -, -, -, t9, t10⟩ := target_observed target
  refine ⟨rfl, ?_, ?_, ?_⟩
  · unfold ambientBinds at *
    simp [List.filterMap_append, s2, t3, t4]
  · unfold dispatchOrder at *
    simp [List.filterMap_append, s1, t1, t2]
  · intro c hc
    simp only [List.mem_append] at hc
    rcases hc with ((((hc | hc) | hc) | hc) | hc) | hc
    · exact t9 c hc
    · rw [List.mem_singleton.mp hc]; exact ⟨rfl, rfl⟩
    · exact s5 c hc
    · simp only [List.mem_cons, List.mem_singleton, List.not_mem_nil, or_false] at hc
      rcases hc with hc | hc | hc | hc | hc <;> rw [hc] <;> exact ⟨rfl, rfl⟩
    · exact t10 c hc
    · rw [List.mem_singleton.mp hc]; exact ⟨rfl, rfl⟩

/-- Worked instance of C10: three opaque lit contexts, no light. -/
theorem render_unlit_calls_witness :
    ({ emptyRenderer with
        m_visibleLitMeshes := [sampleContext 1 0, sampleContext 2 0, sampleContext 3 0] }
      : Renderer).m_visibleLights = [] ∧
    (render insertionStdSort 8 true sampleLights
      { emptyRenderer with
        m_visibleLitMeshes := [sampleContext 1 0, sampleContext 2 0, sampleContext 3 0] }
      sampleEye (RendererProjection.other 0) (some 9) false).calls =
      [Call.targetBind 9,
       Call.scopedRenderEnter,
       Call.bindAmbientState ⟨0, 0, 0, 255⟩,
       Call.bindViewProj sampleEye (RendererProjection.other 0),
       Call.renderMeshes Queue.visibleLit
         [sampleContext 1 0, sampleContext 2 0, sampleContext 3 0] Pass.PASS_UNLIT,
       Call.renderMeshes Queue.visibleUnlit [] Pass.PASS_UNLIT,
       Call.renderMeshes Queue.visibleLitTransparent [] Pass.PASS_UNLIT,
       Call.targetUnbind 9,
       Call.scopedRenderLeave] :=
  ⟨rfl, (render_unlit_calls insertionStdSort 8 sampleLights
    { emptyRenderer with
      m_visibleLitMeshes := [sampleContext 1 0, sampleContext 2 0, sampleContext 3 0] }
    sampleEye (RendererProjection.other 0) (some 9) rfl).1⟩

/-- The calls of the forward lit branch for a light list `light0 :: rest`. -/
theorem renderLit_calls (lights : LightId → RendererLight) (r : Renderer) (eye : PxMat44)
    (proj : RendererProjection) (light0 : LightId) (rest : List LightId)
    (hlights : r.m_visibleLights = light0 :: rest) :
    (renderLit lights r (light0 :: rest).length eye proj).2 =
      [Call.bindAmbientState r.m_ambientColor,
        Call.bindFogState r.m_fogColor r.m_fogDistance,
        Call.bindViewProj eye proj,
        Call.lightBind light0,
        Call.renderMeshes Queue.visibleLit r.m_visibleLitMeshes (lights light0).getPass,
        Call.bindAmbientState black,
        Call.beginMultiPass]
       ++ rest.flatMap (fun light =>
          [Call.lightBind light,
           Call.renderMeshes Queue.visibleLit r.m_visibleLitMeshes (lights light).getPass])
       ++ [Call.endMultiPass,
           Call.renderMeshes Queue.visibleUnlit r.m_visibleUnlitMeshes Pass.PASS_UNLIT]
       ++ (if r.m_visibleLitTransparentMeshes.length > 0 then
            [Call.lightBind light0,
             Call.renderMeshes Queue.visibleLitTransparent
               r.m_visibleLitTransparentMeshes (lights light0).getPass,
             Call.bindAmbientState black,
             Call.beginTransparentMultiPass]
            ++ rest.flatMap (fun light =>
                [Call.lightBind light,
                 Call.renderMeshes Queue.visibleLitTransparent
                   r.m_visibleLitTransparentMeshes (lights light).getPass])
            ++ [Call.endTransparentMultiPass]
          else []) := by
  unfold renderLit
  rw [hlights]
  simp only [forEachLight_tail]

/-- The calls of `render` on the forward lit branch, for a light list
`light0 :: rest` no longer than the threshold. -/
theorem render_lit_calls (S : StdSort) (threshold : Nat)
    (lights : LightId → RendererLight) (r : Renderer) (eye : PxMat44)
    (proj : RendererProjection) (target : Option TargetId)
    (light0 : LightId) (rest : List LightId)
    (hlights : r.m_visibleLights = light0 :: rest)
    (hfit : r.m_visibleLights.length < 4294967296)
    (hfew : r.m_visibleLights.length ≤ threshold) :
    (render S threshold true lights r eye proj target false).calls =
      bindTarget target ++ [Call.scopedRenderEnter] ++ renderScreenSpace r false ++
      ([Call.bindAmbientState r.m_ambientColor,
        Call.bindFogState r.m_fogColor r.m_fogDistance,
        Call.bindViewProj eye proj,
        Call.lightBind light0,
        Call.renderMeshes Queue.visibleLit r.m_visibleLitMeshes (lights light0).getPass,
        Call.bindAmbientState black,
        Call.beginMultiPass]
       ++ rest.flatMap (fun light =>
          [Call.lightBind light,
           Call.renderMeshes Queue.visibleLit r.m_visibleLitMeshes (lights light).getPass])
       ++ [Call.endMultiPass,
           Call.renderMeshes Queue.visibleUnlit r.m_visibleUnlitMeshes Pass.PASS_UNLIT]
       ++ (if (sortMeshes S r eye).m_visibleLitTransparentMeshes.length > 0 then
            [Call.lightBind light0,
             Call.renderMeshes Queue.visibleLitTransparent
               (sortMeshes S r eye).m_visibleLitTransparentMeshes (lights light0).getPass,
             Call.bindAmbientState black,
             Call.beginTransparentMultiPass]
            ++ rest.flatMap (fun light =>
                [Call.lightBind light,
                 Call.renderMeshes Queue.visibleLitTransparent
                   (sortMeshes S r eye).m_visibleLitTransparentMeshes (lights light).getPass])
            ++ [Call.endTransparentMultiPass]
          else [])) ++
      unbindTarget target ++ [Call.scopedRenderLeave] := by
  have hn : numLightsOf r = (light0 :: rest).length := by
    rw [numLightsOf_eq r hfit, hlights]
  have hnot : ¬ threshold < (light0 :: rest).length := by
    rw [← hlights]
    exact Nat.not_lt.mpr hfew
  have hpos : 0 < (light0 :: rest).length := Nat.succ_pos _
  have hlit := renderLit_calls lights (sortMeshes S r eye) eye proj light0 rest hlights
  simp only [render, renderSectionBody, hn, if_true, Bool.false_eq_true, if_false, gt_iff_lt,
    hnot, hpos, hlit]
  simp [sortMeshes]

/-- The dispatches of two runs of calls made one after the other. -/
theorem dispatchesAfter_append (q : Queue) (a b : List Call) (prev : Option Call) :
    dispatchesAfter q prev (a ++ b)
      = dispatchesAfter q prev a ++ dispatchesAfter q (lastCall prev a) b := by
  induction a generalizing prev with
  | nil => rfl
  | cons c a ih =>
    rw [List.cons_append]
    cases c
    case renderMeshes q' meshes pass =>
      simp only [dispatchesAfter, lastCall]
      split
      · rw [ih, List.cons_append]
      · exact ih _
    all_goals exact ih _

/-- The dispatches of a loop that binds each light and then dispatches the queue
`q'` with the pass of the light. -/
theorem dispatchesAfter_lightLoop (q q' : Queue) (meshes : List RendererMeshContext)
    (passOf : LightId → Pass) (ls : List LightId) (prev : Option Call) :
    dispatchesAfter q prev
        (ls.flatMap (fun light => [Call.lightBind light, Call.renderMeshes q' meshes (passOf light)]))
      = if q' = q then ls.map (fun light => (some (Call.lightBind light), passOf light))
        else [] := by
  induction ls generalizing prev with
  | nil => simp [dispatchesAfter]
  | cons l ls ih =>
    rw [List.flatMap_cons]
    show dispatchesAfter q prev (Call.lightBind l :: Call.renderMeshes q' meshes (passOf l) ::
      ls.flatMap (fun light => [Call.lightBind light, Call.renderMeshes q' meshes (passOf light)]))
      = _
    simp only [dispatchesAfter]
    split
    · rw [ih, if_pos (by assumption), List.map_cons]
    · rw [ih, if_neg (by assumption)]

/-- Binding the target dispatches nothing. -/
theorem dispatchesAfter_bindTarget (q : Queue) (prev : Option Call) (target : Option TargetId) :
    dispatchesAfter q prev (bindTarget target) = [] := by
  cases target <;> rfl

/-- Unbinding the target dispatches nothing. -/
theorem dispatchesAfter_unbindTarget (q : Queue) (prev : Option Call)
    (target : Option TargetId) :
    dispatchesAfter q prev (unbindTarget target) = [] := by
  cases target <;> rfl

/-- The screen space step dispatches no queue other than the screen space queue. -/
theorem dispatchesAfter_renderScreenSpace (q : Queue) (prev : Option Call) (r : Renderer)
    (depthOnly : Bool) (hq : Queue.screenSpace ≠ q) :
    dispatchesAfter q prev (renderScreenSpace r depthOnly) = [] := by
  unfold renderScreenSpace
  split
  · split
    · simp [dispatchesAfter, hq]
    · rfl
  · rfl

/-- Sorting the transparent queue keeps its length. -/
theorem sortMeshes_length (S : StdSort) (r : Renderer) (eye : PxMat44) :
    (sortMeshes S r eye).m_visibleLitTransparentMeshes.length
      = r.m_visibleLitTransparentMeshes.length :=
  (S.perm _ _).length_eq

/-- C9: on the forward lit branch (`depthOnly` clear, between one light and
`RENDERER_DEFERRED_THRESHOLD` lights queued, the count fitting the `PxU32` that holds
it), `render` dispatches the opaque lit queue once per queued light, in the order of
the light list, each time immediately after the bind of that light and with the pass
of that light; it dispatches the opaque unlit queue exactly once, with `PASS_UNLIT`;
and it dispatches the transparent queue in the same way once per queued light when
that queue is not empty, and not at all when it is empty. -/
theorem render_lit_dispatches (S : StdSort) (threshold : Nat)
    (lights : LightId → RendererLight) (r : Renderer) (eye : PxMat44)
    (proj : RendererProjection) (target : Option TargetId)
    (hsome : 1 ≤ r.m_visibleLights.length)
    (hfew : r.m_visibleLights.length ≤ threshold)
    (hfit : r.m_visibleLights.length < 4294967296) :
    dispatches Queue.visibleLit (render S threshold true lights r eye proj target false).calls
      = r.m_visibleLights.map (fun l => (some (Call.lightBind l), (lights l).getPass)) ∧
    dispatches Queue.visibleUnlit (render S threshold true lights r eye proj target false).calls
      = [(some Call.endMultiPass, Pass.PASS_UNLIT)] ∧
    dispatches Queue.visibleLitTransparent
        (render S threshold true lights r eye proj target false).calls
      = if r.m_visibleLitTransparentMeshes = [] then []
        else r.m_visibleLights.map (fun l => (some (Call.lightBind l), (lights l).getPass)) := by
  obtain ⟨light0, rest, hlights⟩ : ∃ light0 rest, r.m_visibleLights = light0 :: rest := by
    cases h : r.m_visibleLights with
    | nil => rw [h] at hsome; exact absurd hsome (by decide)
    | cons a l => exact ⟨a, l, rfl⟩
  rw [render_lit_calls S threshold lights r eye proj target light0 rest hlights hfit hfew, hlights]
  have hlen := sortMeshes_length S r eye
  refine ⟨?_, ?_, ?_⟩
  · simp only [dispatches, dispatchesAfter_append, dispatchesAfter_bindTarget,
      dispatchesAfter_unbindTarget,
      dispatchesAfter_renderScreenSpace Queue.visibleLit _ r false (by decide)]
    split <;>
      simp [dispatchesAfter, dispatchesAfter_append, dispatchesAfter_lightLoop]
  · simp only [dispatches, dispatchesAfter_append, dispatchesAfter_bindTarget,
      dispatchesAfter_unbindTarget,
      dispatchesAfter_renderScreenSpace Queue.visibleUnlit _ r false (by decide)]
    split <;>
      simp [dispatchesAfter, dispatchesAfter_append, dispatchesAfter_lightLoop, lastCall]
  · simp only [dispatches, dispatchesAfter_append, dispatchesAfter_bindTarget,
      dispatchesAfter_unbindTarget,
      dispatchesAfter_renderScreenSpace Queue.visibleLitTransparent _ r false (by decide)]
    by_cases hempty : r.m_visibleLitTransparentMeshes = []
    · have h0 : ¬ (sortMeshes S r eye).m_visibleLitTransparentMeshes.length > 0 := by
        rw [hlen, hempty]; decide
      rw [if_neg h0, if_pos hempty]
      simp [dispatchesAfter, dispatchesAfter_lightLoop]
    · have h0 : (sortMeshes S r eye).m_visibleLitTransparentMeshes.length > 0 := by
        rw [hlen]; exact List.length_pos.mpr hempty
      rw [if_pos h0, if_neg hempty]
      simp [dispatchesAfter, dispatchesAfter_append, dispatchesAfter_lightLoop]

/-- Worked instance of C9: two lights, a non-empty transparent queue. -/
theorem render_lit_dispatches_witness :
    (1 ≤ litRenderer.m_visibleLights.length ∧ litRenderer.m_visibleLights.length ≤ 8 ∧
      litRenderer.m_visibleLights.length < 4294967296) ∧
    dispatches Queue.visibleLit
        (render insertionStdSort 8 true sampleLights litRenderer sampleEye
          (RendererProjection.other 0) none false).calls
      = [(some (Call.lightBind 4), Pass.lit 4), (some (Call.lightBind 5), Pass.lit 5)] ∧
    dispatches Queue.visibleUnlit
        (render insertionStdSort 8 true sampleLights litRenderer sampleEye
          (RendererProjection.other 0) none false).calls
      = [(some Call.endMultiPass, Pass.PASS_UNLIT)] ∧
    dispatches Queue.visibleLitTransparent
        (render insertionStdSort 8 true sampleLights litRenderer sampleEye
          (RendererProjection.other 0) none false).calls
      = [(some (Call.lightBind 4), Pass.lit 4), (some (Call.lightBind 5), Pass.lit 5)] :=
  ⟨by decide,
    render_lit_dispatches insertionStdSort 8 sampleLights litRenderer sampleEye
      (RendererProjection.other 0) none (by decide) (by decide) (by decide)⟩

/-- C11 fails as stated: an entry without a material instance that follows an entry
with an instance of the same material causes no material bind, although the two
entries differ in their (material, material-instance) pair (two runs, one bind); and
two equal entries whose instance belongs to another material than the one they name
cause two binds (one run, two binds). -/
theorem renderMeshes_material_binds_counterexample :
    (countRuns ([instanceContext 1, sampleContext 2 0].map materialKey) = 2 ∧
      (renderMeshes sampleMeshes sampleInstances [instanceContext 1, sampleContext 2 0]
          Pass.PASS_UNLIT).map materialBinds
        = some [(0, Pass.PASS_UNLIT, some 1)]) ∧
    (countRuns ([foreignInstanceContext 1, foreignInstanceContext 1].map materialKey) = 1 ∧
      (renderMeshes sampleMeshes sampleInstances
          [foreignInstanceContext 1, foreignInstanceContext 1] Pass.PASS_UNLIT).map materialBinds
        = some [(3, Pass.PASS_UNLIT, some 31), (0, Pass.PASS_UNLIT, none)]) := by
  refine ⟨⟨by decide, by decide⟩, by decide, by decide⟩

/-- The material transition of an entry with a material succeeds, and binds or
draws no mesh. -/
theorem renderMeshesMaterial_some (instanceMaterial : MaterialInstanceId → MaterialId)
    (pass : Pass) (instanced : Bool) (st : DispatchState) (context : RendererMeshContext)
    (hmat : context.material.isSome = true) :
    ∃ lm li mc, renderMeshesMaterial instanceMaterial pass instanced st context
        = some (lm, li, mc) ∧ meshBinds mc = [] ∧ meshRenders mc = [] := by
  obtain ⟨m, hm⟩ := Option.isSome_iff_exists.mp hmat
  obtain ⟨lastMaterial, lastInstance, lastMesh⟩ := st
  unfold renderMeshesMaterial
  cases lastMaterial <;> cases hi : context.materialInstance <;> simp only [hm] <;>
    (repeat' split) <;> exact ⟨_, _, _, rfl, rfl, rfl⟩

/-- The mesh binds of two runs of calls made one after the other. -/
theorem meshBinds_append (a b : List MeshCall) :
    meshBinds (a ++ b) = meshBinds a ++ meshBinds b :=
  List.filterMap_append _ _ _

/-- The draws of two runs of calls made one after the other. -/
theorem meshRenders_append (a b : List MeshCall) :
    meshRenders (a ++ b) = meshRenders a ++ meshRenders b :=
  List.filterMap_append _ _ _

/-- One loop iteration on a renderable entry with a mesh and a material succeeds,
leaves the mesh of the entry as `lastMesh`, binds that mesh when it differs from the
one bound before, and draws it once. -/
theorem renderMeshesEntry_renderable (meshStore : MeshId → RendererMesh)
    (instanceMaterial : MaterialInstanceId → MaterialId) (pass : Pass)
    (st : DispatchState) (context : RendererMeshContext) (m : MeshId)
    (hmesh : context.mesh = some m) (hmat : context.material.isSome = true)
    (hrender : (meshStore m).m_willRender = true) :
    ∃ lm li calls, renderMeshesEntry meshStore instanceMaterial pass st context
        = some (⟨lm, li, some m⟩, calls) ∧
      meshBinds calls = (if some m ≠ st.lastMesh then [m] else []) ∧
      meshRenders calls = [m] := by
  obtain ⟨lm, li, mc, hmc, hb, hr⟩ := renderMeshesMaterial_some instanceMaterial pass
    (meshStore m).m_instanceBuffer st context hmat
  refine ⟨lm, li,
    [MeshCall.bindMeshContext context] ++ mc ++
      bindMeshStateOf lm (meshStore m).m_instanceBuffer ++
      (if context.mesh ≠ st.lastMesh then unbindLastMesh st.lastMesh ++ [MeshCall.meshBind m]
       else []) ++
      [MeshCall.meshRender m context.material], ?_, ?_, ?_⟩
  · unfold renderMeshesEntry
    simp only [hmesh, hrender, Bool.not_true, Bool.false_eq_true, if_false, hmc]
  · simp only [meshBinds_append, hb]
    cases lm <;> cases hl : st.lastMesh <;> by_cases hne : some m = st.lastMesh <;>
      simp_all [meshBinds, unbindLastMesh, bindMeshStateOf]
  · simp only [meshRenders_append, hr]
    cases lm <;> cases hl : st.lastMesh <;> by_cases hne : some m = st.lastMesh <;>
      simp_all [meshRenders, unbindLastMesh, bindMeshStateOf]

/-- The run heads of a list read on from `a` start with `a`. -/
theorem destutter_head_tail {κ : Type} [DecidableEq κ] (a : κ) (l : List κ) :
    List.destutter' (fun a b => a ≠ b) a l
      = a :: (List.destutter' (fun a b => a ≠ b) a l).tail := by
  induction l generalizing a with
  | nil => rfl
  | cons h t iht =>
    by_cases hh : a ≠ h
    · simp [List.destutter', hh]
    · simp only [List.destutter', hh, if_false]
      exact iht a

/-- The meshes bound by the loop of `renderMeshes` on valid, renderable entries: the
heads of the maximal runs of equal meshes, the first run not counted when it is the
mesh already bound. -/
theorem renderMeshesLoop_meshBinds (meshStore : MeshId → RendererMesh)
    (instanceMaterial : MaterialInstanceId → MaterialId) (pass : Pass)
    (meshes : List RendererMeshContext)
    (hvalid : ∀ c ∈ meshes, c.isValid = true)
    (hrender : ∀ c ∈ meshes, ∀ m, c.mesh = some m → (meshStore m).m_willRender = true)
    (st : DispatchState) :
    ∃ st1 calls, renderMeshesLoop meshStore instanceMaterial pass meshes st = some (st1, calls) ∧
      meshBinds calls =
        (match st.lastMesh with
          | none => (meshes.filterMap (fun c => c.mesh)).destutter (fun a b => a ≠ b)
          | some m0 =>
            ((meshes.filterMap (fun c => c.mesh)).destutter' (fun a b => a ≠ b) m0).tail) ∧
      meshRenders calls = meshes.filterMap (fun c => c.mesh) := by
  induction meshes generalizing st with
  | nil =>
    refine ⟨st, [], rfl, ?_, rfl⟩
    cases st.lastMesh <;> rfl
  | cons c rest ih =>
    have hc := hvalid c (List.mem_cons_self _ _)
    obtain ⟨hm, hmat⟩ : c.mesh.isSome = true ∧ c.material.isSome = true := by
      simpa [RendererMeshContext.isValid] using hc
    obtain ⟨m, hmesh⟩ := Option.isSome_iff_exists.mp hm
    obtain ⟨lm, li, calls, hentry, hb, hr⟩ := renderMeshesEntry_renderable meshStore
      instanceMaterial pass st c m hmesh hmat (hrender c (List.mem_cons_self _ _) m hmesh)
    obtain ⟨st2, calls2, hloop, hb2, hr2⟩ := ih
      (fun c' h => hvalid c' (List.mem_cons_of_mem _ h))
      (fun c' h => hrender c' (List.mem_cons_of_mem _ h)) ⟨lm, li, some m⟩
    refine ⟨st2, calls ++ calls2, ?_, ?_, ?_⟩
    · simp only [renderMeshesLoop, hentry, hloop]
    · rw [meshBinds_append, hb, hb2]
      simp only [List.filterMap_cons, hmesh]
      have hd := fun l => destutter_head_tail m l
      cases hl : st.lastMesh with
      | none =>
        simp only [List.destutter, ne_eq, reduceCtorEq, not_false_eq_true, if_true]
        exact (hd _).symm
      | some m0 =>
        by_cases hne : m = m0
        · subst hne
          simp [List.destutter']
        · have hne' : m0 ≠ m := fun h => hne h.symm
          simp only [ne_eq, Option.some.injEq, hne, not_false_eq_true, if_true,
            List.destutter', hne', List.tail_cons]
          exact (hd _).symm
    · rw [meshRenders_append, hr, hr2]
      simp [List.filterMap_cons, hmesh]

/-- C12: for a list of valid entries whose meshes are all renderable (the length
fitting the `PxU32` that holds it), `renderMeshes` returns, and the meshes it binds
are, in order, the meshes of the maximal runs of consecutive entries that share a
mesh: one bind per run, for the mesh of that run. -/
theorem renderMeshes_mesh_binds (meshStore : MeshId → RendererMesh)
    (instanceMaterial : MaterialInstanceId → MaterialId)
    (meshes : List RendererMeshContext) (pass : Pass)
    (hfit : meshes.length < 4294967296)
    (hvalid : ∀ c ∈ meshes, c.isValid = true)
    (hrender : ∀ c ∈ meshes, ∀ m, c.mesh = some m → (meshStore m).m_willRender = true) :
    ∃ calls, renderMeshes meshStore instanceMaterial meshes pass = some calls ∧
      meshBinds calls = (meshes.filterMap (fun c => c.mesh)).destutter (fun a b => a ≠ b) ∧
      (meshBinds calls).length = countRuns (meshes.filterMap (fun c => c.mesh)) := by
  obtain ⟨st1, calls, hloop, hb, -⟩ := renderMeshesLoop_meshBinds meshStore instanceMaterial
    pass meshes hvalid hrender ⟨none, none, none⟩
  have hbinds : meshBinds (calls ++ unbindLastMesh st1.lastMesh ++
      unbindLastMaterial st1.lastMaterial)
      = (meshes.filterMap (fun c => c.mesh)).destutter (fun a b => a ≠ b) := by
    rw [meshBinds_append, meshBinds_append, hb]
    cases st1.lastMesh <;> cases st1.lastMaterial <;>
      simp [meshBinds, unbindLastMesh, unbindLastMaterial]
  refine ⟨_, ?_, hbinds, ?_⟩
  · unfold renderMeshes
    rw [Nat.mod_eq_of_lt hfit, List.take_length, hloop]
  · rw [hbinds, countRuns]

/-- Worked instance of C12: four entries, the meshes 1, 1, 2, 1. -/
theorem renderMeshes_mesh_binds_witness :
    ([sampleContext 1 0, sampleContext 1 3, sampleContext 2 3, sampleContext 1 3].length
        < 4294967296 ∧
      (∀ c ∈ [sampleContext 1 0, sampleContext 1 3, sampleContext 2 3, sampleContext 1 3],
        c.isValid = true)) ∧
    ∃ calls, renderMeshes sampleMeshes sampleInstances
        [sampleContext 1 0, sampleContext 1 3, sampleContext 2 3, sampleContext 1 3]
        Pass.PASS_DEPTH = some calls ∧
      meshBinds calls = [1, 2, 1] ∧ (meshBinds calls).length = 3 :=
  ⟨⟨by decide, by decide⟩,
    renderMeshes_mesh_binds sampleMeshes sampleInstances
      [sampleContext 1 0, sampleContext 1 3, sampleContext 2 3, sampleContext 1 3]
      Pass.PASS_DEPTH (by decide) (by decide) (fun _ _ _ _ => rfl)⟩

/-- The material binds of two runs of calls made one after the other. -/
theorem materialBinds_append (a b : List MeshCall) :
    materialBinds (a ++ b) = materialBinds a ++ materialBinds b :=
  List.filterMap_append _ _ _

/-- One loop iteration on a renderable entry whose instance, if any, belongs to its
material, entered with locals that hold a pair `p` whose instance is not dropped by
the entry: afterwards the locals hold the pair of the entry, and a material bind was
made exactly when that pair differs from `p`. -/
theorem renderMeshesEntry_material (meshStore : MeshId → RendererMesh)
    (instanceMaterial : MaterialInstanceId → MaterialId) (pass : Pass)
    (st : DispatchState) (context : RendererMeshContext) (m : MeshId) (mat : MaterialId)
    (hmesh : context.mesh = some m) (hmat : context.material = some mat)
    (hrender : (meshStore m).m_willRender = true)
    (hinst : ∀ i, context.materialInstance = some i → instanceMaterial i = mat)
    (hwf : ∀ i, st.lastMaterialInstance = some i → st.lastMaterial = some (instanceMaterial i))
    (hkeep : KeepsInstance (st.lastMaterial, st.lastMaterialInstance) (materialKey context)) :
    ∃ st1 calls, renderMeshesEntry meshStore instanceMaterial pass st context
        = some (st1, calls) ∧
      (st1.lastMaterial, st1.lastMaterialInstance) = materialKey context ∧
      materialBinds calls =
        (if materialKey context ≠ (st.lastMaterial, st.lastMaterialInstance)
          then [(mat, pass, context.materialInstance)] else []) := by
  obtain ⟨lastMaterial, lastInstance, lastMesh⟩ := st
  simp only at hwf hkeep
  have hub : ∀ last, materialBinds (unbindLastMaterial last) = [] := by
    intro last; cases last <;> rfl
  have hum : ∀ last, materialBinds (unbindLastMesh last) = [] := by
    intro last; cases last <;> rfl
  have hbs : ∀ last b, materialBinds (bindMeshStateOf last b) = [] := by
    intro last b; cases last <;> rfl
  have hmeshpart : materialBinds
      (if ¬ some m = lastMesh then unbindLastMesh lastMesh ++ [MeshCall.meshBind m]
        else []) = [] := by
    split
    · rw [materialBinds_append, hum]; rfl
    · rfl
  unfold renderMeshesEntry
  simp only [hmesh, hrender, Bool.not_true, Bool.false_eq_true, if_false]
  unfold renderMeshesMaterial
  simp only [hmat, materialKey]
  cases hi : context.materialInstance with
  | none =>
    simp only
    by_cases hne : some mat = lastMaterial
    · have hli : lastInstance = none := by
        cases hl : lastInstance with
        | none => rfl
        | some j =>
          exfalso
          apply hkeep
          simp [materialKey, hl, hi, hmat, hne]
      subst hne
      subst hli
      refine ⟨_, _, by simp only [ne_eq, not_true_eq_false, if_false]; rfl, rfl, ?_⟩
      simp only [ne_eq, not_true_eq_false, if_false, materialBinds_append, hbs, hmeshpart]
      rfl
    · refine ⟨_, _, by simp only [ne_eq, hne, not_false_eq_true, if_true]; rfl, rfl, ?_⟩
      have hk : (some mat, (none : Option MaterialInstanceId)) ≠ (lastMaterial, lastInstance) := by
        intro h
        exact hne (congrArg Prod.fst h)
      rw [if_pos hk]
      simp only [ne_eq, materialBinds_append, hbs, hub, hmeshpart]
      rfl
  | some i =>
    have hmi := hinst i hi
    simp only
    by_cases hne : some i = lastInstance
    · have hlm : lastMaterial = some mat := by
        rw [hwf i hne.symm, hmi]
      subst hlm
      subst hne
      refine ⟨_, _, by simp only [ne_eq, not_true_eq_false, if_false]; rfl, rfl, ?_⟩
      simp only [ne_eq, not_true_eq_false, if_false, materialBinds_append, hbs, hmeshpart]
      rfl
    · refine ⟨_, _, by simp only [ne_eq, hne, not_false_eq_true, if_true]; rfl, ?_, ?_⟩
      · simp [hmi]
      · have hk : (some mat, some i) ≠ (lastMaterial, lastInstance) := by
          intro h
          exact hne (congrArg Prod.snd h)
        rw [if_pos hk]
        simp only [ne_eq, materialBinds_append, hbs, hub, hmeshpart, hmi]
        rfl

/-- The material binds of the loop of `renderMeshes` on valid entries whose
instances belong to their materials, when no dispatched entry drops the instance of
the one before it: the heads of the maximal runs of equal (material, instance) pairs
of the dispatched entries, read on from the pair held by the locals. -/
theorem renderMeshesLoop_materialBinds (meshStore : MeshId → RendererMesh)
    (instanceMaterial : MaterialInstanceId → MaterialId) (pass : Pass)
    (meshes : List RendererMeshContext)
    (hvalid : ∀ c ∈ meshes, c.isValid = true)
    (hinst : ∀ c ∈ meshes, ∀ i, c.materialInstance = some i →
      c.material = some (instanceMaterial i))
    (st : DispatchState)
    (hwf : ∀ i, st.lastMaterialInstance = some i → st.lastMaterial = some (instanceMaterial i))
    (hkeep : List.Chain KeepsInstance (st.lastMaterial, st.lastMaterialInstance)
      ((dispatched meshStore meshes).map materialKey)) :
    ∃ st1 calls, renderMeshesLoop meshStore instanceMaterial pass meshes st = some (st1, calls) ∧
      (materialBinds calls).map bindKey =
        (List.destutter' (fun a b => a ≠ b) (st.lastMaterial, st.lastMaterialInstance)
          ((dispatched meshStore meshes).map materialKey)).tail ∧
      ∀ b ∈ materialBinds calls, b.2.1 = pass := by
  induction meshes generalizing st with
  | nil => exact ⟨st, [], rfl, rfl, fun b hb => absurd hb (List.not_mem_nil b)⟩
  | cons c rest ih =>
    have hc := hvalid c (List.mem_cons_self _ _)
    obtain ⟨hm, hmat⟩ : c.mesh.isSome = true ∧ c.material.isSome = true := by
      simpa [RendererMeshContext.isValid] using hc
    obtain ⟨m, hmesh⟩ := Option.isSome_iff_exists.mp hm
    obtain ⟨mat, hmat⟩ := Option.isSome_iff_exists.mp hmat
    have hvalid' : ∀ c' ∈ rest, c'.isValid = true :=
      fun c' h => hvalid c' (List.mem_cons_of_mem _ h)
    have hinst' : ∀ c' ∈ rest, ∀ i, c'.materialInstance = some i →
        c'.material = some (instanceMaterial i) :=
      fun c' h => hinst c' (List.mem_cons_of_mem _ h)
    by_cases hrender : (meshStore m).m_willRender = true
    · have hdisp : dispatched meshStore (c :: rest) = c :: dispatched meshStore rest := by
        simp [dispatched, hmesh, hrender]
      rw [hdisp, List.map_cons] at hkeep ⊢
      obtain ⟨hk1, hk2⟩ := List.chain_cons.mp hkeep
      have hci : ∀ i, c.materialInstance = some i → instanceMaterial i = mat := by
        intro i hi
        have := hinst c (List.mem_cons_self _ _) i hi
        rw [hmat] at this
        exact (Option.some.inj this).symm
      obtain ⟨st1, calls, hentry, hst1, hb⟩ := renderMeshesEntry_material meshStore
        instanceMaterial pass st c m mat hmesh hmat hrender hci hwf hk1
      have hwf1 : ∀ i, st1.lastMaterialInstance = some i →
          st1.lastMaterial = some (instanceMaterial i) := by
        intro i hi
        have h1 : st1.lastMaterial = c.material := congrArg Prod.fst hst1
        have h2 : st1.lastMaterialInstance = c.materialInstance := congrArg Prod.snd hst1
        rw [h1]
        exact hinst c (List.mem_cons_self _ _) i (h2 ▸ hi)
      obtain ⟨st2, calls2, hloop, hb2, hp2⟩ := ih hvalid' hinst' st1 hwf1 (hst1 ▸ hk2)
      refine ⟨st2, calls ++ calls2, ?_, ?_, ?_⟩
      · simp only [renderMeshesLoop, hentry, hloop]
      · rw [materialBinds_append, List.map_append, hb, hb2, hst1]
        by_cases hne : materialKey c = (st.lastMaterial, st.lastMaterialInstance)
        · rw [← hne]
          simp [List.destutter']
        · have hne' : (st.lastMaterial, st.lastMaterialInstance) ≠ materialKey c :=
            fun h => hne h.symm
          simp only [ne_eq, hne, not_false_eq_true, if_true, List.destutter', hne',
            List.tail_cons, List.map_cons, List.map_nil]
          rw [destutter_head_tail (materialKey c)]
          simp [bindKey, materialKey, hmat]
      · intro b hb'
        rw [materialBinds_append, List.mem_append] at hb'
        rcases hb' with hb' | hb'
        · rw [hb] at hb'
          split at hb'
          · rw [List.mem_singleton.mp hb']
          · exact absurd hb' (List.not_mem_nil b)
        · exact hp2 b hb'
    · have hdisp : dispatched meshStore (c :: rest) = dispatched meshStore rest := by
        simp [dispatched, hmesh, hrender]
      rw [hdisp] at hkeep ⊢
      have hentry : renderMeshesEntry meshStore instanceMaterial pass st c = some (st, []) := by
        unfold renderMeshesEntry
        simp [hmesh, hrender]
      obtain ⟨st2, calls2, hloop, hb2, hp2⟩ := ih hvalid' hinst' st hwf hkeep
      exact ⟨st2, calls2, by simp only [renderMeshesLoop, hentry, hloop, List.nil_append],
        hb2, hp2⟩

/-- C11, amended: for a list of valid entries (the length fitting the `PxU32` that
holds it) in which every material instance belongs to the material of its entry and
no dispatched entry without an instance directly follows a dispatched entry with an
instance of the same material, `renderMeshes` returns and issues exactly one material
bind per maximal run of consecutive dispatched entries sharing the same (material,
material-instance) pair: the binds are, in order, for the pairs of those runs, all
with the given pass, and their number is the number of the runs. -/
theorem renderMeshes_material_binds (meshStore : MeshId → RendererMesh)
    (instanceMaterial : MaterialInstanceId → MaterialId)
    (meshes : List RendererMeshContext) (pass : Pass)
    (hfit : meshes.length < 4294967296)
    (hvalid : ∀ c ∈ meshes, c.isValid = true)
    (hinst : ∀ c ∈ meshes, ∀ i, c.materialInstance = some i →
      c.material = some (instanceMaterial i))
    (hkeep : List.Chain' KeepsInstance ((dispatched meshStore meshes).map materialKey)) :
    ∃ calls, renderMeshes meshStore instanceMaterial meshes pass = some calls ∧
      (materialBinds calls).map bindKey =
        ((dispatched meshStore meshes).map materialKey).destutter (fun a b => a ≠ b) ∧
      (∀ b ∈ materialBinds calls, b.2.1 = pass) ∧
      (materialBinds calls).length
        = countRuns ((dispatched meshStore meshes).map materialKey) := by
  have hchain : List.Chain KeepsInstance (none, none)
      ((dispatched meshStore meshes).map materialKey) := by
    cases hd : (dispatched meshStore meshes).map materialKey with
    | nil => exact List.Chain.nil
    | cons k ks =>
      rw [hd] at hkeep
      exact List.Chain.cons (by simp [KeepsInstance]) hkeep
  obtain ⟨st1, calls, hloop, hb, hp⟩ := renderMeshesLoop_materialBinds meshStore
    instanceMaterial pass meshes hvalid hinst ⟨none, none, none⟩
    (fun i h => absurd h (by simp)) hchain
  have hfirst : ∀ k ∈ (dispatched meshStore meshes).map materialKey,
      k ≠ ((none, none) : Option MaterialId × Option MaterialInstanceId) := by
    intro k hk hkn
    obtain ⟨c, hc, rfl⟩ := List.mem_map.mp hk
    have hcm : c ∈ meshes := (List.mem_filter.mp hc).1
    have := hvalid c hcm
    simp only [RendererMeshContext.isValid, Bool.and_eq_true] at this
    have h1 : c.material = none := congrArg Prod.fst hkn
    rw [h1] at this
    exact absurd this.2 (by simp)
  have htail : (List.destutter' (fun a b => a ≠ b)
      ((none, none) : Option MaterialId × Option MaterialInstanceId)
      ((dispatched meshStore meshes).map materialKey)).tail
      = ((dispatched meshStore meshes).map materialKey).destutter (fun a b => a ≠ b) := by
    cases hd : (dispatched meshStore meshes).map materialKey with
    | nil => rfl
    | cons k ks =>
      have hk := hfirst k (by rw [hd]; exact List.mem_cons_self _ _)
      simp [List.destutter', List.destutter, hk.symm]
  have hall : materialBinds (calls ++ unbindLastMesh st1.lastMesh ++
      unbindLastMaterial st1.lastMaterial) = materialBinds calls := by
    rw [materialBinds_append, materialBinds_append]
    cases st1.lastMesh <;> cases st1.lastMaterial <;>
      simp [materialBinds, unbindLastMesh, unbindLastMaterial]
  refine ⟨calls ++ unbindLastMesh st1.lastMesh ++ unbindLastMaterial st1.lastMaterial,
    ?_, ?_, ?_, ?_⟩
  · unfold renderMeshes
    rw [Nat.mod_eq_of_lt hfit, List.take_length, hloop]
  · rw [hall, hb, htail]
  · rw [hall]; exact hp
  · rw [hall, countRuns, ← htail, ← hb, List.length_map]

/-- Worked instance of the amended C11: two runs, two binds. -/
theorem renderMeshes_material_binds_witness :
    (sampleEntries.length < 4294967296 ∧
      (∀ c ∈ sampleEntries, c.isValid = true) ∧
      (∀ c ∈ sampleEntries, ∀ i, c.materialInstance = some i →
        c.material = some (sampleInstances i)) ∧
      List.Chain' KeepsInstance ((dispatched sampleMeshes sampleEntries).map materialKey)) ∧
    ∃ calls, renderMeshes sampleMeshes sampleInstances sampleEntries Pass.PASS_UNLIT
        = some calls ∧
      (materialBinds calls).map bindKey = [(some 0, some 1), (some 3, none)] ∧
      (∀ b ∈ materialBinds calls, b.2.1 = Pass.PASS_UNLIT) ∧
      (materialBinds calls).length = 2 :=
  have hkeep : List.Chain' KeepsInstance
      ((dispatched sampleMeshes sampleEntries).map materialKey) := by
    simp [sampleEntries, dispatched, sampleMeshes, instanceContext, sampleContext, materialKey,
      KeepsInstance]
  ⟨⟨by decide, by decide, by decide, hkeep⟩,
    renderMeshes_material_binds sampleMeshes sampleInstances sampleEntries Pass.PASS_UNLIT
      (by decide) (by decide) (by decide) hkeep⟩

/-- The comparator `CompareMeshCameraDist`, on exact coordinates, is a strict weak
ordering. -/
theorem CompareMeshCameraDist_strictWeak (t : PxVec3) :
    StrictWeakOrdering (CompareMeshCameraDist t) := by
  refine ⟨fun a => ?_, fun a b c => ?_, fun a b c => ?_⟩
  · unfold CompareMeshCameraDist
    cases a.transform <;> simp
  · unfold CompareMeshCameraDist
    cases a.transform <;> cases b.transform <;> cases c.transform <;> simp
    intro h1 h2
    exact lt_trans h2 h1
  · unfold CompareMeshCameraDist
    cases a.transform <;> cases b.transform <;> cases c.transform <;> simp
    intro h1 h2 h3 h4
    constructor <;> omega

/-- C13: for every transparent queue and camera position, with exact coordinates,
`sortMeshes` leaves a permutation of the queue in which no entry with a transform
comes before an entry without one, and in which, of two entries with a transform, the
earlier one is at least as far from the camera position (squared distance) as the
later one. -/
theorem sortMeshes_back_to_front (S : StdSort) (r : Renderer) (eye : PxMat44) :
    List.Perm (sortMeshes S r eye).m_visibleLitTransparentMeshes
      r.m_visibleLitTransparentMeshes ∧
    List.Pairwise
      (fun a b =>
        (b.transform = none → a.transform = none) ∧
        ∀ ta tb, a.transform = some ta → b.transform = some tb →
          distSquared tb.getPosition eye.getPosition
            ≤ distSquared ta.getPosition eye.getPosition)
      (sortMeshes S r eye).m_visibleLitTransparentMeshes := by
  refine ⟨S.perm _ _, ?_⟩
  have hs := S.sorted (CompareMeshCameraDist eye.getPosition) r.m_visibleLitTransparentMeshes
    (CompareMeshCameraDist_strictWeak _)
  refine List.Pairwise.imp ?_ hs
  intro a b hba
  unfold CompareMeshCameraDist at hba
  constructor
  · intro hb
    cases ha : a.transform with
    | none => rfl
    | some ta => simp [hb, ha] at hba
  · intro ta tb ha hb
    simpa [ha, hb] using hba

/-- C14 fails as stated: with the `std::sort` of libstdc++, seventeen entries without
a transform, which the comparator treats as equivalent to one another, do not keep
their input order in the sorted transparent queue: the meshes come out in the order
9, 17, 16, 15, 14, 13, 12, 11, 10, 1, 8, 7, 6, 5, 4, 3, 2. Seventeen entries at one
and the same place, and so at equal squared distance from the camera, come out in
that order too. -/
theorem sortMeshes_not_stable :
    (∀ a ∈ seventeenContexts, ∀ b ∈ seventeenContexts,
      comparatorEquivalent (CompareMeshCameraDist sampleEye.getPosition) a b = true) ∧
    (sortMeshes gnuStdSort
        { emptyRenderer with m_visibleLitTransparentMeshes := seventeenContexts }
        sampleEye).m_visibleLitTransparentMeshes.map (fun c => c.mesh)
      = [some 9, some 17, some 16, some 15, some 14, some 13, some 12, some 11, some 10,
         some 1, some 8, some 7, some 6, some 5, some 4, some 3, some 2] ∧
    ¬ KeepsOrderOfEquivalent (CompareMeshCameraDist sampleEye.getPosition)
      seventeenContexts
      (sortMeshes gnuStdSort
        { emptyRenderer with m_visibleLitTransparentMeshes := seventeenContexts }
        sampleEye).m_visibleLitTransparentMeshes ∧
    (∀ a ∈ seventeenAtOnePlace, ∀ b ∈ seventeenAtOnePlace,
      comparatorEquivalent (CompareMeshCameraDist sampleEye.getPosition) a b = true) ∧
    (sortMeshes gnuStdSort
        { emptyRenderer with m_visibleLitTransparentMeshes := seventeenAtOnePlace }
        sampleEye).m_visibleLitTransparentMeshes.map (fun c => c.mesh)
      = [some 9, some 17, some 16, some 15, some 14, some 13, some 12, some 11, some 10,
         some 1, some 8, some 7, some 6, some 5, some 4, some 3, some 2] := by
  have hout : (sortMeshes gnuStdSort
        { emptyRenderer with m_visibleLitTransparentMeshes := seventeenContexts }
        sampleEye).m_visibleLitTransparentMeshes
      = [9, 17, 16, 15, 14, 13, 12, 11, 10, 1, 8, 7, 6, 5, 4, 3, 2].map
          (fun m => sampleContext m 1) := by
    decide
  have hplace : (sortMeshes gnuStdSort
        { emptyRenderer with m_visibleLitTransparentMeshes := seventeenAtOnePlace }
        sampleEye).m_visibleLitTransparentMeshes
      = [9, 17, 16, 15, 14, 13, 12, 11, 10, 1, 8, 7, 6, 5, 4, 3, 2].map
          (fun m => sampleTransparent m 5) := by
    decide
  refine ⟨by decide, ?_, ?_, by decide, ?_⟩
  · rw [hout]
    rfl
  · intro h
    have h1 := h (sampleContext 1 1)
    rw [hout] at h1
    revert h1
    decide
  · rw [hplace]
    rfl

/-- C14, amended: whatever the implementation of `std::sort`, `sortMeshes` leaves a
permutation of the transparent queue that the comparator finds sorted: no entry is
ordered before an entry that precedes it in the result, so that the classes of
equivalent entries come in the order of the comparator; and for every entry the
entries equivalent to it are kept, the same ones and as many times. Only the
relative order of equivalent entries is left to the implementation. -/
theorem sortMeshes_keeps_equivalent (S : StdSort) (r : Renderer) (eye : PxMat44) :
    List.Perm (sortMeshes S r eye).m_visibleLitTransparentMeshes
      r.m_visibleLitTransparentMeshes ∧
    List.Pairwise (fun a b => CompareMeshCameraDist eye.getPosition b a = false)
      (sortMeshes S r eye).m_visibleLitTransparentMeshes ∧
    ∀ a, List.Perm
      ((sortMeshes S r eye).m_visibleLitTransparentMeshes.filter
        (comparatorEquivalent (CompareMeshCameraDist eye.getPosition) a))
      (r.m_visibleLitTransparentMeshes.filter
        (comparatorEquivalent (CompareMeshCameraDist eye.getPosition) a)) :=
  ⟨S.perm _ _, S.sorted _ _ (CompareMeshCameraDist_strictWeak _),
    fun _ => (S.perm _ _).filter _⟩

/-- The result of `stricmp` is zero exactly when the strings agree after `tolower`. -/
theorem stricmpChars_eq_zero (a b : List Char) :
    stricmpChars a b = 0 ↔ a.map lowerCode = b.map lowerCode := by
  induction a generalizing b with
  | nil => cases b <;> simp [stricmpChars]
  | cons x xs ih =>
    cases b with
    | nil => simp [stricmpChars]
    | cons y ys =>
      by_cases hxy : lowerCode x = lowerCode y
      · simp [stricmpChars, hxy, ih]
      · by_cases hlt : lowerCode x < lowerCode y <;> simp [stricmpChars, hxy, hlt]

/-- The result of `stricmp` is negative exactly when the first string, after
`tolower`, comes before the second in dictionary order. -/
theorem stricmpChars_neg (a b : List Char) :
    stricmpChars a b < 0 ↔ a.map lowerCode < b.map lowerCode := by
  induction a generalizing b with
  | nil =>
    cases b with
    | nil => simp [stricmpChars]
    | cons y ys =>
      simp only [stricmpChars, List.map_nil, List.map_cons]
      exact ⟨fun _ => List.Lex.nil, fun _ => by decide⟩
  | cons x xs ih =>
    cases b with
    | nil =>
      simp only [stricmpChars, List.map_nil, List.map_cons]
      exact ⟨fun h => absurd h (by decide), fun h => absurd h (List.Lex.not_nil_right _ _)⟩
    | cons y ys =>
      simp only [stricmpChars, List.map_cons]
      by_cases hxy : lowerCode x = lowerCode y
      · rw [if_pos hxy, hxy, ih]
        exact (List.Lex.cons_iff).symm
      · rw [if_neg hxy]
        by_cases hlt : lowerCode x < lowerCode y
        · rw [if_pos hlt]
          exact ⟨fun _ => List.Lex.rel hlt, fun _ => by decide⟩
        · rw [if_neg hlt]
          have key : ∀ (p q : Nat) (l1 l2 : List Nat), p ≠ q → ¬ p < q →
              ¬ List.Lex (fun a b => a < b) (p :: l1) (q :: l2) := by
            intro p q l1 l2 hne hnlt h
            cases h with
            | cons h => exact hne rfl
            | rel h => exact hnlt h
          exact ⟨fun h => absurd h (by decide), fun h => absurd h (key _ _ _ _ hxy hlt)⟩

/-- The comparison of an optional path is zero exactly when the keys of the two paths
are equal. -/
theorem compareOptionalPath_eq_zero (p1 p2 : Option String) :
    compareOptionalPath 0 p1 p2 = 0 ↔ optionalKey p1 = optionalKey p2 := by
  cases p1 with
  | none =>
    cases p2 with
    | none => simp [compareOptionalPath, optionalKey]
    | some b =>
      simp only [compareOptionalPath, optionalKey, Option.map_none', Option.map_some']
      exact ⟨fun h => absurd h (by decide), fun h => absurd h (by simp)⟩
  | some a =>
    cases p2 with
    | none =>
      simp only [compareOptionalPath, optionalKey, Option.map_none', Option.map_some']
      exact ⟨fun h => absurd h (by decide), fun h => absurd h (by simp)⟩
    | some b =>
      simp only [compareOptionalPath, optionalKey, Option.map_some', stricmp,
        stricmpChars_eq_zero, lowerKey]
      exact ⟨fun h => by rw [h], fun h => Option.some.inj h⟩

/-- The comparison of an optional path is negative exactly when the key of the first
path is smaller: both present and the first before the second, or only the first
present. -/
theorem compareOptionalPath_neg (p1 p2 : Option String) :
    compareOptionalPath 0 p1 p2 < 0 ↔ optionalKey p1 < optionalKey p2 := by
  cases p1 with
  | none =>
    cases p2 with
    | none => simp [compareOptionalPath, optionalKey]
    | some b =>
      simp only [compareOptionalPath, optionalKey, Option.map_none', Option.map_some']
      exact ⟨fun h => absurd h (by decide), fun h => absurd h (WithTop.not_top_lt _)⟩
  | some a =>
    cases p2 with
    | none =>
      simp only [compareOptionalPath, optionalKey, Option.map_none', Option.map_some']
      exact ⟨fun _ => WithTop.coe_lt_top _, fun _ => by decide⟩
    | some b =>
      simp only [compareOptionalPath, optionalKey, Option.map_some', stricmp, stricmpChars_neg,
        lowerKey]
      exact (WithTop.coe_lt_coe).symm

/-- The last three comparisons of `CompareRenderMaterialDesc`, made through the
variable `result`, are the lexicographic comparison of the keys of the geometry, hull
and domain paths. -/
theorem optionalPaths_eq_lex (d1 d2 : RendererMaterialDesc) :
    decide
      ((if 0 = (if 0 = compareOptionalPath 0 d1.geometryShaderPath d2.geometryShaderPath then
            compareOptionalPath (compareOptionalPath 0 d1.geometryShaderPath
              d2.geometryShaderPath) d1.hullShaderPath d2.hullShaderPath
          else compareOptionalPath 0 d1.geometryShaderPath d2.geometryShaderPath) then
        compareOptionalPath
          (if 0 = compareOptionalPath 0 d1.geometryShaderPath d2.geometryShaderPath then
            compareOptionalPath (compareOptionalPath 0 d1.geometryShaderPath
              d2.geometryShaderPath) d1.hullShaderPath d2.hullShaderPath
          else compareOptionalPath 0 d1.geometryShaderPath d2.geometryShaderPath)
          d1.domainShaderPath d2.domainShaderPath
      else
        (if 0 = compareOptionalPath 0 d1.geometryShaderPath d2.geometryShaderPath then
            compareOptionalPath (compareOptionalPath 0 d1.geometryShaderPath
              d2.geometryShaderPath) d1.hullShaderPath d2.hullShaderPath
          else compareOptionalPath 0 d1.geometryShaderPath d2.geometryShaderPath)) < 0)
    = lexBy (fun d => optionalKey d.geometryShaderPath)
        (lexBy (fun d => optionalKey d.hullShaderPath)
          (lexBy (fun d => optionalKey d.domainShaderPath) (fun _ _ => false))) d1 d2 := by
  have key : ∀ (p1 p2 : Option String) (rest : Bool),
      (if optionalKey p1 ≠ optionalKey p2 then decide (optionalKey p1 < optionalKey p2)
        else rest)
      = if compareOptionalPath 0 p1 p2 = 0 then rest
        else decide (compareOptionalPath 0 p1 p2 < 0) := by
    intro p1 p2 rest
    by_cases h : compareOptionalPath 0 p1 p2 = 0
    · rw [if_pos h, if_neg (not_not.mpr ((compareOptionalPath_eq_zero _ _).mp h))]
    · rw [if_neg h, if_pos (fun h' => h ((compareOptionalPath_eq_zero _ _).mpr h'))]
      exact decide_eq_decide.mpr (compareOptionalPath_neg _ _).symm
  simp only [lexBy, key]
  by_cases hg : compareOptionalPath 0 d1.geometryShaderPath d2.geometryShaderPath = 0
  · simp only [hg, if_true]
    by_cases hh : compareOptionalPath 0 d1.hullShaderPath d2.hullShaderPath = 0
    · simp only [hh, if_true]
      by_cases hd : compareOptionalPath 0 d1.domainShaderPath d2.domainShaderPath = 0
      · simp [hd]
      · simp [hd]
    · have hh0 : ¬ 0 = compareOptionalPath 0 d1.hullShaderPath d2.hullShaderPath :=
        fun h => hh h.symm
      simp only [hh, hh0, if_false]
  · have hg0 : ¬ 0 = compareOptionalPath 0 d1.geometryShaderPath d2.geometryShaderPath :=
      fun h => hg h.symm
    simp only [hg, hg0, if_false]

/-- The comparator of the code is the lexicographic ordering of the specification. -/
theorem CompareRenderMaterialDesc_eq_lex (d1 d2 : RendererMaterialDesc) :
    CompareRenderMaterialDesc d1 d2 = lexicographicMaterialDesc d1 d2 := by
  have hv : ∀ a b : String, stricmp a b = 0 ↔ lowerKey a = lowerKey b :=
    fun a b => stricmpChars_eq_zero _ _
  have hvn : ∀ a b : String, decide (stricmp a b < 0) = decide (lowerKey a < lowerKey b) :=
    fun a b => decide_eq_decide.mpr (stricmpChars_neg _ _)
  have hopt := optionalPaths_eq_lex d1 d2
  unfold CompareRenderMaterialDesc CompareRenderMaterialDescOf lexicographicMaterialDesc
  simp only [lexBy] at hopt ⊢
  simp only [ne_eq, hv, hvn, hopt, decide_eq_true_eq]

/-- Comparing by a key puts `a` before `b` exactly when the key of `a` is smaller, or
the keys are equal and the next comparison puts `a` before `b`. -/
theorem lexBy_eq_true_iff {α κ : Type} [LinearOrder κ] (key : α → κ) (next : α → α → Bool)
    (a b : α) :
    lexBy key next a b = true ↔ key a < key b ∨ (key a = key b ∧ next a b = true) := by
  unfold lexBy
  by_cases h : key a = key b
  · simp [h]
  · simp [h]

/-- Comparing by a key and settling ties with a strict weak ordering gives a strict
weak ordering. -/
theorem lexBy_strictWeak {α κ : Type} [LinearOrder κ] (key : α → κ) (next : α → α → Bool)
    (h : IsStrictWeak next) : IsStrictWeak (lexBy key next) := by
  have hfalse : ∀ a b, lexBy key next a b = false ↔
      ¬ (key a < key b ∨ (key a = key b ∧ next a b = true)) := by
    intro a b
    rw [← lexBy_eq_true_iff, Bool.not_eq_true]
  refine ⟨fun a => ?_, fun a b c => ?_, fun a b c => ?_⟩
  · simp [lexBy, h.irrefl]
  · rw [lexBy_eq_true_iff, lexBy_eq_true_iff, lexBy_eq_true_iff]
    rintro (hab | ⟨hab, nab⟩) (hbc | ⟨hbc, nbc⟩)
    · exact Or.inl (lt_trans hab hbc)
    · exact Or.inl (hbc ▸ hab)
    · exact Or.inl (hab ▸ hbc)
    · exact Or.inr ⟨hab.trans hbc, h.trans a b c nab nbc⟩
  · rw [hfalse, hfalse, hfalse, hfalse, hfalse, hfalse]
    intro hab hba hbc hcb
    have h1 : key a = key b := by
      rcases lt_trichotomy (key a) (key b) with h1 | h1 | h1
      · exact absurd (Or.inl h1) hab
      · exact h1
      · exact absurd (Or.inl h1) hba
    have h2 : key b = key c := by
      rcases lt_trichotomy (key b) (key c) with h2 | h2 | h2
      · exact absurd (Or.inl h2) hbc
      · exact h2
      · exact absurd (Or.inl h2) hcb
    have nab : next a b = false := by
      cases hn : next a b
      · rfl
      · exact absurd (Or.inr ⟨h1, hn⟩) hab
    have nba : next b a = false := by
      cases hn : next b a
      · rfl
      · exact absurd (Or.inr ⟨h1.symm, hn⟩) hba
    have nbc : next b c = false := by
      cases hn : next b c
      · rfl
      · exact absurd (Or.inr ⟨h2, hn⟩) hbc
    have ncb : next c b = false := by
      cases hn : next c b
      · rfl
      · exact absurd (Or.inr ⟨h2.symm, hn⟩) hcb
    obtain ⟨nac, nca⟩ := h.incomp_trans a b c nab nba nbc ncb
    have h3 : key a = key c := h1.trans h2
    constructor
    · rintro (hlt | ⟨-, hn⟩)
      · exact absurd h3 hlt.ne
      · rw [nac] at hn
        exact absurd hn (by decide)
    · rintro (hlt | ⟨-, hn⟩)
      · exact absurd h3.symm hlt.ne
      · rw [nca] at hn
        exact absurd hn (by decide)

/-- The comparison that puts nothing before anything is a strict weak ordering. -/
theorem never_strictWeak {α : Type} : IsStrictWeak (fun (_ _ : α) => false) :=
  ⟨fun _ => rfl, fun _ _ _ h => absurd h (by decide), fun _ _ _ _ _ _ _ => ⟨rfl, rfl⟩⟩

/-- The lexicographic ordering of material descriptions is a strict weak ordering. -/
theorem lexicographicMaterialDesc_strictWeak : IsStrictWeak lexicographicMaterialDesc := by
  unfold lexicographicMaterialDesc
  repeat' apply lexBy_strictWeak
  exact never_strictWeak

/-- The comparator of the code is a strict weak ordering. -/
theorem CompareRenderMaterialDesc_isStrictWeak : IsStrictWeak CompareRenderMaterialDesc := by
  have e : CompareRenderMaterialDesc = lexicographicMaterialDesc :=
    funext fun a => funext fun b => CompareRenderMaterialDesc_eq_lex a b
  rw [e]
  exact lexicographicMaterialDesc_strictWeak

/-- On descriptions whose `alphaTestRef` is a number, the comparator of the code is
the comparator on exact numbers. -/
theorem CompareRenderMaterialDescF32_toF32 (a b : RendererMaterialDesc) :
    CompareRenderMaterialDescF32 a.toF32 b.toF32 = CompareRenderMaterialDesc a b := rfl

/-- A description of the code whose `alphaTestRef` is not a NaN is the description of
a number. -/
theorem RendererMaterialDescF32_eq_toF32 (d : RendererMaterialDescF32)
    (h : d.alphaTestRef ≠ PxF32.nan) : ∃ d0 : RendererMaterialDesc, d = d0.toF32 := by
  obtain ⟨type, alphaTestFunc, alphaTestRef, blending, srcBlendFunc, dstBlendFunc,
    vertexShaderPath, fragmentShaderPath, geometryShaderPath, hullShaderPath,
    domainShaderPath⟩ := d
  cases alphaTestRef with
  | nan => exact absurd rfl h
  | num value =>
    exact ⟨⟨type, alphaTestFunc, value, blending, srcBlendFunc, dstBlendFunc,
      vertexShaderPath, fragmentShaderPath, geometryShaderPath, hullShaderPath,
      domainShaderPath⟩, rfl⟩

/-- C15 fails as stated: `alphaTestRef` is a `PxF32`, and with a NaN the relation
"neither is less than the other" is not transitive. Of three descriptions that differ
in `alphaTestRef` only, with the values 1, NaN and 2, the comparator puts neither of
the first two before the other, neither of the last two before the other, and yet
the first before the third. -/
theorem CompareRenderMaterialDesc_nan_not_strictWeak :
    CompareRenderMaterialDescF32
        ((sampleDesc 2 "v" none).withAlphaTestRef (PxF32.num 1))
        ((sampleDesc 2 "v" none).withAlphaTestRef PxF32.nan) = false ∧
    CompareRenderMaterialDescF32
        ((sampleDesc 2 "v" none).withAlphaTestRef PxF32.nan)
        ((sampleDesc 2 "v" none).withAlphaTestRef (PxF32.num 1)) = false ∧
    CompareRenderMaterialDescF32
        ((sampleDesc 2 "v" none).withAlphaTestRef PxF32.nan)
        ((sampleDesc 2 "v" none).withAlphaTestRef (PxF32.num 2)) = false ∧
    CompareRenderMaterialDescF32
        ((sampleDesc 2 "v" none).withAlphaTestRef (PxF32.num 2))
        ((sampleDesc 2 "v" none).withAlphaTestRef PxF32.nan) = false ∧
    CompareRenderMaterialDescF32
        ((sampleDesc 2 "v" none).withAlphaTestRef (PxF32.num 1))
        ((sampleDesc 2 "v" none).withAlphaTestRef (PxF32.num 2)) = true := by
  refine ⟨by decide, by decide, by decide, by decide, by decide⟩

/-- C15, amended: on material descriptions (with a vertex and a fragment shader path)
whose `alphaTestRef` is not a NaN, `CompareRenderMaterialDesc` is a strict weak
ordering: no description is before itself, the comparison is transitive, and so is
the relation "neither is before the other". -/
theorem CompareRenderMaterialDesc_strictWeak (a b c : RendererMaterialDescF32)
    (ha : a.alphaTestRef ≠ PxF32.nan) (hb : b.alphaTestRef ≠ PxF32.nan)
    (hc : c.alphaTestRef ≠ PxF32.nan) :
    CompareRenderMaterialDescF32 a a = false ∧
    (CompareRenderMaterialDescF32 a b = true → CompareRenderMaterialDescF32 b c = true →
      CompareRenderMaterialDescF32 a c = true) ∧
    (CompareRenderMaterialDescF32 a b = false → CompareRenderMaterialDescF32 b a = false →
      CompareRenderMaterialDescF32 b c = false → CompareRenderMaterialDescF32 c b = false →
      CompareRenderMaterialDescF32 a c = false ∧ CompareRenderMaterialDescF32 c a = false) := by
  obtain ⟨a0, rfl⟩ := RendererMaterialDescF32_eq_toF32 a ha
  obtain ⟨b0, rfl⟩ := RendererMaterialDescF32_eq_toF32 b hb
  obtain ⟨c0, rfl⟩ := RendererMaterialDescF32_eq_toF32 c hc
  simp only [CompareRenderMaterialDescF32_toF32]
  have h := CompareRenderMaterialDesc_isStrictWeak
  exact ⟨h.irrefl a0, h.trans a0 b0 c0, h.incomp_trans a0 b0 c0⟩

/-- C15 on a worked instance: three descriptions with the alpha test references 1, 1
and 2. -/
theorem CompareRenderMaterialDesc_strictWeak_witness :
    (((sampleDesc 2 "v" none).withAlphaTestRef (PxF32.num 1)).alphaTestRef ≠ PxF32.nan ∧
      ((sampleDesc 2 "V" none).withAlphaTestRef (PxF32.num 1)).alphaTestRef ≠ PxF32.nan ∧
      ((sampleDesc 2 "v" none).withAlphaTestRef (PxF32.num 2)).alphaTestRef ≠ PxF32.nan) ∧
    CompareRenderMaterialDescF32
        ((sampleDesc 2 "v" none).withAlphaTestRef (PxF32.num 1))
        ((sampleDesc 2 "v" none).withAlphaTestRef (PxF32.num 1)) = false ∧
    (CompareRenderMaterialDescF32
        ((sampleDesc 2 "v" none).withAlphaTestRef (PxF32.num 1))
        ((sampleDesc 2 "V" none).withAlphaTestRef (PxF32.num 1)) = true →
      CompareRenderMaterialDescF32
        ((sampleDesc 2 "V" none).withAlphaTestRef (PxF32.num 1))
        ((sampleDesc 2 "v" none).withAlphaTestRef (PxF32.num 2)) = true →
      CompareRenderMaterialDescF32
        ((sampleDesc 2 "v" none).withAlphaTestRef (PxF32.num 1))
        ((sampleDesc 2 "v" none).withAlphaTestRef (PxF32.num 2)) = true) ∧
    (CompareRenderMaterialDescF32
        ((sampleDesc 2 "v" none).withAlphaTestRef (PxF32.num 1))
        ((sampleDesc 2 "V" none).withAlphaTestRef (PxF32.num 1)) = false →
      CompareRenderMaterialDescF32
        ((sampleDesc 2 "V" none).withAlphaTestRef (PxF32.num 1))
        ((sampleDesc 2 "v" none).withAlphaTestRef (PxF32.num 1)) = false →
      CompareRenderMaterialDescF32
        ((sampleDesc 2 "V" none).withAlphaTestRef (PxF32.num 1))
        ((sampleDesc 2 "v" none).withAlphaTestRef (PxF32.num 2)) = false →
      CompareRenderMaterialDescF32
        ((sampleDesc 2 "v" none).withAlphaTestRef (PxF32.num 2))
        ((sampleDesc 2 "V" none).withAlphaTestRef (PxF32.num 1)) = false →
      CompareRenderMaterialDescF32
        ((sampleDesc 2 "v" none).withAlphaTestRef (PxF32.num 1))
        ((sampleDesc 2 "v" none).withAlphaTestRef (PxF32.num 2)) = false ∧
      CompareRenderMaterialDescF32
        ((sampleDesc 2 "v" none).withAlphaTestRef (PxF32.num 2))
        ((sampleDesc 2 "v" none).withAlphaTestRef (PxF32.num 1)) = false) :=
  ⟨⟨by decide, by decide, by decide⟩,
   CompareRenderMaterialDesc_strictWeak
     ((sampleDesc 2 "v" none).withAlphaTestRef (PxF32.num 1))
     ((sampleDesc 2 "V" none).withAlphaTestRef (PxF32.num 1))
     ((sampleDesc 2 "v" none).withAlphaTestRef (PxF32.num 2))
     (by decide) (by decide) (by decide)⟩

/-- C16: `CompareRenderMaterialDesc` is the lexicographic comparison over type, alpha
test function, alpha test reference, blending flag, source and destination blend
function, vertex path, fragment path, geometry path, hull path and domain path, in
that order, with the paths compared case-insensitively. So two descriptions that
differ only in the letter case of their shader paths are equivalent, and of two
descriptions that agree so far, the one that has an optional path comes before the
one that lacks it. -/
theorem CompareRenderMaterialDesc_lexicographic :
    (∀ d1 d2, CompareRenderMaterialDesc d1 d2 = lexicographicMaterialDesc d1 d2) ∧
    (∀ d1 d2, AgreeUpToFragment d1 d2 →
      optionalKey d1.geometryShaderPath = optionalKey d2.geometryShaderPath →
      optionalKey d1.hullShaderPath = optionalKey d2.hullShaderPath →
      optionalKey d1.domainShaderPath = optionalKey d2.domainShaderPath →
      CompareRenderMaterialDesc d1 d2 = false ∧ CompareRenderMaterialDesc d2 d1 = false) ∧
    (∀ d1 d2, AgreeUpToFragment d1 d2 →
      d1.geometryShaderPath.isSome = true → d2.geometryShaderPath = none →
      CompareRenderMaterialDesc d1 d2 = true ∧ CompareRenderMaterialDesc d2 d1 = false) ∧
    (∀ d1 d2, AgreeUpToFragment d1 d2 →
      optionalKey d1.geometryShaderPath = optionalKey d2.geometryShaderPath →
      d1.hullShaderPath.isSome = true → d2.hullShaderPath = none →
      CompareRenderMaterialDesc d1 d2 = true ∧ CompareRenderMaterialDesc d2 d1 = false) ∧
    (∀ d1 d2, AgreeUpToFragment d1 d2 →
      optionalKey d1.geometryShaderPath = optionalKey d2.geometryShaderPath →
      optionalKey d1.hullShaderPath = optionalKey d2.hullShaderPath →
      d1.domainShaderPath.isSome = true → d2.domainShaderPath = none →
      CompareRenderMaterialDesc d1 d2 = true ∧ CompareRenderMaterialDesc d2 d1 = false) := by
  have hpresent : ∀ p1 p2 : Option String, p1.isSome = true → p2 = none →
      optionalKey p1 < optionalKey p2 := by
    intro p1 p2 h1 h2
    obtain ⟨s, rfl⟩ := Option.isSome_iff_exists.mp h1
    subst h2
    exact WithTop.coe_lt_top _
  refine ⟨CompareRenderMaterialDesc_eq_lex, ?_, ?_, ?_, ?_⟩
  · rintro d1 d2 ⟨h1, h2, h3, h4, h5, h6, h7, h8⟩ hg hh hd
    rw [CompareRenderMaterialDesc_eq_lex, CompareRenderMaterialDesc_eq_lex]
    simp [lexicographicMaterialDesc, lexBy, h1, h2, h3, h4, h5, h6, h7, h8, hg, hh, hd]
  · rintro d1 d2 ⟨h1, h2, h3, h4, h5, h6, h7, h8⟩ hg1 hg2
    have hlt := hpresent _ _ hg1 hg2
    rw [CompareRenderMaterialDesc_eq_lex, CompareRenderMaterialDesc_eq_lex]
    simp [lexicographicMaterialDesc, lexBy, h1, h2, h3, h4, h5, h6, h7, h8, hlt.ne, hlt.ne',
      hlt, hlt.le]
  · rintro d1 d2 ⟨h1, h2, h3, h4, h5, h6, h7, h8⟩ hg hh1 hh2
    have hlt := hpresent _ _ hh1 hh2
    rw [CompareRenderMaterialDesc_eq_lex, CompareRenderMaterialDesc_eq_lex]
    simp [lexicographicMaterialDesc, lexBy, h1, h2, h3, h4, h5, h6, h7, h8, hg, hlt.ne,
      hlt.ne', hlt, hlt.le]
  · rintro d1 d2 ⟨h1, h2, h3, h4, h5, h6, h7, h8⟩ hg hh hd1 hd2
    have hlt := hpresent _ _ hd1 hd2
    rw [CompareRenderMaterialDesc_eq_lex, CompareRenderMaterialDesc_eq_lex]
    simp [lexicographicMaterialDesc, lexBy, h1, h2, h3, h4, h5, h6, h7, h8, hg, hh, hlt.ne,
      hlt.ne', hlt, hlt.le]

/-- Worked instance of C16: two descriptions whose vertex paths differ in letter case
only are equivalent, and a description with a geometry path comes before the same
description without one. -/
theorem CompareRenderMaterialDesc_lexicographic_witness :
    (AgreeUpToFragment (sampleDesc 2 "Vertex.CG" none) (sampleDesc 2 "vertex.cg" none) ∧
      CompareRenderMaterialDesc (sampleDesc 2 "Vertex.CG" none) (sampleDesc 2 "vertex.cg" none)
        = false ∧
      CompareRenderMaterialDesc (sampleDesc 2 "vertex.cg" none) (sampleDesc 2 "Vertex.CG" none)
        = false) ∧
    (AgreeUpToFragment (sampleDesc 2 "v" (some "g")) (sampleDesc 2 "V" none) ∧
      CompareRenderMaterialDesc (sampleDesc 2 "v" (some "g")) (sampleDesc 2 "V" none) = true ∧
      CompareRenderMaterialDesc (sampleDesc 2 "V" none) (sampleDesc 2 "v" (some "g")) = false) :=
  have h1 : AgreeUpToFragment (sampleDesc 2 "Vertex.CG" none) (sampleDesc 2 "vertex.cg" none) :=
    ⟨rfl, rfl, rfl, rfl, rfl, rfl, by decide, rfl⟩
  have h2 : AgreeUpToFragment (sampleDesc 2 "v" (some "g")) (sampleDesc 2 "V" none) :=
    ⟨rfl, rfl, rfl, rfl, rfl, rfl, by decide, rfl⟩
  ⟨⟨h1, CompareRenderMaterialDesc_lexicographic.2.1 _ _ h1 rfl rfl rfl⟩,
    ⟨h2, CompareRenderMaterialDesc_lexicographic.2.2.1 _ _ h2 rfl rfl⟩⟩

/-- Equivalence of descriptions is symmetric. -/
theorem descEquivalent_symm (a b : RendererMaterialDesc) :
    descEquivalent a b = descEquivalent b a := by
  unfold descEquivalent
  exact Bool.and_comm _ _

/-- Every description is equivalent to itself. -/
theorem descEquivalent_refl (a : RendererMaterialDesc) : descEquivalent a a = true := by
  unfold descEquivalent
  rw [CompareRenderMaterialDesc_isStrictWeak.irrefl a]
  rfl

/-- Equivalence of descriptions is transitive. -/
theorem descEquivalent_trans (a b c : RendererMaterialDesc)
    (hab : descEquivalent a b = true) (hbc : descEquivalent b c = true) :
    descEquivalent a c = true := by
  unfold descEquivalent at *
  simp only [Bool.and_eq_true, Bool.not_eq_true'] at hab hbc ⊢
  exact CompareRenderMaterialDesc_isStrictWeak.incomp_trans a b c hab.1 hab.2 hbc.1 hbc.2

/-- In a map without equivalent keys, `find` on a description returns the entry whose
key is equivalent to it. -/
theorem mapFind_of_mem (entries : List (RendererMaterialDesc × Option MaterialId))
    (desc : RendererMaterialDesc) (e : RendererMaterialDesc × Option MaterialId)
    (huniq : UniqueKeys entries) (hmem : e ∈ entries)
    (heq : descEquivalent e.1 desc = true) :
    mapFind entries desc = some e := by
  induction entries with
  | nil => exact absurd hmem (List.not_mem_nil e)
  | cons e0 rest ih =>
    obtain ⟨h0, hrest⟩ := List.pairwise_cons.mp huniq
    unfold mapFind
    rcases List.mem_cons.mp hmem with h | h
    · subst h
      simp [List.find?_cons, heq]
    · by_cases h0d : descEquivalent e0.1 desc = true
      · exfalso
        have h1 : descEquivalent e0.1 e.1 = true :=
          descEquivalent_trans _ _ _ h0d (by rw [descEquivalent_symm]; exact heq)
        rw [h0 e h] at h1
        exact absurd h1 (by decide)
      · simp only [List.find?_cons, h0d]
        exact ih hrest h

/-- When no key is equivalent to the description, `find` returns `end()`. -/
theorem mapFind_eq_none (entries : List (RendererMaterialDesc × Option MaterialId))
    (desc : RendererMaterialDesc) :
    mapFind entries desc = none ↔ ∀ e ∈ entries, descEquivalent e.1 desc = false := by
  unfold mapFind
  simp [List.find?_eq_none]

/-- C17: `hasMaterialAlready` returns no material and changes neither the cache nor a
reference count when caching is disabled, and when no cached key is equivalent to the
description. When caching is enabled and an equivalent key maps to a material, it
returns that material, increments the reference count of that material by exactly
one, leaves every other count as it is, and leaves the cache as it is. -/
theorem hasMaterialAlready_lookup (cache : MaterialCache) (refCount : MaterialId → Nat)
    (desc : RendererMaterialDesc) (huniq : UniqueKeys cache.m_materialCache) :
    (cache.mEnableMaterialCaching = false →
      hasMaterialAlready cache refCount desc
        = some { result := none, cache := cache, refCount := refCount }) ∧
    ((∀ e ∈ cache.m_materialCache, descEquivalent e.1 desc = false) →
      hasMaterialAlready cache refCount desc
        = some { result := none, cache := cache, refCount := refCount }) ∧
    (∀ key m, cache.mEnableMaterialCaching = true → (key, some m) ∈ cache.m_materialCache →
      descEquivalent key desc = true →
      ∃ out, hasMaterialAlready cache refCount desc = some out ∧
        out.result = some m ∧ out.refCount m = refCount m + 1 ∧
        (∀ m', m' ≠ m → out.refCount m' = refCount m') ∧
        out.cache = cache) := by
  refine ⟨fun h => ?_, fun h => ?_, fun key m hen hmem heq => ?_⟩
  · simp [hasMaterialAlready, h]
  · have hnone := (mapFind_eq_none _ _).mpr h
    unfold hasMaterialAlready
    rw [hnone]
    simp
  · have hfind := mapFind_of_mem _ desc (key, some m) huniq hmem heq
    refine ⟨{ result := some m, cache := cache,
              refCount := Function.update refCount m (refCount m + 1) }, ?_, rfl, ?_, ?_, rfl⟩
    · unfold hasMaterialAlready
      rw [if_pos hen, hfind]
    · simp
    · intro m' hm'
      simp [Function.update_noteq hm']

/-- Worked instance of C17: a lookup with the vertex path in capitals finds the
material at address 5 and raises its count from 1 to 2. -/
theorem hasMaterialAlready_lookup_witness :
    UniqueKeys sampleCache.m_materialCache ∧
    ∃ out, hasMaterialAlready sampleCache (fun _ => 1) (sampleDesc 2 "V" none) = some out ∧
      out.result = some 5 ∧ out.refCount 5 = 2 ∧
      (∀ m', m' ≠ 5 → out.refCount m' = 1) ∧ out.cache = sampleCache :=
  have huniq : UniqueKeys sampleCache.m_materialCache := List.pairwise_singleton _ _
  ⟨huniq,
    (hasMaterialAlready_lookup sampleCache (fun _ => 1) (sampleDesc 2 "V" none) huniq).2.2
      (sampleDesc 2 "v" none) 5 rfl (List.mem_singleton.mpr rfl)
      (by decide)⟩

/-- C18, as the code has it: registering, for a description that already has a
resident material (the one at address 5), another material (the one at address 6)
takes the branch whose `PX_ASSERT(it->second == NULL)` expects an empty slot and
replaces the resident material, so the cache is not left unchanged. -/
theorem registerMaterial_not_idempotent :
    (registerMaterial (newCache true) (sampleDesc 2 "v" none) (some 5)).m_materialCache
      = [(sampleDesc 2 "v" none, some 5)] ∧
    (registerMaterial (registerMaterial (newCache true) (sampleDesc 2 "v" none) (some 5))
        (sampleDesc 2 "v" none) (some 6)).m_materialCache
      = [(sampleDesc 2 "v" none, some 6)] ∧
    (registerMaterial (registerMaterial (newCache true) (sampleDesc 2 "v" none) (some 5))
        (sampleDesc 2 "v" none) (some 6)).m_materialCache
      ≠ (registerMaterial (newCache true) (sampleDesc 2 "v" none) (some 5)).m_materialCache := by
  refine ⟨by decide, by decide, by decide⟩

/-- The insertion of an entry adds that entry and keeps the others. -/
theorem mapInsert_perm (entries : List (RendererMaterialDesc × Option MaterialId))
    (key : RendererMaterialDesc) (value : Option MaterialId) :
    List.Perm (mapInsert entries key value) ((key, value) :: entries) := by
  induction entries with
  | nil => exact List.Perm.refl _
  | cons e rest ih =>
    unfold mapInsert
    split
    · exact List.Perm.refl _
    · exact ((List.Perm.cons e ih).trans (List.Perm.swap _ _ _))

/-- The assignment through the iterator changes no key. -/
theorem mapAssign_keys (entries : List (RendererMaterialDesc × Option MaterialId))
    (desc : RendererMaterialDesc) (value : Option MaterialId) :
    (mapAssign entries desc value).map Prod.fst = entries.map Prod.fst := by
  induction entries with
  | nil => rfl
  | cons e rest ih =>
    unfold mapAssign
    split
    · rfl
    · simp [ih]

/-- Whether a map has no two equivalent keys depends on its keys only. -/
theorem uniqueKeys_iff_keys (entries : List (RendererMaterialDesc × Option MaterialId)) :
    UniqueKeys entries ↔
      (entries.map Prod.fst).Pairwise (fun a b => descEquivalent a b = false) := by
  unfold UniqueKeys
  rw [List.pairwise_map]

/-- The function `registerMaterial` keeps the map free of equivalent keys. -/
theorem registerMaterial_uniqueKeys (cache : MaterialCache) (desc : RendererMaterialDesc)
    (mat : Option MaterialId) (huniq : UniqueKeys cache.m_materialCache) :
    UniqueKeys (registerMaterial cache desc mat).m_materialCache := by
  unfold registerMaterial
  split
  · cases hfind : mapFind cache.m_materialCache desc with
    | none =>
      simp only
      have hnone := (mapFind_eq_none _ _).mp hfind
      have hsymm : ∀ {a b : RendererMaterialDesc × Option MaterialId},
          descEquivalent a.1 b.1 = false → descEquivalent b.1 a.1 = false := by
        intro a b h
        rw [descEquivalent_symm]
        exact h
      refine ((mapInsert_perm _ _ _).pairwise_iff hsymm).mpr ?_
      refine List.pairwise_cons.mpr ⟨fun e he => ?_, huniq⟩
      simp only
      rw [descEquivalent_symm]
      exact hnone e he
    | some e =>
      simp only
      rw [uniqueKeys_iff_keys, mapAssign_keys, ← uniqueKeys_iff_keys]
      exact huniq
  · exact huniq

/-- Every sequence of calls of `hasMaterialAlready` and `registerMaterial` keeps the
map free of equivalent keys. -/
theorem runCacheCalls_uniqueKeys (calls : List CacheCall)
    (st : MaterialCache × (MaterialId → Nat)) (huniq : UniqueKeys st.1.m_materialCache) :
    UniqueKeys (runCacheCalls calls st).1.m_materialCache := by
  induction calls generalizing st with
  | nil => exact huniq
  | cons c rest ih =>
    cases c with
    | hasMaterialAlready desc =>
      unfold runCacheCalls
      cases hout : hasMaterialAlready st.1 st.2 desc with
      | none => exact ih st huniq
      | some out =>
        simp only
        apply ih
        have hc : out.cache = st.1 := by
          unfold hasMaterialAlready at hout
          split at hout
          · split at hout
            · cases hout; rfl
            · exact absurd hout (by simp)
            · cases hout; rfl
          · cases hout; rfl
        simp only [hc]
        exact huniq
    | registerMaterial desc mat =>
      unfold runCacheCalls
      exact ih _ (registerMaterial_uniqueKeys _ _ _ huniq)

/-- After the assignment through the iterator, `find` returns the same key with the
value assigned. -/
theorem mapAssign_find (entries : List (RendererMaterialDesc × Option MaterialId))
    (desc : RendererMaterialDesc) (value : Option MaterialId)
    (e : RendererMaterialDesc × Option MaterialId) (hfind : mapFind entries desc = some e) :
    mapFind (mapAssign entries desc value) desc = some (e.1, value) := by
  induction entries with
  | nil => exact absurd hfind (by simp [mapFind])
  | cons e0 rest ih =>
    unfold mapFind at hfind ⊢
    unfold mapAssign
    by_cases h0 : descEquivalent e0.1 desc = true
    · simp only [List.find?_cons, h0, Option.some.injEq] at hfind
      subst hfind
      simp [List.find?_cons, h0]
    · simp only [List.find?_cons, h0] at hfind
      simp only [h0, Bool.false_eq_true, if_false, List.find?_cons]
      exact ih hfind

/-- The assignment through the iterator keeps every entry with another key. -/
theorem mapAssign_others (entries : List (RendererMaterialDesc × Option MaterialId))
    (desc : RendererMaterialDesc) (value : Option MaterialId)
    (e : RendererMaterialDesc × Option MaterialId) (hmem : e ∈ entries)
    (hne : descEquivalent e.1 desc = false) :
    e ∈ mapAssign entries desc value := by
  induction entries with
  | nil => exact absurd hmem (List.not_mem_nil e)
  | cons e0 rest ih =>
    unfold mapAssign
    by_cases h0 : descEquivalent e0.1 desc = true
    · rw [if_pos h0]
      rcases List.mem_cons.mp hmem with h | h
      · subst h
        rw [hne] at h0
        exact absurd h0 (by decide)
      · exact List.mem_cons_of_mem _ h
    · rw [if_neg h0]
      rcases List.mem_cons.mp hmem with h | h
      · subst h
        exact List.mem_cons_self _ _
      · exact List.mem_cons_of_mem _ (ih h)

/-- Assigning the value that the entry already holds changes nothing. -/
theorem mapAssign_same (entries : List (RendererMaterialDesc × Option MaterialId))
    (desc : RendererMaterialDesc) (value : Option MaterialId) (key : RendererMaterialDesc)
    (hfind : mapFind entries desc = some (key, value)) :
    mapAssign entries desc value = entries := by
  induction entries with
  | nil => rfl
  | cons e0 rest ih =>
    unfold mapFind at hfind
    unfold mapAssign
    by_cases h0 : descEquivalent e0.1 desc = true
    · simp only [List.find?_cons, h0, Option.some.injEq] at hfind
      rw [if_pos h0, hfind]
    · simp only [List.find?_cons, h0] at hfind
      rw [if_neg h0, ih hfind]

/-- What `registerMaterial` does hold to: after every sequence of `hasMaterialAlready`
and `registerMaterial` calls on a new renderer the cache holds at most one entry per
class of equivalent descriptions. Registering a description whose key is already in
the cache adds no key and keeps every other entry, and the key then maps to the
material just registered; the cache is unchanged when that is the material the key
already mapped to. With caching disabled `registerMaterial` never changes the cache. -/
theorem registerMaterial_keeps_one_entry_per_class :
    (∀ calls enable refCount,
      UniqueKeys (runCacheCalls calls (newCache enable, refCount)).1.m_materialCache) ∧
    (∀ cache desc mat e, cache.mEnableMaterialCaching = true →
      mapFind cache.m_materialCache desc = some e →
      (registerMaterial cache desc mat).m_materialCache.map Prod.fst
          = cache.m_materialCache.map Prod.fst ∧
        mapFind (registerMaterial cache desc mat).m_materialCache desc = some (e.1, mat) ∧
        (∀ e' ∈ cache.m_materialCache, descEquivalent e'.1 desc = false →
          e' ∈ (registerMaterial cache desc mat).m_materialCache)) ∧
    (∀ cache desc mat key, cache.mEnableMaterialCaching = true →
      mapFind cache.m_materialCache desc = some (key, mat) →
      registerMaterial cache desc mat = cache) ∧
    (∀ cache desc mat, cache.mEnableMaterialCaching = false →
      registerMaterial cache desc mat = cache) := by
  refine ⟨fun calls enable refCount => ?_, fun cache desc mat e hen hfind => ?_,
    fun cache desc mat key hen hfind => ?_, fun cache desc mat hdis => ?_⟩
  · exact runCacheCalls_uniqueKeys calls _ List.Pairwise.nil
  · have hreg : (registerMaterial cache desc mat).m_materialCache
        = mapAssign cache.m_materialCache desc mat := by
      unfold registerMaterial
      rw [if_pos hen, hfind]
    rw [hreg]
    exact ⟨mapAssign_keys _ _ _, mapAssign_find _ _ _ _ hfind,
      fun e' he' hne => mapAssign_others _ _ _ _ he' hne⟩
  · unfold registerMaterial
    rw [if_pos hen, hfind]
    simp only [mapAssign_same _ _ _ _ hfind]
  · unfold registerMaterial
    simp [hdis]

/-- A worked instance: registering the cached description again with the material at
address 6 keeps the one key and makes it map to 6; registering it with the material at
address 5, which it maps to, changes nothing. -/
theorem registerMaterial_keeps_one_entry_per_class_witness :
    (sampleCache.mEnableMaterialCaching = true ∧
      mapFind sampleCache.m_materialCache (sampleDesc 2 "V" none)
        = some (sampleDesc 2 "v" none, some 5)) ∧
    ((registerMaterial sampleCache (sampleDesc 2 "V" none) (some 6)).m_materialCache.map Prod.fst
        = sampleCache.m_materialCache.map Prod.fst ∧
      mapFind (registerMaterial sampleCache (sampleDesc 2 "V" none) (some 6)).m_materialCache
          (sampleDesc 2 "V" none)
        = some (sampleDesc 2 "v" none, some 6) ∧
      (∀ e' ∈ sampleCache.m_materialCache,
        descEquivalent e'.1 (sampleDesc 2 "V" none) = false →
        e' ∈ (registerMaterial sampleCache (sampleDesc 2 "V" none) (some 6)).m_materialCache)) ∧
    registerMaterial sampleCache (sampleDesc 2 "V" none) (some 5) = sampleCache :=
  have hfind : mapFind sampleCache.m_materialCache (sampleDesc 2 "V" none)
      = some (sampleDesc 2 "v" none, some 5) := by decide
  ⟨⟨rfl, hfind⟩,
    registerMaterial_keeps_one_entry_per_class.2.1 sampleCache (sampleDesc 2 "V" none) (some 6)
      (sampleDesc 2 "v" none, some 5) rfl hfind,
    registerMaterial_keeps_one_entry_per_class.2.2.1 sampleCache (sampleDesc 2 "V" none)
      (some 5) (sampleDesc 2 "v" none) rfl hfind⟩

/-- C19 fails as stated: three renderable opaque lit contexts that share one material
but carry three different instances of it cause three material binds and three
unbinds in the frame. -/
theorem render_three_instances_bind_thrice :
    (∀ c ∈ [{ sampleContext 1 0 with materialInstance := some 1 },
            { sampleContext 2 0 with materialInstance := some 2 },
            { sampleContext 3 0 with materialInstance := some 3 }],
      c.material = some 0 ∧ c.isValid = true) ∧
    (frameMeshCalls sampleMeshes sampleInstances
        (renderThree insertionStdSort 8 sampleMaterials sampleLights emptyRenderer
          { sampleContext 1 0 with materialInstance := some 1 }
          { sampleContext 2 0 with materialInstance := some 2 }
          { sampleContext 3 0 with materialInstance := some 3 }
          sampleEye (RendererProjection.other 0)).calls).map materialBinds
      = some [(0, Pass.PASS_UNLIT, some 1), (0, Pass.PASS_UNLIT, some 2),
              (0, Pass.PASS_UNLIT, some 3)] ∧
    (frameMeshCalls sampleMeshes sampleInstances
        (renderThree insertionStdSort 8 sampleMaterials sampleLights emptyRenderer
          { sampleContext 1 0 with materialInstance := some 1 }
          { sampleContext 2 0 with materialInstance := some 2 }
          { sampleContext 3 0 with materialInstance := some 3 }
          sampleEye (RendererProjection.other 0)).calls).map materialUnbinds
      = some [0, 0, 0] := by
  refine ⟨by decide, by decide, by decide⟩

/-- The material unbinds of two runs of calls made one after the other. -/
theorem materialUnbinds_append (a b : List MeshCall) :
    materialUnbinds (a ++ b) = materialUnbinds a ++ materialUnbinds b :=
  List.filterMap_append _ _ _

/-- The material transition unbinds the material bound before exactly when it binds
another: the unbinds followed by the material left bound are the material bound
before followed by the materials bound. -/
theorem renderMeshesMaterial_unbinds (instanceMaterial : MaterialInstanceId → MaterialId)
    (pass : Pass) (instanced : Bool) (st : DispatchState) (context : RendererMeshContext)
    (lm : Option MaterialId) (li : Option MaterialInstanceId) (mc : List MeshCall)
    (h : renderMeshesMaterial instanceMaterial pass instanced st context = some (lm, li, mc)) :
    materialUnbinds mc ++ lm.toList
      = st.lastMaterial.toList ++ (materialBinds mc).map (fun b => b.1) := by
  obtain ⟨lastMaterial, lastInstance, lastMesh⟩ := st
  unfold renderMeshesMaterial at h
  cases lastMaterial <;> cases hi : context.materialInstance <;>
    cases hm : context.material <;> simp only [hi, hm] at h <;>
    (repeat' split at h) <;>
    first
    | (cases h; rfl)
    | exact absurd h (by simp)

/-- One loop iteration unbinds the material bound before exactly when it binds
another. -/
theorem renderMeshesEntry_unbinds (meshStore : MeshId → RendererMesh)
    (instanceMaterial : MaterialInstanceId → MaterialId) (pass : Pass)
    (st st1 : DispatchState) (context : RendererMeshContext) (calls : List MeshCall)
    (h : renderMeshesEntry meshStore instanceMaterial pass st context = some (st1, calls)) :
    materialUnbinds calls ++ st1.lastMaterial.toList
      = st.lastMaterial.toList ++ (materialBinds calls).map (fun b => b.1) := by
  unfold renderMeshesEntry at h
  cases hmesh : context.mesh with
  | none => simp [hmesh] at h
  | some m =>
    simp only [hmesh] at h
    by_cases hr : (meshStore m).m_willRender = true
    · simp only [hr, Bool.not_true, Bool.false_eq_true, if_false] at h
      cases hmat : renderMeshesMaterial instanceMaterial pass (meshStore m).m_instanceBuffer
          st context with
      | none => simp [hmat] at h
      | some res =>
        obtain ⟨lm, li, mc⟩ := res
        simp only [hmat, Option.some.injEq, Prod.mk.injEq] at h
        obtain ⟨hst, hcalls⟩ := h
        have hu := renderMeshesMaterial_unbinds instanceMaterial pass _ st context lm li mc hmat
        have e1 : ∀ l : Option MeshId, materialUnbinds
            (if ¬ some m = l then unbindLastMesh l ++ [MeshCall.meshBind m] else []) = [] := by
          intro l
          cases l <;> split <;> rfl
        have e2 : ∀ l : Option MeshId, materialBinds
            (if ¬ some m = l then unbindLastMesh l ++ [MeshCall.meshBind m] else []) = [] := by
          intro l
          cases l <;> split <;> rfl
        have e3 : ∀ b, materialUnbinds (bindMeshStateOf lm b) = [] ∧
            materialBinds (bindMeshStateOf lm b) = [] := by
          intro b
          cases lm <;> exact ⟨rfl, rfl⟩
        rw [← hcalls, ← hst]
        simp only [ne_eq, materialUnbinds_append, materialBinds_append, e1, e2, (e3 _).1,
          (e3 _).2, List.append_nil]
        simpa [materialUnbinds, materialBinds] using hu
    · simp only [hr, Bool.not_false, if_true, Option.some.injEq, Prod.mk.injEq] at h
      obtain ⟨hst, hcalls⟩ := h
      rw [← hcalls, ← hst]
      simp [materialUnbinds, materialBinds]

/-- The loop of `renderMeshes` unbinds every material it replaces: the unbinds
followed by the material left bound are the material bound on entry followed by the
materials bound, in order. -/
theorem renderMeshesLoop_unbinds (meshStore : MeshId → RendererMesh)
    (instanceMaterial : MaterialInstanceId → MaterialId) (pass : Pass)
    (meshes : List RendererMeshContext) (st st1 : DispatchState) (calls : List MeshCall)
    (h : renderMeshesLoop meshStore instanceMaterial pass meshes st = some (st1, calls)) :
    materialUnbinds calls ++ st1.lastMaterial.toList
      = st.lastMaterial.toList ++ (materialBinds calls).map (fun b => b.1) := by
  induction meshes generalizing st calls with
  | nil =>
    simp only [renderMeshesLoop, Option.some.injEq, Prod.mk.injEq] at h
    obtain ⟨hst, hcalls⟩ := h
    rw [← hcalls, ← hst]
    simp [materialUnbinds, materialBinds]
  | cons c rest ih =>
    unfold renderMeshesLoop at h
    cases he : renderMeshesEntry meshStore instanceMaterial pass st c with
    | none => simp [he] at h
    | some res =>
      obtain ⟨st0, calls0⟩ := res
      simp only [he] at h
      cases hl : renderMeshesLoop meshStore instanceMaterial pass rest st0 with
      | none => simp [hl] at h
      | some res2 =>
        obtain ⟨st2, calls2⟩ := res2
        simp only [hl, Option.some.injEq, Prod.mk.injEq] at h
        obtain ⟨hst, hcalls⟩ := h
        subst hst
        have h1 := renderMeshesEntry_unbinds meshStore instanceMaterial pass st st0 c calls0 he
        have h2 := ih st0 calls2 hl
        rw [← hcalls, materialUnbinds_append, materialBinds_append, List.map_append,
          List.append_assoc, h2, ← List.append_assoc, h1, List.append_assoc]

/-- The run heads of a list whose elements all equal `p`, read on from `p`, are `p`
alone. -/
theorem destutter_all_equal {κ : Type} [DecidableEq κ] (p : κ) (l : List κ)
    (h : ∀ x ∈ l, x = p) : List.destutter' (fun a b => a ≠ b) p l = [p] := by
  induction l with
  | nil => rfl
  | cons x xs ih =>
    have hx : x = p := h x (List.mem_cons_self _ _)
    subst hx
    simp only [List.destutter', ne_eq, not_true_eq_false, if_false]
    exact ih (fun y hy => h y (List.mem_cons_of_mem _ hy))

/-- The calls of `renderMeshes` on a non-empty list of valid, renderable entries that
all name the material `mat` and carry the same material instance, or none: one
material bind, with the given pass; one material unbind; one draw per entry. -/
theorem renderMeshes_shared_material (meshStore : MeshId → RendererMesh)
    (instanceMaterial : MaterialInstanceId → MaterialId)
    (c0 : RendererMeshContext) (rest : List RendererMeshContext) (pass : Pass)
    (mat : MaterialId) (inst : Option MaterialInstanceId)
    (hfit : (c0 :: rest).length < 4294967296)
    (hvalid : ∀ c ∈ c0 :: rest, c.isValid = true)
    (hrender : ∀ c ∈ c0 :: rest, ∀ m, c.mesh = some m → (meshStore m).m_willRender = true)
    (hshare : ∀ c ∈ c0 :: rest, c.material = some mat ∧ c.materialInstance = inst)
    (hinst : ∀ i, inst = some i → instanceMaterial i = mat) :
    ∃ calls, renderMeshes meshStore instanceMaterial (c0 :: rest) pass = some calls ∧
      materialBinds calls = [(mat, pass, inst)] ∧ materialUnbinds calls = [mat] ∧
      meshRenders calls = (c0 :: rest).filterMap (fun c => c.mesh) := by
  have hdisp : dispatched meshStore (c0 :: rest) = c0 :: rest := by
    unfold dispatched
    refine List.filter_eq_self.mpr (fun c hc => ?_)
    have hv := hvalid c hc
    simp only [RendererMeshContext.isValid, Bool.and_eq_true] at hv
    obtain ⟨m, hm⟩ := Option.isSome_iff_exists.mp hv.1
    simp only [hm]
    exact hrender c hc m hm
  have hkeys : ∀ k ∈ (c0 :: rest).map materialKey, k = (some mat, inst) := by
    intro k hk
    obtain ⟨c, hc, rfl⟩ := List.mem_map.mp hk
    obtain ⟨h1, h2⟩ := hshare c hc
    simp [materialKey, h1, h2]
  have hinst' : ∀ c ∈ c0 :: rest, ∀ i, c.materialInstance = some i →
      c.material = some (instanceMaterial i) := by
    intro c hc i hi
    obtain ⟨h1, h2⟩ := hshare c hc
    rw [h1, hinst i (h2 ▸ hi)]
  have hchain : ∀ (l : List (Option MaterialId × Option MaterialInstanceId))
      (q : Option MaterialId × Option MaterialInstanceId),
      (∀ k ∈ l, k = (some mat, inst)) → (q = (none, none) ∨ q = (some mat, inst)) →
      List.Chain KeepsInstance q l := by
    intro l
    induction l with
    | nil => exact fun _ _ _ => List.Chain.nil
    | cons k ks ih =>
      intro q hall hq
      have hk : k = (some mat, inst) := hall k (List.mem_cons_self _ _)
      refine List.Chain.cons ?_ (ih k (fun x hx => hall x (List.mem_cons_of_mem _ hx))
        (Or.inr hk))
      subst hk
      rcases hq with hq | hq <;> subst hq <;> unfold KeepsInstance <;> cases inst <;> simp
  obtain ⟨st1, calls, hloop, hb, hp⟩ := renderMeshesLoop_materialBinds meshStore
    instanceMaterial pass (c0 :: rest) hvalid hinst' ⟨none, none, none⟩
    (fun i h => absurd h (by simp))
    (by rw [hdisp]; exact hchain _ _ hkeys (Or.inl rfl))
  obtain ⟨st1', calls', hloop', -, hr⟩ := renderMeshesLoop_meshBinds meshStore
    instanceMaterial pass (c0 :: rest) hvalid hrender ⟨none, none, none⟩
  rw [hloop] at hloop'
  obtain ⟨rfl, rfl⟩ : st1 = st1' ∧ calls = calls' := by
    simpa using hloop'
  have hu := renderMeshesLoop_unbinds meshStore instanceMaterial pass (c0 :: rest)
    ⟨none, none, none⟩ st1 calls hloop
  have hbinds : materialBinds calls = [(mat, pass, inst)] := by
    rw [hdisp] at hb
    have hk0 : materialKey c0 = (some mat, inst) := hkeys _ (List.mem_map_of_mem _
      (List.mem_cons_self _ _))
    have hne : ((none : Option MaterialId), (none : Option MaterialInstanceId))
        ≠ (some mat, inst) := by simp
    simp only [List.map_cons, List.destutter', hk0, ne_eq, hne, not_false_eq_true, if_true,
      List.tail_cons] at hb
    rw [destutter_all_equal (some mat, inst) _
      (fun x hx => hkeys x (List.mem_cons_of_mem _ hx))] at hb
    cases hmb : materialBinds calls with
    | nil => rw [hmb] at hb; simp at hb
    | cons b bs =>
      rw [hmb] at hb hp
      simp only [List.map_cons, List.cons.injEq, List.map_eq_nil_iff] at hb
      obtain ⟨hb1, hb2⟩ := hb
      subst hb2
      have hpass := hp b (List.mem_cons_self _ _)
      obtain ⟨b1, b2, b3⟩ := b
      simp only [bindKey, Prod.mk.injEq, Option.some.injEq] at hb1
      simp only at hpass
      rw [hb1.1, hb1.2, hpass]
  refine ⟨calls ++ unbindLastMesh st1.lastMesh ++ unbindLastMaterial st1.lastMaterial,
    ?_, ?_, ?_, ?_⟩
  · unfold renderMeshes
    rw [Nat.mod_eq_of_lt hfit, List.take_length, hloop]
  · rw [materialBinds_append, materialBinds_append, hbinds]
    cases st1.lastMesh <;> cases st1.lastMaterial <;>
      simp [materialBinds, unbindLastMesh, unbindLastMaterial]
  · have hfinal : materialUnbinds (unbindLastMesh st1.lastMesh ++
        unbindLastMaterial st1.lastMaterial) = st1.lastMaterial.toList := by
      cases st1.lastMesh <;> cases st1.lastMaterial <;> rfl
    rw [List.append_assoc, materialUnbinds_append, hfinal, hu, hbinds]
    rfl
  · rw [meshRenders_append, meshRenders_append, hr]
    cases st1.lastMesh <;> cases st1.lastMaterial <;>
      simp [meshRenders, unbindLastMesh, unbindLastMaterial]

/-- A valid context outside screen space whose material is lit and not blended goes to
the opaque lit queue. -/
theorem queueMeshForRender_opaqueLit (materials : MaterialId → RendererMaterial)
    (r : Renderer) (c : RendererMeshContext) (mat : MaterialId)
    (hvalid : c.isValid = true) (hscreen : c.screenSpace = false)
    (hmat : c.material = some mat)
    (hlit : (materials mat).m_type = MaterialType.TYPE_LIT)
    (hnoblend : (materials mat).m_blending = false) :
    queueMeshForRender materials r c
      = { r with m_visibleLitMeshes := r.m_visibleLitMeshes ++ [c] } := by
  unfold queueMeshForRender
  simp [hvalid, hscreen, hmat, hlit, hnoblend]

/-- Running `renderMeshes` on an empty list makes no call. -/
theorem renderMeshes_nil (meshStore : MeshId → RendererMesh)
    (instanceMaterial : MaterialInstanceId → MaterialId) (pass : Pass) :
    renderMeshes meshStore instanceMaterial [] pass = some [] := rfl

/-- C19, amended: if three renderable opaque lit mesh contexts that share one material
and one material instance (or carry none) are queued on a renderer with empty queues
and no lights, and `render` is called with `depthOnly` clear, then the `renderMeshes`
calls of the frame contain exactly one material bind, which uses `PASS_UNLIT`,
exactly one material unbind and three draw calls, and no light is bound. -/
theorem render_three_shared_material (S : StdSort) (threshold : Nat)
    (materials : MaterialId → RendererMaterial) (lights : LightId → RendererLight)
    (meshStore : MeshId → RendererMesh) (instanceMaterial : MaterialInstanceId → MaterialId)
    (r : Renderer) (c1 c2 c3 : RendererMeshContext) (eye : PxMat44)
    (proj : RendererProjection) (mat : MaterialId) (inst : Option MaterialInstanceId)
    (hempty : r.m_visibleLitMeshes = [] ∧ r.m_visibleUnlitMeshes = [] ∧
      r.m_screenSpaceMeshes = [] ∧ r.m_visibleLitTransparentMeshes = [] ∧
      r.m_visibleLights = [])
    (hlit : (materials mat).m_type = MaterialType.TYPE_LIT ∧ (materials mat).m_blending = false)
    (hctx : ∀ c ∈ [c1, c2, c3], c.isValid = true ∧ c.screenSpace = false ∧
      c.material = some mat ∧ c.materialInstance = inst ∧
      ∀ m, c.mesh = some m → (meshStore m).m_willRender = true)
    (hinst : ∀ i, inst = some i → instanceMaterial i = mat) :
    ∃ calls, frameMeshCalls meshStore instanceMaterial
        (renderThree S threshold materials lights r c1 c2 c3 eye proj).calls = some calls ∧
      materialBinds calls = [(mat, Pass.PASS_UNLIT, inst)] ∧
      materialUnbinds calls = [mat] ∧
      (meshRenders calls).length = 3 ∧
      ∀ c ∈ (renderThree S threshold materials lights r c1 c2 c3 eye proj).calls,
        c.isForwardLighting = false := by
  obtain ⟨hl, hu, hs, ht, hli⟩ := hempty
  have h1 := hctx c1 (by simp)
  have h2 := hctx c2 (by simp)
  have h3 := hctx c3 (by simp)
  have hq : queueMeshForRender materials
      (queueMeshForRender materials (queueMeshForRender materials r c1) c2) c3
      = { r with m_visibleLitMeshes := [c1, c2, c3] } := by
    rw [queueMeshForRender_opaqueLit materials r c1 mat h1.1 h1.2.1 h1.2.2.1 hlit.1 hlit.2,
      queueMeshForRender_opaqueLit materials _ c2 mat h2.1 h2.2.1 h2.2.2.1 hlit.1 hlit.2,
      queueMeshForRender_opaqueLit materials _ c3 mat h3.1 h3.2.1 h3.2.2.1 hlit.1 hlit.2]
    simp [hl]
  have hsort : S.sort (CompareMeshCameraDist eye.getPosition) [] = [] :=
    List.Perm.eq_nil (S.perm _ _)
  obtain ⟨calls, hcalls, hb, hub, hr⟩ := renderMeshes_shared_material meshStore
    instanceMaterial c1 [c2, c3] Pass.PASS_UNLIT mat inst (by simp)
    (fun c hc => (hctx c hc).1) (fun c hc => (hctx c hc).2.2.2.2)
    (fun c hc => ⟨(hctx c hc).2.2.1, (hctx c hc).2.2.2.1⟩) hinst
  have htrace : (renderThree S threshold materials lights r c1 c2 c3 eye proj).calls
      = [Call.scopedRenderEnter,
         Call.bindAmbientState ⟨0, 0, 0, 255⟩,
         Call.bindViewProj eye proj,
         Call.renderMeshes Queue.visibleLit [c1, c2, c3] Pass.PASS_UNLIT,
         Call.renderMeshes Queue.visibleUnlit [] Pass.PASS_UNLIT,
         Call.renderMeshes Queue.visibleLitTransparent [] Pass.PASS_UNLIT,
         Call.scopedRenderLeave] := by
    unfold renderThree
    rw [hq, render_unlit_trace S threshold lights _ eye proj none (by simpa using hli)]
    simp [bindTarget, unbindTarget, renderScreenSpace, hs, hu, ht, hsort]
  rw [htrace]
  refine ⟨calls ++ ([] ++ ([] ++ [])), ?_, ?_, ?_, ?_, ?_⟩
  · simp only [frameMeshCalls, hcalls, renderMeshes_nil]
  · simpa using hb
  · simpa using hub
  · simp only [List.append_nil, hr]
    obtain ⟨m1, hm1⟩ := Option.isSome_iff_exists.mp
      (by simpa [RendererMeshContext.isValid] using h1.1 : c1.mesh.isSome = true ∧ _).1
    obtain ⟨m2, hm2⟩ := Option.isSome_iff_exists.mp
      (by simpa [RendererMeshContext.isValid] using h2.1 : c2.mesh.isSome = true ∧ _).1
    obtain ⟨m3, hm3⟩ := Option.isSome_iff_exists.mp
      (by simpa [RendererMeshContext.isValid] using h3.1 : c3.mesh.isSome = true ∧ _).1
    simp [hm1, hm2, hm3]
  · intro c hc
    simp only [List.mem_cons, List.mem_singleton, List.not_mem_nil, or_false] at hc
    rcases hc with hc | hc | hc | hc | hc | hc | hc <;> rw [hc] <;> rfl

/-- Worked instance of the amended C19: three contexts with the material at address 0
and its instance at address 1. -/
theorem render_three_shared_material_witness :
    (∀ c ∈ [instanceContext 1, instanceContext 2, instanceContext 3],
      c.isValid = true ∧ c.screenSpace = false ∧ c.material = some 0 ∧
      c.materialInstance = some 1 ∧
      ∀ m, c.mesh = some m → (sampleMeshes m).m_willRender = true) ∧
    ∃ calls, frameMeshCalls sampleMeshes sampleInstances
        (renderThree insertionStdSort 8 sampleMaterials sampleLights emptyRenderer
          (instanceContext 1) (instanceContext 2) (instanceContext 3)
          sampleEye (RendererProjection.other 0)).calls = some calls ∧
      materialBinds calls = [(0, Pass.PASS_UNLIT, some 1)] ∧
      materialUnbinds calls = [0] ∧
      (meshRenders calls).length = 3 ∧
      ∀ c ∈ (renderThree insertionStdSort 8 sampleMaterials sampleLights emptyRenderer
          (instanceContext 1) (instanceContext 2) (instanceContext 3)
          sampleEye (RendererProjection.other 0)).calls,
        c.isForwardLighting = false :=
  have hctx : ∀ c ∈ [instanceContext 1, instanceContext 2, instanceContext 3],
      c.isValid = true ∧ c.screenSpace = false ∧ c.material = some 0 ∧
      c.materialInstance = some 1 ∧
      ∀ m, c.mesh = some m → (sampleMeshes m).m_willRender = true := by
    intro c hc
    simp only [List.mem_cons, List.mem_singleton, List.not_mem_nil, or_false] at hc
    rcases hc with hc | hc | hc <;> subst hc <;>
      exact ⟨rfl, rfl, rfl, rfl, fun _ _ => rfl⟩
  ⟨hctx,
    render_three_shared_material insertionStdSort 8 sampleMaterials sampleLights sampleMeshes
      sampleInstances emptyRenderer (instanceContext 1) (instanceContext 2)
      (instanceContext 3) sampleEye (RendererProjection.other 0) 0 (some 1)
      ⟨rfl, rfl, rfl, rfl, rfl⟩ ⟨rfl, rfl⟩ hctx (fun i h => by
        cases h
        rfl)⟩

/-- C20 fails as stated: with exactly one queued light on the forward lit branch,
`render` still rebinds ambient to black and calls `beginMultiPass`, `endMultiPass`
and, the transparent queue not being empty, `beginTransparentMultiPass` and
`endTransparentMultiPass`. -/
theorem render_one_light_enters_multipass :
    oneLightRenderer.m_visibleLights.length = 1 ∧
    Call.bindAmbientState ⟨0, 0, 0, 255⟩ ∈
      (render insertionStdSort 8 true sampleLights oneLightRenderer sampleEye
        (RendererProjection.other 0) none false).calls ∧
    Call.beginMultiPass ∈
      (render insertionStdSort 8 true sampleLights oneLightRenderer sampleEye
        (RendererProjection.other 0) none false).calls ∧
    Call.endMultiPass ∈
      (render insertionStdSort 8 true sampleLights oneLightRenderer sampleEye
        (RendererProjection.other 0) none false).calls ∧
    Call.beginTransparentMultiPass ∈
      (render insertionStdSort 8 true sampleLights oneLightRenderer sampleEye
        (RendererProjection.other 0) none false).calls ∧
    Call.endTransparentMultiPass ∈
      (render insertionStdSort 8 true sampleLights oneLightRenderer sampleEye
        (RendererProjection.other 0) none false).calls := by
  refine ⟨rfl, by decide, by decide, by decide, by decide, by decide⟩

/-- C20, amended: on the forward lit branch with exactly one queued light (render
section entered, threshold at least one), `render` binds no light but that one and
dispatches inside no multi-pass block, yet it enters and leaves the block: after the
dispatch of the opaque lit queue it rebinds ambient to black and calls
`beginMultiPass` immediately followed by `endMultiPass`, and when the transparent
queue is not empty it does the same with `beginTransparentMultiPass` and
`endTransparentMultiPass` after the dispatch of that queue. -/
theorem render_one_light_calls (S : StdSort) (threshold : Nat)
    (lights : LightId → RendererLight) (r : Renderer) (eye : PxMat44)
    (proj : RendererProjection) (target : Option TargetId) (light0 : LightId)
    (hone : r.m_visibleLights = [light0]) (hthreshold : 1 ≤ threshold) :
    (render S threshold true lights r eye proj target false).calls =
      bindTarget target ++ [Call.scopedRenderEnter] ++ renderScreenSpace r false ++
      [Call.bindAmbientState r.m_ambientColor,
       Call.bindFogState r.m_fogColor r.m_fogDistance,
       Call.bindViewProj eye proj,
       Call.lightBind light0,
       Call.renderMeshes Queue.visibleLit r.m_visibleLitMeshes (lights light0).getPass,
       Call.bindAmbientState ⟨0, 0, 0, 255⟩,
       Call.beginMultiPass,
       Call.endMultiPass,
       Call.renderMeshes Queue.visibleUnlit r.m_visibleUnlitMeshes Pass.PASS_UNLIT] ++
      (if r.m_visibleLitTransparentMeshes = [] then []
       else
        [Call.lightBind light0,
         Call.renderMeshes Queue.visibleLitTransparent
           (S.sort (CompareMeshCameraDist eye.getPosition) r.m_visibleLitTransparentMeshes)
           (lights light0).getPass,
         Call.bindAmbientState ⟨0, 0, 0, 255⟩,
         Call.beginTransparentMultiPass,
         Call.endTransparentMultiPass]) ++
      unbindTarget target ++ [Call.scopedRenderLeave] := by
  have hlen : r.m_visibleLights.length = 1 := by rw [hone]; rfl
  rw [render_lit_calls S threshold lights r eye proj target light0 [] hone
    (by rw [hlen]; decide) (by rw [hlen]; exact hthreshold)]
  have hl := sortMeshes_length S r eye
  by_cases hempty : r.m_visibleLitTransparentMeshes = []
  · have h0 : ¬ (sortMeshes S r eye).m_visibleLitTransparentMeshes.length > 0 := by
      rw [hl, hempty]; decide
    rw [if_neg h0, if_pos hempty]
    simp [black]
  · have h0 : (sortMeshes S r eye).m_visibleLitTransparentMeshes.length > 0 := by
      rw [hl]; exact List.length_pos.mpr hempty
    rw [if_pos h0, if_neg hempty]
    simp [black, sortMeshes]

/-- Worked instance of the amended C20: one light, one opaque lit and one transparent
context. -/
theorem render_one_light_calls_witness :
    (oneLightRenderer.m_visibleLights = [4] ∧ 1 ≤ 8) ∧
    (render insertionStdSort 8 true sampleLights oneLightRenderer sampleEye
        (RendererProjection.other 0) none false).calls =
      [Call.scopedRenderEnter,
       Call.bindAmbientState ⟨64, 64, 64, 255⟩,
       Call.bindFogState ⟨0, 0, 10, 255⟩ 20000,
       Call.bindViewProj sampleEye (RendererProjection.other 0),
       Call.lightBind 4,
       Call.renderMeshes Queue.visibleLit [sampleContext 1 0] (Pass.lit 4),
       Call.bindAmbientState ⟨0, 0, 0, 255⟩,
       Call.beginMultiPass,
       Call.endMultiPass,
       Call.renderMeshes Queue.visibleUnlit [] Pass.PASS_UNLIT,
       Call.lightBind 4,
       Call.renderMeshes Queue.visibleLitTransparent [sampleTransparent 3 1] (Pass.lit 4),
       Call.bindAmbientState ⟨0, 0, 0, 255⟩,
       Call.beginTransparentMultiPass,
       Call.endTransparentMultiPass,
       Call.scopedRenderLeave] :=
  ⟨⟨rfl, by decide⟩,
    render_one_light_calls insertionStdSort 8 sampleLights oneLightRenderer sampleEye
      (RendererProjection.other 0) none 4 rfl (by decide)⟩

/-! ## The screen space step within a frame -/

/-- Calls without a dispatch of the screen space queue contribute nothing to its
dispatches. -/
theorem dispatchesAfter_screenSpace_none (calls : List Call) (prev : Option Call)
    (h : ∀ c ∈ calls, c.isScreenSpaceDispatch = false) :
    dispatchesAfter Queue.screenSpace prev calls = [] := by
  induction calls generalizing prev with
  | nil => rfl
  | cons c calls ih =>
    have hc := h c (List.mem_cons_self _ _)
    have ht : ∀ c ∈ calls, c.isScreenSpaceDispatch = false :=
      fun c hc => h c (List.mem_cons_of_mem _ hc)
    cases c
    case renderMeshes q meshes pass =>
      cases q
      case screenSpace => simp [Call.isScreenSpaceDispatch] at hc
      all_goals
        simp only [dispatchesAfter]
        rw [if_neg (by decide)]
        exact ih _ ht
    all_goals exact ih _ ht

/-- Calls without a dispatch of the screen space queue do not show the queue in
their dispatch order. -/
theorem dispatchOrder_screenSpace_none (calls : List Call)
    (h : ∀ c ∈ calls, c.isScreenSpaceDispatch = false) :
    ∀ d ∈ dispatchOrder calls, d.1 ≠ Queue.screenSpace := by
  intro d hd
  unfold dispatchOrder at hd
  obtain ⟨c, hc, hcd⟩ := List.mem_filterMap.mp hd
  have hs := h c hc
  cases c
  case renderMeshes q meshes pass =>
    cases q
    case screenSpace => simp [Call.isScreenSpaceDispatch] at hs
    all_goals
      simp only [Option.some.injEq] at hcd
      subst hcd
      simp
  all_goals simp at hcd

/-- The dispatch order of two runs of calls made one after the other. -/
theorem dispatchOrder_append (a b : List Call) :
    dispatchOrder (a ++ b) = dispatchOrder a ++ dispatchOrder b := by
  simp [dispatchOrder, List.filterMap_append]

/-- The guarded block of `render` starts with the screen space step, and nothing
after that step dispatches the screen space queue. -/
theorem renderSectionBody_screenSpace_first (S : StdSort) (RENDERER_DEFERRED_THRESHOLD : Nat)
    (lights : LightId → RendererLight) (r : Renderer) (numLights : Nat)
    (eye : PxMat44) (proj : RendererProjection) (depthOnly : Bool) :
    ∃ tail,
      (renderSectionBody S RENDERER_DEFERRED_THRESHOLD lights r numLights eye proj depthOnly).2
        = renderScreenSpace r depthOnly ++ tail ∧
      ∀ c ∈ tail, c.isScreenSpaceDispatch = false := by
  unfold renderSectionBody
  simp only []
  split
  · exact ⟨_, rfl, by simp [Call.isScreenSpaceDispatch]⟩
  · split
    · refine ⟨_, List.append_assoc _ _ _, ?_⟩
      simp only [renderDeferredLights, forEachLight]
      intro c hc
      simp only [List.mem_append, List.mem_cons, List.mem_flatMap, List.mem_singleton,
        List.not_mem_nil, or_false] at hc
      rcases hc with (hc | hc | hc | hc | hc) | ⟨l, _, hc⟩ <;> subst hc <;> rfl
    · split
      · refine ⟨_, rfl, ?_⟩
        unfold renderLit
        split
        · simp
        · intro c hc
          simp only [forEachLight, List.mem_append, List.mem_cons, List.mem_flatMap,
            List.mem_singleton, List.not_mem_nil, or_false] at hc
          split at hc
          · simp only [List.mem_append, List.mem_cons, List.mem_flatMap,
              List.mem_singleton, List.not_mem_nil, or_false] at hc
            rcases hc with (((hc | hc | hc | hc | hc | hc | hc) | ⟨l, _, hc | hc⟩) | hc | hc) |
              (((hc | hc | hc | hc) | ⟨l, _, hc | hc⟩) | hc) <;> subst hc <;> rfl
          · simp only [List.not_mem_nil, or_false] at hc
            rcases hc with ((hc | hc | hc | hc | hc | hc | hc) | ⟨l, _, hc | hc⟩) | hc | hc <;>
              subst hc <;> rfl
      · exact ⟨_, rfl, by simp [Call.isScreenSpaceDispatch]⟩

/-- The dispatches of the screen space queue made by the screen space step. -/
theorem dispatchesAfter_screenSpace_step (r : Renderer) (depthOnly : Bool)
    (prev : Option Call) :
    dispatchesAfter Queue.screenSpace prev (renderScreenSpace r depthOnly)
      = (if depthOnly = false ∧ r.m_screenSpaceMeshes ≠ [] then
          [(some (Call.bindViewProj PxMat44.identity screenSpaceProjection), Pass.PASS_UNLIT)]
        else []) := by
  cases depthOnly <;> cases h : r.m_screenSpaceMeshes <;>
    simp [renderScreenSpace, h, dispatchesAfter]

/-- The dispatch order of the screen space step. -/
theorem dispatchOrder_screenSpace_step (r : Renderer) (depthOnly : Bool) :
    dispatchOrder (renderScreenSpace r depthOnly)
      = (if depthOnly = false ∧ r.m_screenSpaceMeshes ≠ [] then
          [(Queue.screenSpace, Pass.PASS_UNLIT)]
        else []) := by
  cases depthOnly <;> cases h : r.m_screenSpaceMeshes <;>
    simp [renderScreenSpace, h, dispatchOrder]

/-- C21, amended: in a frame whose render section is entered, the screen space queue is
dispatched exactly when it is not empty and `depthOnly` is clear; it is then
dispatched once, with `PASS_UNLIT`, the call just before the dispatch binds the
identity view with the fixed orthographic projection, and the dispatch comes before
every dispatch of another queue: the dispatch order of the frame is this one
dispatch followed by dispatches of other queues only. -/
theorem render_screenSpace_dispatch (S : StdSort) (RENDERER_DEFERRED_THRESHOLD : Nat)
    (lights : LightId → RendererLight) (r : Renderer)
    (eye : PxMat44) (proj : RendererProjection) (target : Option TargetId) (depthOnly : Bool) :
    dispatches Queue.screenSpace
        (render S RENDERER_DEFERRED_THRESHOLD true lights r eye proj target depthOnly).calls
      = (if depthOnly = false ∧ r.m_screenSpaceMeshes ≠ [] then
          [(some (Call.bindViewProj PxMat44.identity screenSpaceProjection), Pass.PASS_UNLIT)]
        else []) ∧
    ∃ rest,
      dispatchOrder
          (render S RENDERER_DEFERRED_THRESHOLD true lights r eye proj target depthOnly).calls
        = (if depthOnly = false ∧ r.m_screenSpaceMeshes ≠ [] then
            [(Queue.screenSpace, Pass.PASS_UNLIT)]
          else []) ++ rest ∧
      ∀ d ∈ rest, d.1 ≠ Queue.screenSpace := by
  obtain ⟨tail, hbody, htail⟩ := renderSectionBody_screenSpace_first S
    RENDERER_DEFERRED_THRESHOLD lights r (numLightsOf r) eye proj depthOnly
  have hcalls : (render S RENDERER_DEFERRED_THRESHOLD true lights r eye proj target
      depthOnly).calls
      = (bindTarget target ++ [Call.scopedRenderEnter]) ++ (renderScreenSpace r depthOnly
        ++ (tail ++ unbindTarget target ++ [Call.scopedRenderLeave])) := by
    simp only [render, if_true, hbody, List.append_assoc]
  have hfront : ∀ c ∈ bindTarget target ++ [Call.scopedRenderEnter],
      c.isScreenSpaceDispatch = false := by
    cases target <;> simp [bindTarget, Call.isScreenSpaceDispatch]
  have hback : ∀ c ∈ tail ++ unbindTarget target ++ [Call.scopedRenderLeave],
      c.isScreenSpaceDispatch = false := by
    intro c hc
    simp only [List.mem_append, List.mem_singleton] at hc
    rcases hc with (hc | hc) | hc
    · exact htail c hc
    · cases target
      · simp [unbindTarget] at hc
      · simp only [unbindTarget, List.mem_singleton] at hc
        subst hc; rfl
    · subst hc; rfl
  rw [hcalls]
  constructor
  · unfold dispatches
    rw [dispatchesAfter_append _ (bindTarget target ++ [Call.scopedRenderEnter]),
      dispatchesAfter_append _ (renderScreenSpace r depthOnly),
      dispatchesAfter_screenSpace_none _ _ hfront, dispatchesAfter_screenSpace_none _ _ hback,
      dispatchesAfter_screenSpace_step, List.nil_append, List.append_nil]
  · refine ⟨dispatchOrder (tail ++ unbindTarget target ++ [Call.scopedRenderLeave]), ?_,
      dispatchOrder_screenSpace_none _ hback⟩
    rw [dispatchOrder_append (bindTarget target ++ [Call.scopedRenderEnter]),
      dispatchOrder_append (renderScreenSpace r depthOnly), dispatchOrder_screenSpace_step]
    have hnone : dispatchOrder (bindTarget target ++ [Call.scopedRenderEnter]) = [] := by
      cases target <;> simp [bindTarget, dispatchOrder]
    rw [hnone, List.nil_append]

/-! ## Skipped entries of `renderMeshes` -/

/-- One loop iteration on an entry whose mesh reports `willRender() == false` makes
no call and keeps the locals. -/
theorem renderMeshesEntry_skipped (meshStore : MeshId → RendererMesh)
    (instanceMaterial : MaterialInstanceId → MaterialId) (pass : Pass)
    (st : DispatchState) (context : RendererMeshContext) (m : MeshId)
    (hmesh : context.mesh = some m) (hskip : (meshStore m).m_willRender = false) :
    renderMeshesEntry meshStore instanceMaterial pass st context = some (st, []) := by
  simp [renderMeshesEntry, hmesh, hskip]

/-- The loop of `renderMeshes` does on a list what it does on the list without its
skipped entries. -/
theorem renderMeshesLoop_withoutSkipped (meshStore : MeshId → RendererMesh)
    (instanceMaterial : MaterialInstanceId → MaterialId) (pass : Pass)
    (meshes : List RendererMeshContext) (st : DispatchState) :
    renderMeshesLoop meshStore instanceMaterial pass meshes st
      = renderMeshesLoop meshStore instanceMaterial pass (withoutSkipped meshStore meshes) st := by
  induction meshes generalizing st with
  | nil => rfl
  | cons c rest ih =>
    cases hmesh : c.mesh with
    | none =>
      have hk : withoutSkipped meshStore (c :: rest) = c :: withoutSkipped meshStore rest := by
        simp [withoutSkipped, hmesh]
      rw [hk]
      simp [renderMeshesLoop, renderMeshesEntry, hmesh]
    | some m =>
      cases hr : (meshStore m).m_willRender with
      | true =>
        have hk : withoutSkipped meshStore (c :: rest) = c :: withoutSkipped meshStore rest := by
          simp [withoutSkipped, hmesh, hr]
        rw [hk]
        unfold renderMeshesLoop
        cases renderMeshesEntry meshStore instanceMaterial pass st c with
        | none => rfl
        | some res =>
          obtain ⟨st1, calls⟩ := res
          simp only []
          rw [ih st1]
      | false =>
        have hk : withoutSkipped meshStore (c :: rest) = withoutSkipped meshStore rest := by
          simp [withoutSkipped, hmesh, hr]
        rw [hk, ← ih st]
        conv_lhs => unfold renderMeshesLoop
        rw [renderMeshesEntry_skipped meshStore instanceMaterial pass st c m hmesh hr]
        simp only []
        generalize renderMeshesLoop meshStore instanceMaterial pass rest st = x
        cases x with
        | none => rfl
        | some res => rfl

/-- One loop iteration on an entry with a mesh and a material succeeds. -/
theorem renderMeshesEntry_some (meshStore : MeshId → RendererMesh)
    (instanceMaterial : MaterialInstanceId → MaterialId) (pass : Pass)
    (st : DispatchState) (context : RendererMeshContext)
    (hvalid : context.isValid = true) :
    ∃ st1 calls, renderMeshesEntry meshStore instanceMaterial pass st context
      = some (st1, calls) := by
  simp only [RendererMeshContext.isValid, Bool.and_eq_true] at hvalid
  obtain ⟨m, hm⟩ := Option.isSome_iff_exists.mp hvalid.1
  cases hr : (meshStore m).m_willRender with
  | false => exact ⟨st, [], renderMeshesEntry_skipped _ _ _ _ _ m hm hr⟩
  | true =>
    obtain ⟨lm, li, calls, h, _⟩ := renderMeshesEntry_renderable meshStore instanceMaterial
      pass st context m hm hvalid.2 hr
    exact ⟨_, _, h⟩

/-- The loop of `renderMeshes` over entries that each have a mesh and a material
succeeds. -/
theorem renderMeshesLoop_some (meshStore : MeshId → RendererMesh)
    (instanceMaterial : MaterialInstanceId → MaterialId) (pass : Pass)
    (meshes : List RendererMeshContext) (st : DispatchState)
    (hvalid : ∀ c ∈ meshes, c.isValid = true) :
    ∃ st1 calls, renderMeshesLoop meshStore instanceMaterial pass meshes st
      = some (st1, calls) := by
  induction meshes generalizing st with
  | nil => exact ⟨st, [], rfl⟩
  | cons c rest ih =>
    obtain ⟨st0, calls0, h0⟩ := renderMeshesEntry_some meshStore instanceMaterial pass st c
      (hvalid c (List.mem_cons_self _ _))
    obtain ⟨st1, calls1, h1⟩ := ih st0 (fun c hc => hvalid c (List.mem_cons_of_mem _ hc))
    exact ⟨st1, calls0 ++ calls1, by simp [renderMeshesLoop, h0, h1]⟩

/-- The function `renderMeshes` succeeds on entries that each have a mesh and a
material. -/
theorem renderMeshes_some (meshStore : MeshId → RendererMesh)
    (instanceMaterial : MaterialInstanceId → MaterialId) (pass : Pass)
    (meshes : List RendererMeshContext)
    (hvalid : ∀ c ∈ meshes, c.isValid = true) :
    ∃ st calls, renderMeshesLoop meshStore instanceMaterial pass
        (meshes.take (meshes.length % 4294967296)) ⟨none, none, none⟩ = some (st, calls) ∧
      renderMeshes meshStore instanceMaterial meshes pass
        = some (calls ++ unbindLastMesh st.lastMesh ++ unbindLastMaterial st.lastMaterial) := by
  obtain ⟨st, calls, h⟩ := renderMeshesLoop_some meshStore instanceMaterial pass
    (meshes.take (meshes.length % 4294967296)) ⟨none, none, none⟩
    (fun c hc => hvalid c (List.mem_of_mem_take hc))
  exact ⟨st, calls, h, by simp [renderMeshes, h]⟩

/-- C22: for every list of draw entries short enough for its length to fit the
32-bit counter, and every pass, `renderMeshes` issues the calls that it issues on the
list without the entries whose mesh reports `willRender() == false` (and fails
where it fails on that list); it returns calls when every entry has a mesh and a
material; and an iteration on a skipped entry makes no call and keeps the
remembered last material, last material instance and last mesh. -/
theorem renderMeshes_skips_filtered (meshStore : MeshId → RendererMesh)
    (instanceMaterial : MaterialInstanceId → MaterialId)
    (meshes : List RendererMeshContext) (pass : Pass)
    (hfit : meshes.length < 4294967296) :
    renderMeshes meshStore instanceMaterial meshes pass
      = renderMeshes meshStore instanceMaterial (withoutSkipped meshStore meshes) pass ∧
    ((∀ c ∈ meshes, c.isValid = true) →
      ∃ calls, renderMeshes meshStore instanceMaterial meshes pass = some calls) ∧
    ∀ (st : DispatchState) (c : RendererMeshContext) (m : MeshId),
      c.mesh = some m → (meshStore m).m_willRender = false →
      renderMeshesEntry meshStore instanceMaterial pass st c = some (st, []) := by
  refine ⟨?_, ?_, fun st c m hm hr => renderMeshesEntry_skipped _ _ _ st c m hm hr⟩
  · have hle : (withoutSkipped meshStore meshes).length ≤ meshes.length :=
      List.length_filter_le _ _
    unfold renderMeshes
    rw [Nat.mod_eq_of_lt hfit, Nat.mod_eq_of_lt (lt_of_le_of_lt hle hfit), List.take_length,
      List.take_length, renderMeshesLoop_withoutSkipped]
  · intro hvalid
    obtain ⟨st, calls, _, h⟩ := renderMeshes_some meshStore instanceMaterial pass meshes hvalid
    exact ⟨_, h⟩

/-- C22 on a worked instance: three entries, the middle one with a mesh that is not
rendered. -/
theorem renderMeshes_skips_filtered_witness :
    [sampleContext 1 0, sampleContext 9 3, sampleContext 2 0].length < 4294967296 ∧
    renderMeshes (fun m => ⟨decide (m ≠ 9), false⟩) sampleInstances
        [sampleContext 1 0, sampleContext 9 3, sampleContext 2 0] Pass.PASS_UNLIT
      = renderMeshes (fun m => ⟨decide (m ≠ 9), false⟩) sampleInstances
          (withoutSkipped (fun m => ⟨decide (m ≠ 9), false⟩)
            [sampleContext 1 0, sampleContext 9 3, sampleContext 2 0]) Pass.PASS_UNLIT ∧
    withoutSkipped (fun m => ⟨decide (m ≠ 9), false⟩)
        [sampleContext 1 0, sampleContext 9 3, sampleContext 2 0]
      = [sampleContext 1 0, sampleContext 2 0] :=
  ⟨by decide,
   (renderMeshes_skips_filtered (fun m => ⟨decide (m ≠ 9), false⟩) sampleInstances
      [sampleContext 1 0, sampleContext 9 3, sampleContext 2 0] Pass.PASS_UNLIT
      (by decide)).1,
   by decide⟩

/-! ## Balance of the binds and unbinds of `renderMeshes` -/

/-- The material bound after two runs of calls made one after the other. -/
theorem materialBoundAfter_append (a b : List MeshCall) (bound : Option MaterialId) :
    materialBoundAfter bound (a ++ b)
      = (materialBoundAfter bound a).bind (fun bound1 => materialBoundAfter bound1 b) := by
  induction a generalizing bound with
  | nil => rfl
  | cons c a ih =>
    rw [List.cons_append]
    cases c <;> simp only [materialBoundAfter] <;> first
      | exact ih _
      | (split
         · exact ih _
         · rfl)

/-- The mesh bound after two runs of calls made one after the other. -/
theorem meshBoundAfter_append (a b : List MeshCall) (bound : Option MeshId) :
    meshBoundAfter bound (a ++ b)
      = (meshBoundAfter bound a).bind (fun bound1 => meshBoundAfter bound1 b) := by
  induction a generalizing bound with
  | nil => rfl
  | cons c a ih =>
    rw [List.cons_append]
    cases c <;> simp only [meshBoundAfter] <;> first
      | exact ih _
      | (split
         · exact ih _
         · rfl)

/-- The material transition of an iteration binds and unbinds materials in order,
leaves the material it returns bound, and touches no mesh. -/
theorem renderMeshesMaterial_bound (instanceMaterial : MaterialInstanceId → MaterialId)
    (pass : Pass) (instanced : Bool) (st : DispatchState) (context : RendererMeshContext)
    (lm : Option MaterialId) (li : Option MaterialInstanceId) (mc : List MeshCall)
    (h : renderMeshesMaterial instanceMaterial pass instanced st context = some (lm, li, mc)) :
    materialBoundAfter st.lastMaterial mc = some lm ∧
    ∀ bound, meshBoundAfter bound mc = some bound := by
  obtain ⟨lastMaterial, lastInstance, lastMesh⟩ := st
  unfold renderMeshesMaterial at h
  cases lastMaterial <;> cases hi : context.materialInstance <;>
    cases hm : context.material <;> simp only [hi, hm] at h <;>
    (repeat' split at h) <;>
    first
    | (cases h; exact ⟨by simp [materialBoundAfter, unbindLastMaterial], fun _ => rfl⟩)
    | exact absurd h (by simp)

/-- One loop iteration binds and unbinds materials and meshes in order, and leaves
bound the material and the mesh that the locals name. -/
theorem renderMeshesEntry_bound (meshStore : MeshId → RendererMesh)
    (instanceMaterial : MaterialInstanceId → MaterialId) (pass : Pass)
    (st st1 : DispatchState) (context : RendererMeshContext) (calls : List MeshCall)
    (h : renderMeshesEntry meshStore instanceMaterial pass st context = some (st1, calls)) :
    materialBoundAfter st.lastMaterial calls = some st1.lastMaterial ∧
    meshBoundAfter st.lastMesh calls = some st1.lastMesh := by
  unfold renderMeshesEntry at h
  cases hmesh : context.mesh with
  | none => simp [hmesh] at h
  | some m =>
    simp only [hmesh] at h
    by_cases hr : (meshStore m).m_willRender = true
    · simp only [hr, Bool.not_true, Bool.false_eq_true, if_false] at h
      cases hmat : renderMeshesMaterial instanceMaterial pass (meshStore m).m_instanceBuffer
          st context with
      | none => simp [hmat] at h
      | some res =>
        obtain ⟨lm, li, mc⟩ := res
        simp only [hmat, Option.some.injEq, Prod.mk.injEq] at h
        obtain ⟨hst, hcalls⟩ := h
        obtain ⟨hb1, hb2⟩ := renderMeshesMaterial_bound instanceMaterial pass _ st context
          lm li mc hmat
        have e1 : ∀ (l : Option MeshId) (b : Option MaterialId), materialBoundAfter b
            (if ¬ some m = l then unbindLastMesh l ++ [MeshCall.meshBind m] else []) = some b := by
          intro l b
          cases l <;> split <;> rfl
        have e2 : ∀ l : Option MeshId, meshBoundAfter l
            (if ¬ some m = l then unbindLastMesh l ++ [MeshCall.meshBind m] else [])
              = some (some m) := by
          intro l
          cases l with
          | none => simp [unbindLastMesh, meshBoundAfter]
          | some x =>
            by_cases hx : m = x
            · subst hx; simp [meshBoundAfter]
            · simp [hx, unbindLastMesh, meshBoundAfter]
        have e3 : ∀ (b : Bool) (x : Option MaterialId) (y : Option MeshId),
            materialBoundAfter x (bindMeshStateOf lm b) = some x ∧
            meshBoundAfter y (bindMeshStateOf lm b) = some y := by
          intro b x y
          cases lm <;> exact ⟨rfl, rfl⟩
        have e4 : ∀ (x : Option MaterialId) (y : Option MeshId),
            materialBoundAfter x [MeshCall.bindMeshContext context] = some x ∧
            meshBoundAfter y [MeshCall.bindMeshContext context] = some y ∧
            materialBoundAfter x [MeshCall.meshRender m context.material] = some x ∧
            meshBoundAfter y [MeshCall.meshRender m context.material] = some y :=
          fun _ _ => ⟨rfl, rfl, rfl, rfl⟩
        rw [← hcalls, ← hst]
        constructor
        · simp only [ne_eq, materialBoundAfter_append, hb1, (e3 _ _ none).1, e1,
            (e4 _ none).1, (e4 _ none).2.2.1, Option.some_bind]
        · simp only [ne_eq, meshBoundAfter_append, hb2, (e3 _ none _).2, e2,
            (e4 none _).2.1, (e4 none _).2.2.2, Option.some_bind]
    · simp only [hr, Bool.not_false, if_true, Option.some.injEq, Prod.mk.injEq] at h
      obtain ⟨hst, hcalls⟩ := h
      rw [← hcalls, ← hst]
      exact ⟨rfl, rfl⟩

/-- The loop of `renderMeshes` binds and unbinds materials and meshes in order, and
leaves bound the material and the mesh that the locals name. -/
theorem renderMeshesLoop_bound (meshStore : MeshId → RendererMesh)
    (instanceMaterial : MaterialInstanceId → MaterialId) (pass : Pass)
    (meshes : List RendererMeshContext) (st st1 : DispatchState) (calls : List MeshCall)
    (h : renderMeshesLoop meshStore instanceMaterial pass meshes st = some (st1, calls)) :
    materialBoundAfter st.lastMaterial calls = some st1.lastMaterial ∧
    meshBoundAfter st.lastMesh calls = some st1.lastMesh := by
  induction meshes generalizing st calls with
  | nil =>
    simp only [renderMeshesLoop, Option.some.injEq, Prod.mk.injEq] at h
    obtain ⟨hst, hcalls⟩ := h
    rw [← hcalls, ← hst]
    exact ⟨rfl, rfl⟩
  | cons c rest ih =>
    unfold renderMeshesLoop at h
    cases he : renderMeshesEntry meshStore instanceMaterial pass st c with
    | none => simp [he] at h
    | some res =>
      obtain ⟨st0, calls0⟩ := res
      simp only [he] at h
      cases hl : renderMeshesLoop meshStore instanceMaterial pass rest st0 with
      | none => simp [hl] at h
      | some res2 =>
        obtain ⟨st2, calls2⟩ := res2
        simp only [hl, Option.some.injEq, Prod.mk.injEq] at h
        obtain ⟨hst, hcalls⟩ := h
        subst hst
        obtain ⟨h1, h2⟩ := renderMeshesEntry_bound meshStore instanceMaterial pass st st0 c
          calls0 he
        obtain ⟨h3, h4⟩ := ih st0 calls2 hl
        rw [← hcalls, materialBoundAfter_append, meshBoundAfter_append, h1, h2]
        exact ⟨h3, h4⟩

/-- The loop of `renderMeshes` over entries that are all skipped makes no call and
keeps the locals. -/
theorem renderMeshesLoop_all_skipped (meshStore : MeshId → RendererMesh)
    (instanceMaterial : MaterialInstanceId → MaterialId) (pass : Pass)
    (meshes : List RendererMeshContext) (st : DispatchState)
    (hvalid : ∀ c ∈ meshes, c.isValid = true)
    (hnone : dispatched meshStore meshes = []) :
    renderMeshesLoop meshStore instanceMaterial pass meshes st = some (st, []) := by
  induction meshes with
  | nil => rfl
  | cons c rest ih =>
    have hv := hvalid c (List.mem_cons_self _ _)
    simp only [RendererMeshContext.isValid, Bool.and_eq_true] at hv
    obtain ⟨m, hm⟩ := Option.isSome_iff_exists.mp hv.1
    have hall := List.filter_eq_nil_iff.mp hnone
    have hc := hall c (List.mem_cons_self _ _)
    simp only [hm, Bool.not_eq_true] at hc
    have hrest : dispatched meshStore rest = [] :=
      List.filter_eq_nil_iff.mpr (fun x hx => hall x (List.mem_cons_of_mem _ hx))
    simp [renderMeshesLoop, renderMeshesEntry_skipped meshStore instanceMaterial pass st c m hm hc,
      ih (fun x hx => hvalid x (List.mem_cons_of_mem _ hx)) hrest]

/-- C23: for every list of draw entries that each have a mesh and a material,
`renderMeshes` returns calls that are balanced: a material is bound only while none
is bound and unbound only while it is the one bound, so that every material bind is
followed by one unbind of that material before the next material bind or the end of
the calls, and no material is bound at the end; likewise for the mesh binds and
unbinds; and when no entry is dispatched (the list is empty or every mesh reports
`willRender() == false`) no call is made at all. -/
theorem renderMeshes_balanced (meshStore : MeshId → RendererMesh)
    (instanceMaterial : MaterialInstanceId → MaterialId)
    (meshes : List RendererMeshContext) (pass : Pass)
    (hvalid : ∀ c ∈ meshes, c.isValid = true) :
    ∃ calls, renderMeshes meshStore instanceMaterial meshes pass = some calls ∧
      materialBoundAfter none calls = some none ∧
      meshBoundAfter none calls = some none ∧
      (dispatched meshStore meshes = [] → calls = []) := by
  obtain ⟨st, calls, hloop, hcalls⟩ := renderMeshes_some meshStore instanceMaterial pass
    meshes hvalid
  obtain ⟨hmat, hmesh⟩ := renderMeshesLoop_bound meshStore instanceMaterial pass _ _ st calls
    hloop
  refine ⟨_, hcalls, ?_, ?_, ?_⟩
  · rw [materialBoundAfter_append, materialBoundAfter_append, hmat]
    cases st.lastMesh <;> cases st.lastMaterial <;>
      simp [unbindLastMesh, unbindLastMaterial, materialBoundAfter]
  · rw [meshBoundAfter_append, meshBoundAfter_append, hmesh]
    cases st.lastMesh <;> cases st.lastMaterial <;>
      simp [unbindLastMesh, unbindLastMaterial, meshBoundAfter]
  · intro hnone
    have hsub : dispatched meshStore (meshes.take (meshes.length % 4294967296)) = [] := by
      apply List.filter_eq_nil_iff.mpr
      intro x hx
      exact List.filter_eq_nil_iff.mp hnone x (List.mem_of_mem_take hx)
    have h := renderMeshesLoop_all_skipped meshStore instanceMaterial pass
      (meshes.take (meshes.length % 4294967296)) ⟨none, none, none⟩
      (fun c hc => hvalid c (List.mem_of_mem_take hc)) hsub
    rw [h] at hloop
    simp only [Option.some.injEq, Prod.mk.injEq] at hloop
    obtain ⟨hst, hc⟩ := hloop
    rw [← hc, ← hst]
    rfl

/-- C23 on a worked instance: four entries with two materials and two meshes. -/
theorem renderMeshes_balanced_witness :
    (∀ c ∈ sampleEntries, c.isValid = true) ∧
    ∃ calls, renderMeshes sampleMeshes sampleInstances sampleEntries Pass.PASS_UNLIT
        = some calls ∧
      materialBoundAfter none calls = some none ∧
      meshBoundAfter none calls = some none ∧
      (dispatched sampleMeshes sampleEntries = [] → calls = []) :=
  ⟨by decide,
   renderMeshes_balanced sampleMeshes sampleInstances sampleEntries Pass.PASS_UNLIT
     (by decide)⟩

/-! ## The context binds and draws of `renderMeshes` -/

/-- The steps of two runs of calls made one after the other. -/
theorem entrySteps_append (a b : List MeshCall) :
    entrySteps (a ++ b) = entrySteps a ++ entrySteps b :=
  List.filterMap_append _ _ _

/-- The material transition of an iteration binds at most one material, and neither
binds a draw context nor draws. -/
theorem renderMeshesMaterial_steps (instanceMaterial : MaterialInstanceId → MaterialId)
    (pass : Pass) (instanced : Bool) (st : DispatchState) (context : RendererMeshContext)
    (lm : Option MaterialId) (li : Option MaterialInstanceId) (mc : List MeshCall)
    (h : renderMeshesMaterial instanceMaterial pass instanced st context = some (lm, li, mc)) :
    ∃ bound : List MaterialId, bound.length ≤ 1 ∧
      entrySteps mc = bound.map EntryStep.materialBind := by
  obtain ⟨lastMaterial, lastInstance, lastMesh⟩ := st
  unfold renderMeshesMaterial at h
  cases lastMaterial <;> cases hi : context.materialInstance <;>
    cases hm : context.material <;> simp only [hi, hm] at h <;>
    (repeat' split at h) <;>
    first
    | (cases h; exact ⟨[], by simp, rfl⟩)
    | (cases h; exact ⟨[_], by simp, rfl⟩)
    | exact absurd h (by simp)

/-- One loop iteration on a dispatched entry binds the draw context, then at most
one material, then draws the mesh of the entry. -/
theorem renderMeshesEntry_steps (meshStore : MeshId → RendererMesh)
    (instanceMaterial : MaterialInstanceId → MaterialId) (pass : Pass)
    (st st1 : DispatchState) (context : RendererMeshContext) (calls : List MeshCall)
    (m : MeshId) (hmesh : context.mesh = some m) (hr : (meshStore m).m_willRender = true)
    (h : renderMeshesEntry meshStore instanceMaterial pass st context = some (st1, calls)) :
    ∃ bound : List MaterialId, bound.length ≤ 1 ∧
      entrySteps calls = stepsOfEntry context bound := by
  unfold renderMeshesEntry at h
  simp only [hmesh, hr, Bool.not_true, Bool.false_eq_true, if_false] at h
  cases hmat : renderMeshesMaterial instanceMaterial pass (meshStore m).m_instanceBuffer
      st context with
  | none => simp [hmat] at h
  | some res =>
    obtain ⟨lm, li, mc⟩ := res
    simp only [hmat, Option.some.injEq, Prod.mk.injEq] at h
    obtain ⟨_, hcalls⟩ := h
    obtain ⟨bound, hlen, hsteps⟩ := renderMeshesMaterial_steps instanceMaterial pass _ st
      context lm li mc hmat
    have e1 : ∀ l : Option MeshId, entrySteps
        (if ¬ some m = l then unbindLastMesh l ++ [MeshCall.meshBind m] else []) = [] := by
      intro l
      cases l <;> split <;> rfl
    have e2 : ∀ b, entrySteps (bindMeshStateOf lm b) = [] := by
      intro b
      cases lm <;> rfl
    have e3 : entrySteps [MeshCall.bindMeshContext context] = [EntryStep.context context] ∧
        entrySteps [MeshCall.meshRender m context.material]
          = [EntryStep.draw m context.material] := ⟨rfl, rfl⟩
    refine ⟨bound, hlen, ?_⟩
    rw [← hcalls]
    simp only [ne_eq, entrySteps_append, e1, e2, e3.1, e3.2, hsteps, stepsOfEntry, hmesh,
      List.append_nil]

/-- The steps of the loop of `renderMeshes`: for each dispatched entry in input
order, the bind of its draw context, at most one material bind, and its draw. -/
theorem renderMeshesLoop_steps (meshStore : MeshId → RendererMesh)
    (instanceMaterial : MaterialInstanceId → MaterialId) (pass : Pass)
    (meshes : List RendererMeshContext) (st st1 : DispatchState) (calls : List MeshCall)
    (h : renderMeshesLoop meshStore instanceMaterial pass meshes st = some (st1, calls)) :
    ∃ binds : List (List MaterialId),
      binds.length = (dispatched meshStore meshes).length ∧
      (∀ bound ∈ binds, bound.length ≤ 1) ∧
      entrySteps calls
        = ((dispatched meshStore meshes).zip binds).flatMap (fun e => stepsOfEntry e.1 e.2) := by
  induction meshes generalizing st calls with
  | nil =>
    simp only [renderMeshesLoop, Option.some.injEq, Prod.mk.injEq] at h
    obtain ⟨_, hcalls⟩ := h
    rw [← hcalls]
    exact ⟨[], rfl, by simp, rfl⟩
  | cons c rest ih =>
    unfold renderMeshesLoop at h
    cases he : renderMeshesEntry meshStore instanceMaterial pass st c with
    | none => simp [he] at h
    | some res =>
      obtain ⟨st0, calls0⟩ := res
      simp only [he] at h
      cases hl : renderMeshesLoop meshStore instanceMaterial pass rest st0 with
      | none => simp [hl] at h
      | some res2 =>
        obtain ⟨st2, calls2⟩ := res2
        simp only [hl, Option.some.injEq, Prod.mk.injEq] at h
        obtain ⟨hst, hcalls⟩ := h
        subst hst
        obtain ⟨binds, hlen, hone, hsteps⟩ := ih st0 calls2 hl
        cases hmesh : c.mesh with
        | none => simp [renderMeshesEntry, hmesh] at he
        | some m =>
          cases hr : (meshStore m).m_willRender with
          | true =>
            obtain ⟨bound, hb, hs⟩ := renderMeshesEntry_steps meshStore instanceMaterial pass
              st st0 c calls0 m hmesh hr he
            have hd : dispatched meshStore (c :: rest) = c :: dispatched meshStore rest := by
              simp [dispatched, hmesh, hr]
            refine ⟨bound :: binds, by simp [hd, hlen], ?_, ?_⟩
            · intro x hx
              rcases List.mem_cons.mp hx with hx | hx
              · exact hx ▸ hb
              · exact hone x hx
            · rw [← hcalls, entrySteps_append, hs, hsteps, hd, List.zip_cons_cons,
                List.flatMap_cons]
          | false =>
            have hd : dispatched meshStore (c :: rest) = dispatched meshStore rest := by
              simp [dispatched, hmesh, hr]
            rw [renderMeshesEntry_skipped meshStore instanceMaterial pass st c m hmesh hr] at he
            simp only [Option.some.injEq, Prod.mk.injEq] at he
            refine ⟨binds, by rw [hd, hlen], hone, ?_⟩
            rw [← hcalls, ← he.2, List.nil_append, hsteps, hd]

/-- C24: for every list of draw entries that each have a mesh and a material, short
enough for its length to fit the 32-bit counter, `renderMeshes` (build without
`RENDERER_ENABLE_GLES2`) returns calls in which the context binds, material binds and
draws are, for each dispatched entry in input order: one bind of the draw context of
the entry, then at most one material bind, then one draw of the mesh of the entry. So
the context is bound once per dispatched entry, before any material bind of that
entry, and there is one draw per dispatched entry, in input order. -/
theorem renderMeshes_context_and_draw (meshStore : MeshId → RendererMesh)
    (instanceMaterial : MaterialInstanceId → MaterialId)
    (meshes : List RendererMeshContext) (pass : Pass)
    (hvalid : ∀ c ∈ meshes, c.isValid = true)
    (hfit : meshes.length < 4294967296) :
    ∃ calls, renderMeshes meshStore instanceMaterial meshes pass = some calls ∧
      ∃ binds : List (List MaterialId),
        binds.length = (dispatched meshStore meshes).length ∧
        (∀ bound ∈ binds, bound.length ≤ 1) ∧
        entrySteps calls
          = ((dispatched meshStore meshes).zip binds).flatMap
              (fun e => stepsOfEntry e.1 e.2) := by
  obtain ⟨st, calls, hloop, hcalls⟩ := renderMeshes_some meshStore instanceMaterial pass
    meshes hvalid
  rw [Nat.mod_eq_of_lt hfit, List.take_length] at hloop
  obtain ⟨binds, hlen, hone, hsteps⟩ := renderMeshesLoop_steps meshStore instanceMaterial
    pass meshes _ st calls hloop
  refine ⟨_, hcalls, binds, hlen, hone, ?_⟩
  rw [entrySteps_append, entrySteps_append, hsteps]
  cases st.lastMesh <;> cases st.lastMaterial <;>
    simp [unbindLastMesh, unbindLastMaterial, entrySteps]

/-- C24 on a worked instance: four entries with two materials and two meshes. -/
theorem renderMeshes_context_and_draw_witness :
    (∀ c ∈ sampleEntries, c.isValid = true) ∧ sampleEntries.length < 4294967296 ∧
    ∃ calls, renderMeshes sampleMeshes sampleInstances sampleEntries Pass.PASS_UNLIT
        = some calls ∧
      ∃ binds : List (List MaterialId),
        binds.length = (dispatched sampleMeshes sampleEntries).length ∧
        (∀ bound ∈ binds, bound.length ≤ 1) ∧
        entrySteps calls
          = ((dispatched sampleMeshes sampleEntries).zip binds).flatMap
              (fun e => stepsOfEntry e.1 e.2) :=
  ⟨by decide, by decide,
   renderMeshes_context_and_draw sampleMeshes sampleInstances sampleEntries Pass.PASS_UNLIT
     (by decide) (by decide)⟩

/-! ## The pixel of a screenshot -/

/-- The value of `createPixel` on three channels below 256. -/
theorem createPixel_eq (r g b : Nat) (hr : r < 256) (hg : g < 256) (hb : b < 256) :
    createPixel r g b = r * 65536 + g * 256 + b := by
  have h1 : 2 ^ 8 * g ||| b = 2 ^ 8 * g + b :=
    (Nat.mul_add_lt_is_or (by omega : b < 2 ^ 8) g).symm
  have h2 : 2 ^ 16 * r ||| (2 ^ 8 * g + b) = 2 ^ 16 * r + (2 ^ 8 * g + b) :=
    (Nat.mul_add_lt_is_or (by omega : 2 ^ 8 * g + b < 2 ^ 16) r).symm
  unfold createPixel
  rw [Nat.mod_eq_of_lt hr, Nat.mod_eq_of_lt hg, Nat.mod_eq_of_lt hb, Nat.lor_assoc,
    Nat.shiftLeft_eq, Nat.shiftLeft_eq, Nat.mul_comm r, Nat.mul_comm g, h1, h2]
  omega

/-- C25, as the code has it: `createPixel(r, g, b)` holds B in bits 0-7, G in bits
8-15 and R in bits 16-23, and bits 24-31 are zero; the comment of the function puts G
in bits 0-7 and B in bits 8-15. -/
theorem createPixel_layout (r g b : Nat) (hr : r < 256) (hg : g < 256) (hb : b < 256) :
    pixelBits (createPixel r g b) 0 = b ∧
    pixelBits (createPixel r g b) 8 = g ∧
    pixelBits (createPixel r g b) 16 = r ∧
    pixelBits (createPixel r g b) 24 = 0 := by
  rw [createPixel_eq r g b hr hg hb]
  unfold pixelBits
  norm_num
  omega

/-- C25 on a worked instance: with the channels R = 1, G = 2, B = 3 the bits 0-7 hold
3 and the bits 8-15 hold 2. -/
theorem createPixel_layout_witness :
    (1 < 256 ∧ 2 < 256 ∧ 3 < 256) ∧
    pixelBits (createPixel 1 2 3) 0 = 3 ∧
    pixelBits (createPixel 1 2 3) 8 = 2 ∧
    pixelBits (createPixel 1 2 3) 16 = 1 ∧
    pixelBits (createPixel 1 2 3) 24 = 0 :=
  ⟨by decide, createPixel_layout 1 2 3 (by decide) (by decide) (by decide)⟩

/-! ## A light that is queued and retracted -/

/-- C28, as the code has it: a light that is not locked and not in the active list is
appended and locked by `queueLightForRender`; `removeLightFromRenderQueue` then takes
it out of the list and gives back the renderer as it was, but the light stays
locked, so that a later `queueLightForRender` of the light changes nothing. -/
theorem removeLightFromRenderQueue_keeps_lock (lights : LightId → RendererLight)
    (r : Renderer) (light : LightId)
    (hfree : (lights light).isLocked = false) (hnew : light ∉ r.m_visibleLights) :
    removeLightFromRenderQueue (queueLightForRender lights r light).2 light = some r ∧
    ((queueLightForRender lights r light).1 light).isLocked = true ∧
    queueLightForRender (queueLightForRender lights r light).1 r light
      = ((queueLightForRender lights r light).1, r) := by
  have hq : queueLightForRender lights r light
      = (setOwner lights light (some r.self),
          { r with m_visibleLights := r.m_visibleLights ++ [light] }) := by
    simp [queueLightForRender, hfree]
  have hlocked : ((setOwner lights light (some r.self)) light).isLocked = true := by
    simp [setOwner, RendererLight.isLocked]
  have hkeep : r.m_visibleLights.filter (fun l => !decide (l = light)) = r.m_visibleLights := by
    apply List.filter_eq_self.mpr
    intro a ha
    have : a ≠ light := fun h => hnew (h ▸ ha)
    simpa using this
  have hdrop : List.drop (r.m_visibleLights.length + 1) (r.m_visibleLights ++ [light]) = [] :=
    List.drop_eq_nil_of_le (by simp)
  rw [hq]
  refine ⟨?_, hlocked, ?_⟩
  · obtain ⟨self, lit, unlit, screen, transparent, visibleLights, ambient, fog, fogDistance⟩ := r
    simp only at hkeep hdrop
    simp [removeLightFromRenderQueue, List.filter_append, hkeep, hdrop]
  · simp [queueLightForRender, hlocked]

/-- C28 on a worked instance: the light at address 4 and a renderer with empty
queues. -/
theorem removeLightFromRenderQueue_keeps_lock_witness :
    ((sampleLights 4).isLocked = false ∧ 4 ∉ emptyRenderer.m_visibleLights) ∧
    removeLightFromRenderQueue (queueLightForRender sampleLights emptyRenderer 4).2 4
      = some emptyRenderer ∧
    ((queueLightForRender sampleLights emptyRenderer 4).1 4).isLocked = true ∧
    queueLightForRender (queueLightForRender sampleLights emptyRenderer 4).1 emptyRenderer 4
      = ((queueLightForRender sampleLights emptyRenderer 4).1, emptyRenderer) :=
  ⟨⟨by decide, by decide⟩,
   removeLightFromRenderQueue_keeps_lock sampleLights emptyRenderer 4 (by decide) (by decide)⟩

/-! ## Lookup after the release of all materials -/

/-- After `registerMaterial(desc, mat)` with caching enabled, `find(desc)` finds an
entry. -/
theorem registerMaterial_find (cache : MaterialCache) (desc : RendererMaterialDesc)
    (mat : Option MaterialId) (hcache : cache.mEnableMaterialCaching = true) :
    ∃ e, mapFind (registerMaterial cache desc mat).m_materialCache desc = some e := by
  unfold registerMaterial
  rw [if_pos hcache]
  cases hfind : mapFind cache.m_materialCache desc with
  | none =>
    simp only []
    cases hnew : mapFind (mapInsert cache.m_materialCache desc mat) desc with
    | some e => exact ⟨e, rfl⟩
    | none =>
      exfalso
      have hall := (mapFind_eq_none _ _).mp hnew (desc, mat)
        ((mapInsert_perm cache.m_materialCache desc mat).mem_iff.mpr (List.mem_cons_self _ _))
      rw [descEquivalent_refl] at hall
      exact absurd hall (by simp)
  | some e =>
    exact ⟨_, mapAssign_find cache.m_materialCache desc mat e hfind⟩

/-- The call `find(desc)` on the map after `releaseAllMaterials` finds the entry it
found before, with no material. -/
theorem mapFind_releaseAllMaterials (cache : MaterialCache) (desc : RendererMaterialDesc) :
    mapFind (releaseAllMaterials cache).1.m_materialCache desc
      = (mapFind cache.m_materialCache desc).map (fun e => (e.1, none)) := by
  unfold mapFind releaseAllMaterials
  simp only []
  induction cache.m_materialCache with
  | nil => rfl
  | cons e rest ih =>
    rw [List.map_cons, List.find?_cons, List.find?_cons]
    cases descEquivalent e.1 desc with
    | true => rfl
    | false => exact ih

/-- C29, as the code has it: after `registerMaterial(desc, mat)` with caching enabled
and then `releaseAllMaterials()`, the cache has the keys it had and every entry maps
to no material; `hasMaterialAlready(desc)` then finds the entry of `desc` and calls
`incRefCount()` through its null pointer, which is the failure `none` of the
embedding, and not a return of no material. -/
theorem releaseAllMaterials_then_lookup (cache : MaterialCache) (refCount : MaterialId → Nat)
    (desc : RendererMaterialDesc) (mat : Option MaterialId)
    (hcache : cache.mEnableMaterialCaching = true) :
    (releaseAllMaterials (registerMaterial cache desc mat)).1.m_materialCache.map Prod.fst
      = (registerMaterial cache desc mat).m_materialCache.map Prod.fst ∧
    (∀ e ∈ (releaseAllMaterials (registerMaterial cache desc mat)).1.m_materialCache,
      e.2 = none) ∧
    hasMaterialAlready (releaseAllMaterials (registerMaterial cache desc mat)).1 refCount desc
      = none := by
  refine ⟨?_, ?_, ?_⟩
  · simp [releaseAllMaterials, List.map_map, Function.comp_def]
  · intro e he
    simp only [releaseAllMaterials, List.mem_map] at he
    obtain ⟨e0, _, h0⟩ := he
    rw [← h0]
  · obtain ⟨e, he⟩ := registerMaterial_find cache desc mat hcache
    have hflag : (releaseAllMaterials (registerMaterial cache desc mat)).1.mEnableMaterialCaching
        = true := by
      simp only [releaseAllMaterials, registerMaterial, hcache, if_true]
      split <;> rfl
    unfold hasMaterialAlready
    rw [if_pos hflag, mapFind_releaseAllMaterials, he]
    rfl

/-- C29 on a worked instance: a fresh cache with caching enabled, one description
registered with the material at address 5. -/
theorem releaseAllMaterials_then_lookup_witness :
    (newCache true).mEnableMaterialCaching = true ∧
    (releaseAllMaterials (registerMaterial (newCache true) (sampleDesc 2 "v" none)
        (some 5))).1.m_materialCache.map Prod.fst
      = (registerMaterial (newCache true) (sampleDesc 2 "v" none)
          (some 5)).m_materialCache.map Prod.fst ∧
    (∀ e ∈ (releaseAllMaterials (registerMaterial (newCache true) (sampleDesc 2 "v" none)
        (some 5))).1.m_materialCache, e.2 = none) ∧
    hasMaterialAlready (releaseAllMaterials (registerMaterial (newCache true)
        (sampleDesc 2 "v" none) (some 5))).1 (fun _ => 1) (sampleDesc 2 "v" none)
      = none :=
  ⟨rfl, releaseAllMaterials_then_lookup (newCache true) (fun _ => 1) (sampleDesc 2 "v" none)
    (some 5) rfl⟩

/-! ## The progress through the driving modes -/

/-- One call of `incrementDrivingMode` from a progress of at most 11 reads the array
inside its bounds, leaves a progress of at most 11, and moves the progress and the
completion flag as the entry it reaches says. -/
theorem incrementDrivingMode_step (s : VehicleState) (timestep : ℚ)
    (h : s.gVehicleOrderProgress ≤ 11) :
    ∃ s1, incrementDrivingMode s timestep = some s1 ∧
      s1.gVehicleOrderProgress ≤ 11 ∧
      (s.gVehicleModeTimer + timestep > gVehicleModeLifetime →
        gDriveModeOrder[s.gVehicleOrderProgress + 1]? = some DriveMode.eDRIVE_MODE_NONE →
        s1.gVehicleOrderProgress = 0 ∧ s1.gVehicleOrderComplete = true) ∧
      (s.gVehicleModeTimer + timestep > gVehicleModeLifetime →
        gDriveModeOrder[s.gVehicleOrderProgress + 1]? ≠ some DriveMode.eDRIVE_MODE_NONE →
        s1.gVehicleOrderProgress = s.gVehicleOrderProgress + 1 ∧
        s1.gVehicleOrderComplete = s.gVehicleOrderComplete) ∧
      (¬ s.gVehicleModeTimer + timestep > gVehicleModeLifetime →
        s1.gVehicleOrderProgress = s.gVehicleOrderProgress ∧
        s1.gVehicleOrderComplete = s.gVehicleOrderComplete) := by
  obtain ⟨timer, complete, progress, controls⟩ := s
  simp only at h
  by_cases ht : timer + timestep > gVehicleModeLifetime
  · interval_cases progress <;>
      simp [incrementDrivingMode, ht, gDriveModeOrder]
  · have hstep : incrementDrivingMode ⟨timer, complete, progress, controls⟩ timestep
        = some ⟨timer + timestep, complete, progress, controls⟩ := by
      simp only [incrementDrivingMode, if_neg ht]
    exact ⟨_, hstep, h, fun h1 => absurd h1 ht, fun h1 _ => absurd h1 ht,
      fun _ => ⟨rfl, rfl⟩⟩

/-- Every sequence of calls of `incrementDrivingMode` from a progress of at most 11
reads the array inside its bounds and ends with a progress of at most 11. -/
theorem incrementDrivingModes_bounded (timesteps : List ℚ) (s : VehicleState)
    (h : s.gVehicleOrderProgress ≤ 11) :
    ∃ s1, incrementDrivingModes s timesteps = some s1 ∧ s1.gVehicleOrderProgress ≤ 11 := by
  induction timesteps generalizing s with
  | nil => exact ⟨s, rfl, h⟩
  | cons t rest ih =>
    obtain ⟨s1, hs1, hb, _⟩ := incrementDrivingMode_step s t h
    obtain ⟨s2, hs2, hb2⟩ := ih s1 hb
    exact ⟨s2, by simp [incrementDrivingModes, hs1, hs2], hb2⟩

/-- C30: from the state that `initPhysics` sets, every sequence of calls of
`incrementDrivingMode`, whatever the time steps, reads `gDriveModeOrder` inside its 13
entries and ends in a state with `gVehicleOrderProgress` at most 11 and
`gDriveModeOrder[gVehicleOrderProgress]` other than `eDRIVE_MODE_NONE`; a further call
from that state again reads inside the array, and it sets the progress to 0 and
`gVehicleOrderComplete` to true when the timer runs out and the incremented progress
indexes the `eDRIVE_MODE_NONE` entry, and otherwise leaves the flag as it is, with
the progress incremented when the timer runs out and unchanged when it does not. -/
theorem incrementDrivingMode_progress_in_bounds (timesteps : List ℚ) :
    ∃ s, incrementDrivingModes initPhysics timesteps = some s ∧
      s.gVehicleOrderProgress ≤ 11 ∧
      (∃ mode, gDriveModeOrder[s.gVehicleOrderProgress]? = some mode ∧
        mode ≠ DriveMode.eDRIVE_MODE_NONE) ∧
      ∀ timestep : ℚ, ∃ s1, incrementDrivingMode s timestep = some s1 ∧
        s1.gVehicleOrderProgress ≤ 11 ∧
        (s.gVehicleModeTimer + timestep > gVehicleModeLifetime →
          gDriveModeOrder[s.gVehicleOrderProgress + 1]? = some DriveMode.eDRIVE_MODE_NONE →
          s1.gVehicleOrderProgress = 0 ∧ s1.gVehicleOrderComplete = true) ∧
        (s.gVehicleModeTimer + timestep > gVehicleModeLifetime →
          gDriveModeOrder[s.gVehicleOrderProgress + 1]? ≠ some DriveMode.eDRIVE_MODE_NONE →
          s1.gVehicleOrderProgress = s.gVehicleOrderProgress + 1 ∧
          s1.gVehicleOrderComplete = s.gVehicleOrderComplete) ∧
        (¬ s.gVehicleModeTimer + timestep > gVehicleModeLifetime →
          s1.gVehicleOrderProgress = s.gVehicleOrderProgress ∧
          s1.gVehicleOrderComplete = s.gVehicleOrderComplete) := by
  obtain ⟨s, hs, hb⟩ := incrementDrivingModes_bounded timesteps initPhysics (by decide)
  refine ⟨s, hs, hb, ?_, fun timestep => incrementDrivingMode_step s timestep hb⟩
  obtain ⟨timer, complete, progress, controls⟩ := s
  simp only at hb
  interval_cases progress <;> simp [gDriveModeOrder]

/-! ## The words and bytes of the screenshot buffer -/

/-- A pixel made by `createPixel` fits a `PxU32`. -/
theorem createPixel_lt (r g b : Nat) : createPixel r g b < 4294967296 :=
  Nat.mod_lt _ (by norm_num)

/-- A word that was stored is the word loaded. -/
theorem readWord_writeWord (bigEndian : Bool) (data : ScreenshotData) (k v : Nat)
    (hv : v < 4294967296) :
    readWord bigEndian (writeWord bigEndian data k v) k = v := by
  cases bigEndian <;> simp [readWord, writeWord] <;> omega

/-- The store of a word leaves the bytes outside the word as they are. -/
theorem writeWord_other (bigEndian : Bool) (data : ScreenshotData) (k v a : Nat)
    (h : a < 4 * k ∨ 4 * k + 4 ≤ a) :
    writeWord bigEndian data k v a = data a := by
  unfold writeWord
  rw [if_neg (by omega), if_neg (by omega), if_neg (by omega), if_neg (by omega)]

/-- The load of a word reads the four bytes of the word only. -/
theorem readWord_congr (bigEndian : Bool) (d1 d2 : ScreenshotData) (k : Nat)
    (h : ∀ a, 4 * k ≤ a → a < 4 * k + 4 → d1 a = d2 a) :
    readWord bigEndian d1 k = readWord bigEndian d2 k := by
  unfold readWord
  rw [h (4 * k) (by omega) (by omega), h (4 * k + 1) (by omega) (by omega),
    h (4 * k + 2) (by omega) (by omega), h (4 * k + 3) (by omega) (by omega)]

/-- With channel positions below 4, the pixel at a byte offset reads the four bytes
from that offset only. -/
theorem pixelAt_congr (d1 d2 : ScreenshotData) (p r g b : Nat)
    (hr : r < 4) (hg : g < 4) (hb : b < 4)
    (h : ∀ a, p ≤ a → a < p + 4 → d1 a = d2 a) :
    pixelAt d1 p r g b = pixelAt d2 p r g b := by
  unfold pixelAt
  rw [h (p + r) (by omega) (by omega), h (p + g) (by omega) (by omega),
    h (p + b) (by omega) (by omega)]

/-- Two conversions in place, of the pixels `p` to `q - 1` and then of the pixels `q`
to `s - 1`, make one of the pixels `p` to `s - 1`. -/
theorem ConvertedInPlace.trans (bigEndian : Bool) (r g b : Nat)
    (d0 d1 d2 : ScreenshotData) (p q s : Nat) (hpq : p ≤ q) (hqs : q ≤ s)
    (h1 : ConvertedInPlace bigEndian r g b d0 d1 p q)
    (h2 : ConvertedInPlace bigEndian r g b d1 d2 q s) :
    ConvertedInPlace bigEndian r g b d0 d2 p s := by
  obtain ⟨f1, w1⟩ := h1
  obtain ⟨f2, w2⟩ := h2
  constructor
  · intro a ha
    rw [f2 a (by omega), f1 a (by omega)]
  · intro k hpk hks
    by_cases hk : k < q
    · rw [← w1 k hpk hk]
      exact readWord_congr bigEndian d2 d1 k (fun a h3 h4 => f2 a (by omega))
    · rw [w2 k (by omega) hks]
      unfold pixelAt
      rw [f1 (4 * k + r) (by omega), f1 (4 * k + g) (by omega), f1 (4 * k + b) (by omega)]

/-- The loop over a scanline of four-byte pixels converts its `n` pixels in place. -/
theorem formatScanline_spec (bigEndian : Bool) (r g b n : Nat) (st : ScanState)
    (hst : st.pSrcByte = 4 * st.pSrc) :
    (formatScanline bigEndian 4 r g b n st).pSrc = st.pSrc + n ∧
    (formatScanline bigEndian 4 r g b n st).pSrcByte = 4 * (st.pSrc + n) ∧
    ConvertedInPlace bigEndian r g b st.data (formatScanline bigEndian 4 r g b n st).data
      st.pSrc (st.pSrc + n) := by
  induction n generalizing st with
  | zero =>
    refine ⟨rfl, hst, fun a _ => rfl, fun k h1 h2 => absurd h2 (by omega)⟩
  | succ n ih =>
    obtain ⟨data, p, pb⟩ := st
    simp only at hst
    subst hst
    obtain ⟨h1, h2, h3⟩ := ih
      { data := writeWord bigEndian data p (pixelAt data (4 * p) r g b)
        pSrc := p + 1
        pSrcByte := 4 * p + 4 } (by simp only; omega)
    simp only at h1 h2 h3
    have hw : ConvertedInPlace bigEndian r g b data
        (writeWord bigEndian data p (pixelAt data (4 * p) r g b)) p (p + 1) := by
      constructor
      · intro a ha
        exact writeWord_other bigEndian data p _ a (by omega)
      · intro k hk1 hk2
        have hk : k = p := by omega
        subst hk
        exact readWord_writeWord bigEndian data k _ (createPixel_lt _ _ _)
    refine ⟨?_, ?_, ?_⟩
    · simp only [formatScanline, h1]; omega
    · simp only [formatScanline, h2]; omega
    · simp only [formatScanline]
      have h4 := ConvertedInPlace.trans bigEndian r g b _ _ _ p (p + 1) (p + 1 + n)
        (by omega) (by omega) hw h3
      rw [show p + (n + 1) = p + 1 + n by omega]
      exact h4

/-- The loop over the rows of four-byte pixels converts `m` rows of `width` pixels in
place. -/
theorem formatRows_spec (bigEndian : Bool) (r g b width m : Nat) (st : ScanState)
    (hst : st.pSrcByte = 4 * st.pSrc) :
    ConvertedInPlace bigEndian r g b st.data (formatRows bigEndian 4 r g b width m st).data
      st.pSrc (st.pSrc + m * width) := by
  induction m generalizing st with
  | zero =>
    exact ⟨fun a _ => rfl, fun k h1 h2 => absurd h2 (by omega)⟩
  | succ m ih =>
    obtain ⟨h1, h2, h3⟩ := formatScanline_spec bigEndian r g b width st hst
    have h4 := ih (formatScanline bigEndian 4 r g b width st) (by rw [h2, h1])
    rw [h1] at h4
    simp only [formatRows]
    have h5 := ConvertedInPlace.trans bigEndian r g b _ _ _ st.pSrc (st.pSrc + width)
      (st.pSrc + width + m * width) (by omega) (by omega) h3 h4
    rw [show st.pSrc + (m + 1) * width = st.pSrc + width + m * width by
      rw [Nat.succ_mul]; omega]
    exact h5

/-- The pixels of a row end before the pixels of every later row start. -/
theorem row_before (w a b : Nat) (h : a < b) : w * a + w ≤ w * b := by
  have h1 : w * (a + 1) ≤ w * b := Nat.mul_le_mul_left w h
  rw [Nat.mul_succ] at h1
  exact h1

/-- The inner loop of the flipping branch on two runs of `n` four-byte pixels that do
not overlap converts and exchanges them in place. -/
theorem swapScanlines_spec (bigEndian : Bool) (r g b : Nat)
    (hr : r < 4) (hg : g < 4) (hb : b < 4) (n : Nat) (st : SwapState)
    (h1 : st.pSrcByte = 4 * st.pSrc) (h2 : st.pSrc2Byte = 4 * st.pSrc2)
    (hsep : st.pSrc + n ≤ st.pSrc2) :
    (swapScanlines bigEndian 4 r g b n st).pSrc = st.pSrc + n ∧
    (swapScanlines bigEndian 4 r g b n st).pSrcByte = 4 * (st.pSrc + n) ∧
    SwappedInPlace bigEndian r g b st.data (swapScanlines bigEndian 4 r g b n st).data
      st.pSrc st.pSrc2 n := by
  induction n generalizing st with
  | zero =>
    exact ⟨rfl, h1, fun a _ => rfl, fun k hk => absurd hk (by omega)⟩
  | succ n ih =>
    obtain ⟨data, p, pb, q, qb⟩ := st
    simp only at h1 h2 hsep
    subst h1 h2
    obtain ⟨i1, i2, i3⟩ := ih
      { data := writeWord bigEndian
          (writeWord bigEndian data p (pixelAt data (4 * q) r g b)) q
          (pixelAt data (4 * p) r g b)
        pSrc := p + 1
        pSrcByte := 4 * p + 4
        pSrc2 := q + 1
        pSrc2Byte := 4 * q + 4 } (by simp only; omega) (by simp only; omega)
      (by simp only; omega)
    obtain ⟨i3, i4⟩ := i3
    simp only at i1 i2 i3 i4
    have hd2 : ∀ a, (a < 4 * p ∨ 4 * p + 4 ≤ a) → (a < 4 * q ∨ 4 * q + 4 ≤ a) →
        writeWord bigEndian (writeWord bigEndian data p (pixelAt data (4 * q) r g b)) q
          (pixelAt data (4 * p) r g b) a = data a := by
      intro a ha hq
      rw [writeWord_other bigEndian _ q _ a hq, writeWord_other bigEndian _ p _ a ha]
    simp only [SwappedInPlace]
    refine ⟨?_, ?_, ?_, ?_⟩
    · simp only [swapScanlines, i1]; omega
    · simp only [swapScanlines, i2]; omega
    · intro a ha
      simp only [swapScanlines]
      rw [i3 a (by omega), hd2 a (by omega) (by omega)]
    · intro k hk
      simp only [swapScanlines]
      cases k with
      | zero =>
        constructor
        · exact (readWord_congr bigEndian _ _ p (fun a h3 h4 => i3 a (by omega))).trans
            ((readWord_congr bigEndian _ _ p
              (fun a h3 h4 => writeWord_other bigEndian _ q _ a (by omega))).trans
              (readWord_writeWord bigEndian data p _ (createPixel_lt _ _ _)))
        · exact (readWord_congr bigEndian _ _ q (fun a h3 h4 => i3 a (by omega))).trans
            (readWord_writeWord bigEndian _ q _ (createPixel_lt _ _ _))
      | succ k =>
        obtain ⟨w1, w2⟩ := i4 k (by omega)
        constructor
        · rw [show p + (k + 1) = p + 1 + k by omega, w1,
            show q + (k + 1) = q + 1 + k by omega]
          exact pixelAt_congr _ _ _ r g b hr hg hb
            (fun a h3 h4 => hd2 a (by omega) (by omega))
        · rw [show q + (k + 1) = q + 1 + k by omega, w2,
            show p + (k + 1) = p + 1 + k by omega]
          exact pixelAt_congr _ _ _ r g b hr hg hb
            (fun a h3 h4 => hd2 a (by omega) (by omega))

/-- The loop over the upper half of the rows of the flipping branch, on four-byte
pixels: after `m` iterations from the row `i`, the rows `i` to `i + m - 1` and the rows
that mirror them are converted and exchanged, and every other byte is as before. -/
theorem flipRows_spec (bigEndian : Bool) (r g b w h : Nat)
    (hr : r < 4) (hg : g < 4) (hb : b < 4) (hsize : 4 * (w * h) < 4294967296)
    (m i : Nat) (st : ScanState)
    (hp : st.pSrc = w * i) (hpb : st.pSrcByte = 4 * (w * i)) (him : 2 * (i + m) ≤ h) :
    (flipRows bigEndian 4 r g b w h m i st).pSrc = w * (i + m) ∧
    (flipRows bigEndian 4 r g b w h m i st).pSrcByte = 4 * (w * (i + m)) ∧
    (∀ a, (a < 4 * (w * i) ∨ (4 * (w * (i + m)) ≤ a ∧ a < 4 * (w * (h - (i + m)))) ∨
        4 * (w * (h - i)) ≤ a) →
      (flipRows bigEndian 4 r g b w h m i st).data a = st.data a) ∧
    ∀ row col, i ≤ row → row < i + m → col < w →
      readWord bigEndian (flipRows bigEndian 4 r g b w h m i st).data (w * row + col)
        = pixelAt st.data (4 * (w * (h - row - 1) + col)) r g b ∧
      readWord bigEndian (flipRows bigEndian 4 r g b w h m i st).data (w * (h - row - 1) + col)
        = pixelAt st.data (4 * (w * row + col)) r g b := by
  induction m generalizing i st with
  | zero =>
    exact ⟨hp, hpb, fun a _ => rfl, fun row col h1 h2 => absurd h2 (by omega)⟩
  | succ m ih =>
    obtain ⟨data, p, pb⟩ := st
    simp only at hp hpb
    subst hp hpb
    have e1 : w * (i + 1) = w * i + w := Nat.mul_succ w i
    have e2 : w * (h - i) = w * (h - i - 1) + w := by
      rw [show h - i = (h - i - 1) + 1 by omega, Nat.mul_succ]
      simp
    have e3 : w * i + w ≤ w * (h - i - 1) := row_before w i (h - i - 1) (by omega)
    have e4 : w * (h - i - 1) ≤ w * h := Nat.mul_le_mul_left w (by omega)
    have e5 : w * (h - i - 1) % 4294967296 = w * (h - i - 1) := Nat.mod_eq_of_lt (by omega)
    have e6 : 4 * w * (h - i - 1) % 4294967296 = 4 * (w * (h - i - 1)) := by
      rw [Nat.mul_assoc]
      exact Nat.mod_eq_of_lt (by omega)
    have e7 : h - (i + 1) = h - i - 1 := by omega
    have e8 : w * (i + 1) ≤ w * (i + 1 + m) := Nat.mul_le_mul_left w (by omega)
    have e9 : w * (h - (i + 1 + m)) ≤ w * (h - i - 1) := Nat.mul_le_mul_left w (by omega)
    obtain ⟨s1, s2, s3, s4⟩ := swapScanlines_spec bigEndian r g b hr hg hb w
      { data := data, pSrc := w * i, pSrcByte := 4 * (w * i), pSrc2 := w * (h - i - 1)
        pSrc2Byte := 4 * (w * (h - i - 1)) } rfl rfl e3
    simp only at s1 s2 s3 s4
    obtain ⟨i1, i2, i3, i4⟩ := ih (i + 1)
      { data := (swapScanlines bigEndian 4 r g b w
          { data := data, pSrc := w * i, pSrcByte := 4 * (w * i), pSrc2 := w * (h - i - 1)
            pSrc2Byte := 4 * (w * (h - i - 1)) }).data
        pSrc := (swapScanlines bigEndian 4 r g b w
          { data := data, pSrc := w * i, pSrcByte := 4 * (w * i), pSrc2 := w * (h - i - 1)
            pSrc2Byte := 4 * (w * (h - i - 1)) }).pSrc
        pSrcByte := (swapScanlines bigEndian 4 r g b w
          { data := data, pSrc := w * i, pSrcByte := 4 * (w * i), pSrc2 := w * (h - i - 1)
            pSrc2Byte := 4 * (w * (h - i - 1)) }).pSrcByte }
      (by simp only; rw [s1, e1]) (by simp only; rw [s2, e1]) (by omega)
    simp only [e7] at i1 i2 i3 i4
    have hstep : flipRows bigEndian 4 r g b w h (m + 1) i
        { data := data, pSrc := w * i, pSrcByte := 4 * (w * i) }
        = flipRows bigEndian 4 r g b w h m (i + 1)
          { data := (swapScanlines bigEndian 4 r g b w
              { data := data, pSrc := w * i, pSrcByte := 4 * (w * i), pSrc2 := w * (h - i - 1)
                pSrc2Byte := 4 * (w * (h - i - 1)) }).data
            pSrc := (swapScanlines bigEndian 4 r g b w
              { data := data, pSrc := w * i, pSrcByte := 4 * (w * i), pSrc2 := w * (h - i - 1)
                pSrc2Byte := 4 * (w * (h - i - 1)) }).pSrc
            pSrcByte := (swapScanlines bigEndian 4 r g b w
              { data := data, pSrc := w * i, pSrcByte := 4 * (w * i), pSrc2 := w * (h - i - 1)
                pSrc2Byte := 4 * (w * (h - i - 1)) }).pSrcByte } := by
      simp only [flipRows, e5, e6]
    rw [hstep, show i + (m + 1) = i + 1 + m by omega]
    simp only
    refine ⟨i1, i2, ?_, ?_⟩
    · intro a ha
      rw [i3 a (by omega), s3 a (by omega)]
    · intro row col hrow1 hrow2 hcol
      by_cases hri : row = i
      · subst hri
        obtain ⟨w1, w2⟩ := s4 col hcol
        constructor
        · rw [← w1]
          exact readWord_congr bigEndian _ _ _ (fun a h3 h4 => i3 a (by omega))
        · rw [← w2]
          exact readWord_congr bigEndian _ _ _ (fun a h3 h4 => i3 a (by omega))
      · obtain ⟨w1, w2⟩ := i4 row col (by omega) hrow2 hcol
        have f1 : w * i + w ≤ w * row := row_before w i row (by omega)
        have f2 : w * row + w ≤ w * (h - i - 1) := row_before w row (h - i - 1) (by omega)
        have f3 : w * i + w ≤ w * (h - row - 1) := row_before w i (h - row - 1) (by omega)
        have f4 : w * (h - row - 1) + w ≤ w * (h - i - 1) :=
          row_before w (h - row - 1) (h - i - 1) (by omega)
        constructor
        · rw [w1]
          exact pixelAt_congr _ _ _ r g b hr hg hb (fun a h3 h4 => s3 a (by omega))
        · rw [w2]
          exact pixelAt_congr _ _ _ r g b hr hg hb (fun a h3 h4 => s3 a (by omega))

/-- On an image of four bytes per pixel whose size fits a `PxU32`, `formatScreenshot`
passes its checks with a stride of 4 and runs the loops of the branch chosen by
`bFlipY`. -/
theorem formatScreenshot_four (bigEndian : Bool) (width height r g b : Nat) (bFlipY : Bool)
    (data : ScreenshotData) (hw : 0 < width) (hh : 0 < height)
    (hsize : 4 * width * height < 4294967296) :
    formatScreenshot bigEndian width height (4 * width * height) r g b bFlipY data
      = some (if bFlipY then
          (if height % 2 = 1 then
            (formatScanline bigEndian 4 r g b width
              (flipRows bigEndian 4 r g b width height (height / 2) 0 ⟨data, 0, 0⟩)).data
           else (flipRows bigEndian 4 r g b width height (height / 2) 0 ⟨data, 0, 0⟩).data)
        else (formatRows bigEndian 4 r g b width height ⟨data, 0, 0⟩).data) := by
  have hwh : 0 < width * height := Nat.mul_pos hw hh
  have hassoc : 4 * width * height = 4 * (width * height) := Nat.mul_assoc 4 width height
  have hmod : width * height % 4294967296 = width * height := Nat.mod_eq_of_lt (by omega)
  have hstride : 4 * width * height / (width * height) = 4 := by
    rw [hassoc]
    exact Nat.mul_div_cancel 4 hwh
  unfold formatScreenshot
  rw [if_neg (by omega), hmod, if_neg (by omega), hstride, if_neg (by omega)]
  cases bFlipY
  · simp
  · by_cases hodd : height % 2 = 1 <;> simp [hodd]

/-- C26: for every width and height above zero with four bytes per pixel
(`sizeInBytes = 4 * width * height`, which fits 32 bits), channel positions in 0 to 3
and either byte order, `formatScreenshot` returns, and in the buffer it leaves the
32-bit word at row `i`, column `j` is `createPixel` of the R, G and B bytes of the
original pixel at column `j` of row `i` (without `bFlipY`) or of row `height - 1 - i`
(with `bFlipY`), the middle row of an odd height included; the bytes behind the image
are as they were. -/
theorem formatScreenshot_four_bytes (bigEndian : Bool) (width height r g b : Nat)
    (bFlipY : Bool) (data : ScreenshotData) (hw : 0 < width) (hh : 0 < height)
    (hsize : 4 * width * height < 4294967296) (hr : r < 4) (hg : g < 4) (hb : b < 4) :
    ∃ out, formatScreenshot bigEndian width height (4 * width * height) r g b bFlipY data
        = some out ∧
      (∀ i j, i < height → j < width →
        readWord bigEndian out (width * i + j)
          = pixelAt data (4 * (width * (if bFlipY then height - 1 - i else i) + j)) r g b) ∧
      ∀ a, 4 * (width * height) ≤ a → out a = data a := by
  refine ⟨_, formatScreenshot_four bigEndian width height r g b bFlipY data hw hh hsize, ?_⟩
  have hassoc : 4 * width * height = 4 * (width * height) := Nat.mul_assoc 4 width height
  cases bFlipY
  · obtain ⟨hframe, hwords⟩ := formatRows_spec bigEndian r g b width height ⟨data, 0, 0⟩ rfl
    simp only [Nat.zero_add, Nat.mul_comm height width] at hframe hwords
    simp only [Bool.false_eq_true, if_false]
    constructor
    · intro i j hi hj
      have h1 := row_before width i height hi
      exact hwords (width * i + j) (Nat.zero_le _) (by omega)
    · intro a ha
      exact hframe a (Or.inr ha)
  · obtain ⟨f1, f2, f3, f4⟩ := flipRows_spec bigEndian r g b width height hr hg hb
      (by omega) (height / 2) 0 ⟨data, 0, 0⟩ rfl rfl (by omega)
    simp only [Nat.zero_add, Nat.mul_zero, Nat.sub_zero] at f1 f2 f3 f4
    have g1 : width * (height / 2) ≤ width * (height - height / 2) :=
      Nat.mul_le_mul_left width (by omega)
    have g2 : width * (height - height / 2) ≤ width * height :=
      Nat.mul_le_mul_left width (by omega)
    simp only [if_true]
    by_cases hodd : height % 2 = 1
    · obtain ⟨c1, c2, c3, c4⟩ := formatScanline_spec bigEndian r g b width
        (flipRows bigEndian 4 r g b width height (height / 2) 0 ⟨data, 0, 0⟩) (by rw [f2, f1])
      rw [f1] at c3 c4
      have g3 : width * (height / 2) + width ≤ width * (height - height / 2) :=
        row_before width (height / 2) (height - height / 2) (by omega)
      simp only [hodd, if_true]
      constructor
      · intro i j hi hj
        rcases Nat.lt_trichotomy i (height / 2) with hlt | heq | hgt
        · have h1 := row_before width i (height / 2) hlt
          rw [show height - 1 - i = height - i - 1 by omega, ← (f4 i j (Nat.zero_le _) hlt hj).1]
          exact readWord_congr bigEndian _ _ _ (fun a h3 h4 => c3 a (by omega))
        · subst heq
          rw [show height - 1 - height / 2 = height / 2 by omega,
            c4 (width * (height / 2) + j) (by omega) (by omega)]
          exact pixelAt_congr _ _ _ r g b hr hg hb (fun a h3 h4 => f3 a (by omega))
        · have h1 := row_before width (height / 2) i hgt
          have h2 := (f4 (height - i - 1) j (Nat.zero_le _) (by omega) hj).2
          rw [show height - (height - i - 1) - 1 = i by omega] at h2
          rw [show height - 1 - i = height - i - 1 by omega, ← h2]
          exact readWord_congr bigEndian _ _ _ (fun a h3 h4 => c3 a (by omega))
      · intro a ha
        rw [c3 a (by omega), f3 a (by omega)]
    · simp only [hodd, if_false]
      constructor
      · intro i j hi hj
        by_cases hlt : i < height / 2
        · rw [show height - 1 - i = height - i - 1 by omega]
          exact (f4 i j (Nat.zero_le _) hlt hj).1
        · have h2 := (f4 (height - i - 1) j (Nat.zero_le _) (by omega) hj).2
          rw [show height - (height - i - 1) - 1 = i by omega] at h2
          rw [show height - 1 - i = height - i - 1 by omega]
          exact h2
      · intro a ha
        exact f3 a (by omega)

/-- C26 on a worked instance: an image of 2 by 3 pixels, flipped, on a little-endian
machine, with the channels at the positions 2, 1 and 0. -/
theorem formatScreenshot_four_bytes_witness :
    (0 < 2 ∧ 0 < 3 ∧ 4 * 2 * 3 < 4294967296 ∧ 2 < 4 ∧ 1 < 4 ∧ 0 < 4) ∧
    ∃ out, formatScreenshot false 2 3 (4 * 2 * 3) 2 1 0 true rampData = some out ∧
      (∀ i j, i < 3 → j < 2 →
        readWord false out (2 * i + j)
          = pixelAt rampData (4 * (2 * (if true then 3 - 1 - i else i) + j)) 2 1 0) ∧
      ∀ a, 4 * (2 * 3) ≤ a → out a = rampData a :=
  ⟨by decide,
   formatScreenshot_four_bytes false 2 3 2 1 0 true rampData (by decide) (by decide)
     (by decide) (by decide) (by decide) (by decide)⟩

/-- C27, as the code has it: on an image of two pixels of three bytes each, without
flipping, on either byte order, `formatScreenshot` returns with the pixel of the
first word made from the original bytes, but the store of that word has overwritten
the first byte of the second pixel before it is read: the second word is the pixel
made from the bytes of the buffer after that store, and differs from `createPixel`
of the bytes that the second pixel had. -/
theorem formatScreenshot_three_bytes_overwrites (bigEndian : Bool) :
    ∃ out, formatScreenshot bigEndian 2 1 6 0 1 2 false twoPixels = some out ∧
      readWord bigEndian out 0 = pixelAt twoPixels 0 0 1 2 ∧
      readWord bigEndian out 1
        = pixelAt (writeWord bigEndian twoPixels 0 (pixelAt twoPixels 0 0 1 2)) 3 0 1 2 ∧
      readWord bigEndian out 1 ≠ pixelAt twoPixels 3 0 1 2 := by
  cases bigEndian
  · exact ⟨_, rfl, by decide, by decide, by decide⟩
  · exact ⟨_, rfl, by decide, by decide, by decide⟩

/-! ## Frames whose render section is not entered -/

/-- When the render section is not entered, `render` makes no call between the
entry and the exit of the section besides the bind and unbind of the target. -/
theorem render_not_entered_calls (S : StdSort) (threshold : Nat)
    (lights : LightId → RendererLight) (r : Renderer) (eye : PxMat44)
    (proj : RendererProjection) (target : Option TargetId) (depthOnly : Bool) :
    (render S threshold false lights r eye proj target depthOnly).calls
      = bindTarget target ++ [Call.scopedRenderEnter] ++ unbindTarget target
        ++ [Call.scopedRenderLeave] := by
  simp [render]

/-- C7 fails as stated: with `depthOnly` set, one opaque lit and one unlit context
queued, and a render section that is not entered (`beginRender()` fails), `render`
binds no ambient colour and dispatches no queue. -/
theorem render_depthOnly_not_entered :
    litRenderer.m_visibleLitMeshes ≠ [] ∧ litRenderer.m_visibleUnlitMeshes ≠ [] ∧
    (render insertionStdSort 8 false sampleLights litRenderer sampleEye
        (RendererProjection.other 0) none true).calls
      = [Call.scopedRenderEnter, Call.scopedRenderLeave] ∧
    ambientBinds (render insertionStdSort 8 false sampleLights litRenderer sampleEye
        (RendererProjection.other 0) none true).calls = [] ∧
    dispatchOrder (render insertionStdSort 8 false sampleLights litRenderer sampleEye
        (RendererProjection.other 0) none true).calls = [] := by
  refine ⟨by decide, by decide, ?_, ?_, ?_⟩ <;> rw [render_not_entered_calls] <;> rfl

/-- C8 fails as stated: with `depthOnly` clear, two queued lights, a threshold of one
and a render section that is not entered (`beginRender()` fails), `render` does not
bind the deferred state, dispatches no queue and calls `renderDeferredLight` for no
light. -/
theorem render_deferred_not_entered :
    1 < litRenderer.m_visibleLights.length ∧
    (render insertionStdSort 1 false sampleLights litRenderer sampleEye
        (RendererProjection.other 0) none false).calls
      = [Call.scopedRenderEnter, Call.scopedRenderLeave] ∧
    (render insertionStdSort 1 false sampleLights litRenderer sampleEye
        (RendererProjection.other 0) none false).calls.count Call.bindDeferredState = 0 ∧
    dispatchOrder (render insertionStdSort 1 false sampleLights litRenderer sampleEye
        (RendererProjection.other 0) none false).calls = [] ∧
    deferredLights (render insertionStdSort 1 false sampleLights litRenderer sampleEye
        (RendererProjection.other 0) none false).calls = [] := by
  refine ⟨by decide, ?_, ?_, ?_, ?_⟩ <;> rw [render_not_entered_calls] <;> rfl

/-- C10 fails as stated: with `depthOnly` clear, no light queued, one opaque lit, one
unlit and two transparent contexts queued, and a render section that is not entered
(`beginRender()` fails), `render` binds no ambient colour and dispatches no queue. -/
theorem render_unlit_not_entered :
    ({ litRenderer with m_visibleLights := [] } : Renderer).m_visibleLights = [] ∧
    (render insertionStdSort 8 false sampleLights { litRenderer with m_visibleLights := [] }
        sampleEye (RendererProjection.other 0) none false).calls
      = [Call.scopedRenderEnter, Call.scopedRenderLeave] ∧
    ambientBinds (render insertionStdSort 8 false sampleLights
        { litRenderer with m_visibleLights := [] } sampleEye
        (RendererProjection.other 0) none false).calls = [] ∧
    dispatchOrder (render insertionStdSort 8 false sampleLights
        { litRenderer with m_visibleLights := [] } sampleEye
        (RendererProjection.other 0) none false).calls = [] := by
  refine ⟨rfl, ?_, ?_, ?_⟩ <;> rw [render_not_entered_calls] <;> rfl

/-- C21 fails as stated: with a screen space queue that is not empty, `depthOnly`
clear and a render section that is not entered (`beginRender()` fails), `render` does
not dispatch the screen space queue. -/
theorem render_screenSpace_not_entered :
    ({ emptyRenderer with
        m_screenSpaceMeshes := [sampleContext 1 2] } : Renderer).m_screenSpaceMeshes ≠ [] ∧
    (render insertionStdSort 8 false sampleLights
        { emptyRenderer with m_screenSpaceMeshes := [sampleContext 1 2] } sampleEye
        (RendererProjection.other 0) none false).calls
      = [Call.scopedRenderEnter, Call.scopedRenderLeave] ∧
    dispatches Queue.screenSpace (render insertionStdSort 8 false sampleLights
        { emptyRenderer with m_screenSpaceMeshes := [sampleContext 1 2] } sampleEye
        (RendererProjection.other 0) none false).calls = [] := by
  refine ⟨by simp, ?_, ?_⟩ <;> rw [render_not_entered_calls] <;> rfl

end SampleRenderer
